import Mathlib

/-!
# Threagile risk rules: a shallow embedding

The built-in rules `MissingBuildInfrastructureRule` and `MissingHardeningRule`
(`pkg/risks/builtin`) and the script node `TrueExpression`
(`pkg/risks/script/expressions`) are embedded as Lean functions.

Conventions.
* A Go call that may end in a runtime panic (nil dereference) returns `Option`;
  `none` is the panic.
* A Go `error` result is `Option GoError`; `none` is the nil error.
* A Go map is an association list; indexing is `List.lookup` (the first
  binding of a key is the binding of the map).
* Package `pkg/types` is outside the verified sources.  Its enumerations and
  records are modelled below; its functions are the fields of `TypesPkg` and
  every theorem holds for every value of that record.
* The graph predicates of `helpers.go` are outside the verified sources; only
  their tests (`helpers_test.go`) are among them.  The predicates are modelled
  from the specification, and every test is evaluated on the model.
* Of `Context.DoIt` (`internal/threagile/context.go`) the part that generates
  the artifacts is embedded: the context it leaves and the artifacts it
  generates, in order.
-/

set_option autoImplicit false

namespace Threagile

/-! ## Go values -/

/-- Go `float64`: the not-a-number value, the two infinities and the finite
values (every finite `float64` is a rational number). -/
inductive Float64 where
  | nan
  | negInf
  | finite (q : ℚ)
  | posInf
  deriving DecidableEq

namespace Float64

/-- Go `a >= b` on `float64`: false as soon as one side is not a number. -/
def ge : Float64 → Float64 → Bool
  | nan, _ => false
  | _, nan => false
  | posInf, _ => true
  | _, negInf => true
  | negInf, _ => false
  | finite _, posInf => false
  | finite a, finite b => decide (b ≤ a)

/-- Go `a > b` on `float64`: false as soon as one side is not a number. -/
def gt : Float64 → Float64 → Bool
  | nan, _ => false
  | _, nan => false
  | negInf, _ => false
  | _, posInf => false
  | posInf, _ => true
  | finite _, negInf => true
  | finite a, finite b => decide (b < a)

/-- Go conversion `float64(n)` of an `int` (exact for the limits used here). -/
def ofInt (n : Int) : Float64 := finite (n : ℚ)

end Float64

/-- Go `error` values: a plain error, or an error built with the `%w` verb,
which keeps the wrapped cause. -/
inductive GoError where
  | new (msg : String)
  | wrap (msg : String) (cause : GoError)
  deriving DecidableEq

namespace GoError

/-- The method `Error()`: the message of the error. -/
def Error : GoError → String
  | new msg => msg
  | wrap msg _ => msg

/-- The function `errors.Unwrap`. -/
def Unwrap : GoError → Option GoError
  | new _ => none
  | wrap _ cause => some cause

end GoError

/-! ## The data model of `pkg/types` -/

/-- Modelled from the spec: the confidentiality rating of `pkg/types`, an
integer enumeration in ascending order. -/
inductive Confidentiality where
  | Public
  | Internal
  | Restricted
  | Confidential
  | StrictlyConfidential
  deriving DecidableEq, Repr

/-- The integer behind a confidentiality rating. -/
def Confidentiality.rank : Confidentiality → Nat
  | Public => 0
  | Internal => 1
  | Restricted => 2
  | Confidential => 3
  | StrictlyConfidential => 4

/-- Modelled from the spec: the criticality rating of `pkg/types` (used for
integrity and availability), an integer enumeration in ascending order. -/
inductive Criticality where
  | Archive
  | Operational
  | Important
  | Critical
  | MissionCritical
  deriving DecidableEq, Repr

/-- The integer behind a criticality rating. -/
def Criticality.rank : Criticality → Nat
  | Archive => 0
  | Operational => 1
  | Important => 2
  | Critical => 3
  | MissionCritical => 4

/-- Modelled from the spec: the exploitation impact enumeration. -/
inductive RiskExploitationImpact where
  | LowImpact
  | MediumImpact
  | HighImpact
  | VeryHighImpact
  deriving DecidableEq, Repr

/-- Modelled from the spec: the exploitation likelihood enumeration. -/
inductive RiskExploitationLikelihood where
  | Unlikely
  | Likely
  | VeryLikely
  | Frequent
  deriving DecidableEq, Repr

/-- Modelled from the spec: the severity enumeration, the codomain of the
severity calculator. -/
inductive RiskSeverity where
  | LowSeverity
  | MediumSeverity
  | ElevatedSeverity
  | HighSeverity
  | CriticalSeverity
  deriving DecidableEq, Repr

/-- Modelled from the spec: the data breach probability enumeration. -/
inductive DataBreachProbability where
  | Improbable
  | Possible
  | Probable
  deriving DecidableEq, Repr

/-- Modelled from the spec: the type of a technical asset (an enumeration
that includes `Datastore`). -/
inductive TechnicalAssetType where
  | ExternalEntity
  | Process
  | Datastore
  deriving DecidableEq, Repr

/-- Modelled from the spec: the capability tags of a technology; the four
tags the rules ask for, and any other tag by name. -/
inductive TechnologyAttribute where
  | BuildPipeline
  | SourcecodeRepository
  | DevOpsClient
  | IsHighValueTarget
  | Other (name : String)
  deriving DecidableEq, Repr

/-- Modelled from the spec: the technologies of an asset, as the set of
capability tags they carry. -/
structure TechnologyList where
  tags : List TechnologyAttribute
  deriving DecidableEq

/-- Modelled from the spec: `Technologies.GetAttribute(tag)` holds when the
tag is in the set. -/
def TechnologyList.GetAttribute (what : TechnologyList) (tag : TechnologyAttribute) : Bool :=
  decide (tag ∈ what.tags)

/-- Modelled from the spec: the function (phase) of a risk category. -/
inductive RiskFunction where
  | BusinessSide
  | Architecture
  | Development
  | Operations
  deriving DecidableEq, Repr

/-- Modelled from the spec: the STRIDE classification. -/
inductive STRIDE where
  | Spoofing
  | Tampering
  | Repudiation
  | InformationDisclosure
  | DenialOfService
  | ElevationOfPrivilege
  deriving DecidableEq, Repr

/-- The fields of `types.TechnicalAsset` that the rules read (`AssetType` is
the Go field `Type`). -/
structure TechnicalAsset where
  Id : String
  Title : String
  AssetType : TechnicalAssetType
  Technologies : TechnologyList
  Confidentiality : Confidentiality
  Integrity : Criticality
  Availability : Criticality
  RAA : Float64
  OutOfScope : Bool
  CustomDevelopedParts : Bool
  deriving DecidableEq

/-- Modelled from the spec: the type of a trust boundary, an enumeration of
network kinds and the kind `ExecutionEnvironment`.  The first value is the Go
zero value, which the tests of `helpers_test.go` use as a network kind. -/
inductive TrustBoundaryType where
  | NetworkOnPrem
  | NetworkDedicatedHoster
  | NetworkVirtualLAN
  | NetworkCloudProvider
  | NetworkCloudSecurityGroup
  | NetworkPolicyNamespaceIsolation
  | ExecutionEnvironment
  deriving DecidableEq, Repr

/-- Modelled from the spec: a boundary type is of a network kind when it is
not `ExecutionEnvironment`. -/
def TrustBoundaryType.IsNetworkBoundary (what : TrustBoundaryType) : Bool :=
  decide (what ≠ TrustBoundaryType.ExecutionEnvironment)

/-- The fields of `types.TrustBoundary` (`BoundaryType` is the Go field
`Type`). -/
structure TrustBoundary where
  Id : String := ""
  BoundaryType : TrustBoundaryType := TrustBoundaryType.NetworkOnPrem
  TrustBoundariesNested : List String := []
  TechnicalAssetsInside : List String := []
  deriving DecidableEq

/-- The fields of `types.CommunicationLink` that the predicates read. -/
structure CommunicationLink where
  SourceId : String
  TargetId : String
  deriving DecidableEq

/-- The part of `types.Model` that the rules and predicates read: the map
from asset id to technical asset, the map from boundary id to trust boundary,
and the index from asset id to its direct containing trust boundary.  The
values of the maps are records (no nil entry); a nil map is the empty map. -/
structure Model where
  TechnicalAssets : List (String × TechnicalAsset)
  TrustBoundaries : List (String × TrustBoundary) := []
  DirectContainingTrustBoundaryMappedByTechnicalAssetId : List (String × TrustBoundary) := []

/-- Go map indexing `input.TechnicalAssets[id]`; `none` is the nil pointer a
missing key gives. -/
def Model.technicalAsset (input : Model) (id : String) : Option TechnicalAsset :=
  input.TechnicalAssets.lookup id

/-- Modelled from the spec: `Model.SortedTechnicalAssetIDs()`, the keys of the
asset map in ascending order (strings compared character by character). -/
def Model.SortedTechnicalAssetIDs (input : Model) : List String :=
  ((input.TechnicalAssets.map Prod.fst).dedup).insertionSort (fun a b => a.data ≤ b.data)

/-- The record `types.RiskCategory`. -/
structure RiskCategory where
  ID : String
  Title : String
  Description : String
  Impact : String
  ASVS : String
  CheatSheet : String
  Action : String
  Mitigation : String
  Check : String
  Function : RiskFunction
  STRIDE : STRIDE
  DetectionLogic : String
  RiskAssessment : String
  FalsePositives : String
  ModelFailurePossibleReason : Bool
  CWE : Int
  deriving DecidableEq

/-- The fields of `types.Risk` that the rules set. -/
structure Risk where
  CategoryId : String
  Severity : RiskSeverity
  ExploitationLikelihood : RiskExploitationLikelihood
  ExploitationImpact : RiskExploitationImpact
  Title : String
  MostRelevantTechnicalAssetId : String
  DataBreachProbability : DataBreachProbability
  DataBreachTechnicalAssetIDs : List String
  SyntheticId : String
  deriving DecidableEq

/-- The functions of `pkg/types` that the rules call and whose bodies are
outside the verified sources. -/
structure TypesPkg where
  HighestProcessedConfidentiality : Model → TechnicalAsset → Confidentiality
  HighestProcessedIntegrity : Model → TechnicalAsset → Criticality
  HighestProcessedAvailability : Model → TechnicalAsset → Criticality
  HighestSensitivityScore : TechnicalAsset → Float64
  CalculateSeverity : RiskExploitationLikelihood → RiskExploitationImpact → RiskSeverity

/-! ## `missing_build_infrastructure_rule.go` -/

namespace MissingBuildInfrastructureRule

/-- The method `Category`. -/
def Category : RiskCategory where
  ID := "missing-build-infrastructure"
  Title := "Missing Build Infrastructure"
  Description := "The modeled architecture does not contain a build infrastructure (devops-client, sourcecode-repo, build-pipeline, etc.), " ++
    "which might be the risk of a model missing critical assets (and thus not seeing their risks). " ++
    "If the architecture contains custom-developed parts, the pipeline where code gets developed " ++
    "and built needs to be part of the model."
  Impact := "If this risk is unmitigated, attackers might be able to exploit risks unseen in this threat model due to " ++
    "critical build infrastructure components missing in the model."
  ASVS := "V1 - Architecture, Design and Threat Modeling Requirements"
  CheatSheet := "https://cheatsheetseries.owasp.org/cheatsheets/Attack_Surface_Analysis_Cheat_Sheet.html"
  Action := "Build Pipeline Hardening"
  Mitigation := "Include the build infrastructure in the model."
  Check := "Are recommendations from the linked cheat sheet and referenced ASVS chapter applied?"
  Function := RiskFunction.Architecture
  STRIDE := STRIDE.Tampering
  DetectionLogic := "Models with in-scope custom-developed parts missing in-scope development (code creation) and build infrastructure " ++
    "components (devops-client, sourcecode-repo, build-pipeline, etc.)."
  RiskAssessment := "The risk rating depends on the highest sensitivity of the in-scope assets running custom-developed parts."
  FalsePositives := "Models not having any custom-developed parts " ++
    "can be considered as false positives after individual review."
  ModelFailurePossibleReason := true
  CWE := 1127

/-- The method `SupportedTags`. -/
def SupportedTags : List String := []

/-- The local variables of `GenerateRisks` that the loop updates. -/
structure Locals where
  hasCustomDevelopedParts : Bool
  hasBuildPipeline : Bool
  hasSourcecodeRepo : Bool
  hasDevOpsClient : Bool
  impact : RiskExploitationImpact
  mostRelevantAsset : Option TechnicalAsset

/-- The locals before the loop: the four flags false, impact `LowImpact`,
`mostRelevantAsset` nil. -/
def Locals.init : Locals where
  hasCustomDevelopedParts := false
  hasBuildPipeline := false
  hasSourcecodeRepo := false
  hasDevOpsClient := false
  impact := RiskExploitationImpact.LowImpact
  mostRelevantAsset := none

/-- The method `skipAsset`. -/
def skipAsset (technicalAsset : TechnicalAsset) : Bool :=
  if !technicalAsset.CustomDevelopedParts || technicalAsset.OutOfScope then true else false

/-- The function `evaluateImpactFromHighestCIAValues`, on the impact variable. -/
def evaluateImpactFromHighestCIAValues (T : TypesPkg) (input : Model)
    (technicalAsset : TechnicalAsset) (impact : RiskExploitationImpact) : RiskExploitationImpact :=
  if decide (Confidentiality.Confidential.rank ≤ (T.HighestProcessedConfidentiality input technicalAsset).rank) ||
      decide (Criticality.Critical.rank ≤ (T.HighestProcessedIntegrity input technicalAsset).rank) ||
      decide (Criticality.Critical.rank ≤ (T.HighestProcessedAvailability input technicalAsset).rank) then
    RiskExploitationImpact.MediumImpact
  else impact

/-- The function `evaluateImpactFromTechnicalAssetCIAValues`, on the impact
variable. -/
def evaluateImpactFromTechnicalAssetCIAValues (technicalAsset : TechnicalAsset)
    (impact : RiskExploitationImpact) : RiskExploitationImpact :=
  if decide (Confidentiality.Confidential.rank ≤ technicalAsset.Confidentiality.rank) ||
      decide (Criticality.Critical.rank ≤ technicalAsset.Integrity.rank) ||
      decide (Criticality.Critical.rank ≤ technicalAsset.Availability.rank) then
    RiskExploitationImpact.MediumImpact
  else impact

/-- The function `getTechFlags`, on the three flag variables. -/
def getTechFlags (technicalAsset : TechnicalAsset) (st : Locals) : Locals :=
  let st := if technicalAsset.Technologies.GetAttribute TechnologyAttribute.BuildPipeline then
    { st with hasBuildPipeline := true } else st
  let st := if technicalAsset.Technologies.GetAttribute TechnologyAttribute.SourcecodeRepository then
    { st with hasSourcecodeRepo := true } else st
  if technicalAsset.Technologies.GetAttribute TechnologyAttribute.DevOpsClient then
    { st with hasDevOpsClient := true } else st

/-- The method `createRisk`. -/
def createRisk (T : TypesPkg) (technicalAsset : TechnicalAsset)
    (impact : RiskExploitationImpact) : Risk :=
  let title := "<b>Missing Build Infrastructure</b> in the threat model (referencing asset <b>" ++
    technicalAsset.Title ++ "</b> as an example)"
  let risk : Risk :=
    { CategoryId := Category.ID
      Severity := T.CalculateSeverity RiskExploitationLikelihood.Unlikely impact
      ExploitationLikelihood := RiskExploitationLikelihood.Unlikely
      ExploitationImpact := impact
      Title := title
      MostRelevantTechnicalAssetId := technicalAsset.Id
      DataBreachProbability := DataBreachProbability.Improbable
      DataBreachTechnicalAssetIDs := []
      SyntheticId := "" }
  { risk with SyntheticId := risk.CategoryId ++ "@" ++ technicalAsset.Id }

/-- The body of the loop of `GenerateRisks` on an asset (the part after the
map lookup); `none` is the dereference of a nil `mostRelevantAsset`. -/
def loopBody (T : TypesPkg) (input : Model) (st : Locals) (technicalAsset : TechnicalAsset) :
    Option Locals :=
  let st := getTechFlags technicalAsset st
  if skipAsset technicalAsset then some st
  else
    let st := { st with hasCustomDevelopedParts := true }
    let st :=
      if st.impact = RiskExploitationImpact.LowImpact then
        { st with
          mostRelevantAsset := some technicalAsset
          impact := evaluateImpactFromHighestCIAValues T input technicalAsset st.impact }
      else st
    let st := { st with impact := evaluateImpactFromTechnicalAssetCIAValues technicalAsset st.impact }
    match st.mostRelevantAsset with
    | none => none
    | some mostRelevantAsset =>
      if (T.HighestSensitivityScore technicalAsset).gt (T.HighestSensitivityScore mostRelevantAsset) then
        some { st with mostRelevantAsset := some technicalAsset }
      else some st

/-- One iteration of the loop of `GenerateRisks`, for an id of the sorted id
list; `none` is a nil dereference. -/
def loopStep (T : TypesPkg) (input : Model) (st : Locals) (id : String) : Option Locals :=
  match input.technicalAsset id with
  | none => none
  | some technicalAsset => loopBody T input st technicalAsset

/-- The loop of `GenerateRisks` over a list of ids. -/
def runLoop (T : TypesPkg) (input : Model) : Locals → List String → Option Locals
  | st, [] => some st
  | st, id :: ids =>
    match loopStep T input st id with
    | none => none
    | some st1 => runLoop T input st1 ids

/-- The statements of `GenerateRisks` after the loop. -/
def finish (T : TypesPkg) (st : Locals) : Option (List Risk × Option GoError) :=
  let hasBuildInfrastructure := st.hasBuildPipeline && st.hasSourcecodeRepo && st.hasDevOpsClient
  if st.hasCustomDevelopedParts && !hasBuildInfrastructure then
    match st.mostRelevantAsset with
    | none => none
    | some mostRelevantAsset => some ([createRisk T mostRelevantAsset st.impact], none)
  else some ([], none)

/-- The method `GenerateRisks`: the risks and the error, or `none` for a
runtime panic. -/
def GenerateRisks (T : TypesPkg) (input : Model) : Option (List Risk × Option GoError) :=
  match runLoop T input Locals.init input.SortedTechnicalAssetIDs with
  | none => none
  | some st => finish T st

end MissingBuildInfrastructureRule

/-! ## `missing_hardening_rule.go` -/

/-- The record `MissingHardeningRule`. -/
structure MissingHardeningRule where
  raaLimit : Int
  raaLimitReduced : Int
  deriving DecidableEq

/-- The constructor `NewMissingHardeningRule`. -/
def NewMissingHardeningRule : MissingHardeningRule where
  raaLimit := 55
  raaLimitReduced := 40

namespace MissingHardeningRule

/-- The method `Category` (`toString` on an `Int` is `strconv.Itoa`). -/
def Category (r : MissingHardeningRule) : RiskCategory where
  ID := "missing-hardening"
  Title := "Missing Hardening"
  Description := "Technical assets with a Relative Attacker Attractiveness (RAA) value of " ++ toString r.raaLimit ++ " % or higher should be " ++
    "explicitly hardened taking best practices and vendor hardening guides into account."
  Impact := "If this risk remains unmitigated, attackers might be able to easier attack high-value targets."
  ASVS := "V14 - Configuration Verification Requirements"
  CheatSheet := "https://cheatsheetseries.owasp.org/cheatsheets/Attack_Surface_Analysis_Cheat_Sheet.html"
  Action := "System Hardening"
  Mitigation := "Try to apply all hardening best practices (like CIS benchmarks, OWASP recommendations, vendor " ++
    "recommendations, DevSec Hardening Framework, DBSAT for Oracle databases, and others)."
  Check := "Are recommendations from the linked cheat sheet and referenced ASVS chapter applied?"
  Function := RiskFunction.Operations
  STRIDE := STRIDE.Tampering
  DetectionLogic := "In-scope technical assets with RAA values of " ++ toString r.raaLimit ++ " % or higher. " ++
    "Generally for high-value targets like data stores, application servers, identity providers and ERP systems this limit is reduced to " ++ toString r.raaLimitReduced ++ " %"
  RiskAssessment := "The risk rating depends on the sensitivity of the data processed in the technical asset."
  FalsePositives := "Usually no false positives."
  ModelFailurePossibleReason := false
  CWE := 16

/-- The method `SupportedTags`. -/
def SupportedTags : List String := ["tomcat"]

/-- The method `skipAsset`. -/
def skipAsset (technicalAsset : TechnicalAsset) : Bool :=
  technicalAsset.OutOfScope

/-- The method `createRisk`. -/
def createRisk (T : TypesPkg) (r : MissingHardeningRule) (input : Model)
    (technicalAsset : TechnicalAsset) : Risk :=
  let title := "<b>Missing Hardening</b> risk at <b>" ++ technicalAsset.Title ++ "</b>"
  let impact :=
    if decide (T.HighestProcessedConfidentiality input technicalAsset = Confidentiality.StrictlyConfidential) ||
        decide (T.HighestProcessedIntegrity input technicalAsset = Criticality.MissionCritical) then
      RiskExploitationImpact.MediumImpact
    else RiskExploitationImpact.LowImpact
  let risk : Risk :=
    { CategoryId := r.Category.ID
      Severity := T.CalculateSeverity RiskExploitationLikelihood.Likely impact
      ExploitationLikelihood := RiskExploitationLikelihood.Likely
      ExploitationImpact := impact
      Title := title
      MostRelevantTechnicalAssetId := technicalAsset.Id
      DataBreachProbability := DataBreachProbability.Improbable
      DataBreachTechnicalAssetIDs := [technicalAsset.Id]
      SyntheticId := "" }
  { risk with SyntheticId := risk.CategoryId ++ "@" ++ technicalAsset.Id }

/-- The condition under which the loop of `GenerateRisks` appends a risk for
an asset it did not skip. -/
def raaCondition (r : MissingHardeningRule) (technicalAsset : TechnicalAsset) : Bool :=
  technicalAsset.RAA.ge (Float64.ofInt r.raaLimit) ||
    (technicalAsset.RAA.ge (Float64.ofInt r.raaLimitReduced) &&
      (decide (technicalAsset.AssetType = TechnicalAssetType.Datastore) ||
        technicalAsset.Technologies.GetAttribute TechnologyAttribute.IsHighValueTarget))

/-- One iteration of the loop of `GenerateRisks`; `none` is the dereference of
the nil pointer a missing key gives. -/
def loopStep (T : TypesPkg) (r : MissingHardeningRule) (input : Model) (risks : List Risk)
    (id : String) : Option (List Risk) :=
  match input.technicalAsset id with
  | none => none
  | some technicalAsset =>
    if skipAsset technicalAsset then some risks
    else if raaCondition r technicalAsset then
      some (risks ++ [createRisk T r input technicalAsset])
    else some risks

/-- The loop of `GenerateRisks` over a list of ids. -/
def runLoop (T : TypesPkg) (r : MissingHardeningRule) (input : Model) :
    List Risk → List String → Option (List Risk)
  | risks, [] => some risks
  | risks, id :: ids =>
    match loopStep T r input risks id with
    | none => none
    | some risks1 => runLoop T r input risks1 ids

/-- The method `GenerateRisks`: the risks and the error, or `none` for a
runtime panic. -/
def GenerateRisks (T : TypesPkg) (r : MissingHardeningRule) (input : Model) :
    Option (List Risk × Option GoError) :=
  match runLoop T r input [] input.SortedTechnicalAssetIDs with
  | none => none
  | some risks => some (risks, none)

end MissingHardeningRule

/-! ## `helpers.go` (the graph predicates; only `helpers_test.go` is among the sources) -/

/-- Go map indexing with the comma-ok form,
`DirectContainingTrustBoundaryMappedByTechnicalAssetId[id]`; `none` is "no
entry". -/
def Model.directBoundary (input : Model) (id : String) : Option TrustBoundary :=
  input.DirectContainingTrustBoundaryMappedByTechnicalAssetId.lookup id

/-- Modelled from the spec: the helper `contains` of `helpers.go`, a linear
search of a list of strings for a string. -/
def contains : List String → String → Bool
  | [], _ => false
  | x :: xs, a => if x = a then true else contains xs a

/-- Modelled from the spec: the parent of a boundary, found by searching the
`TrustBoundariesNested` lists of the boundaries of the model for the id of
the child (no stored back-pointer); `none` when no boundary nests it. -/
def Model.parentTrustBoundary (input : Model) (child : TrustBoundary) : Option TrustBoundary :=
  (input.TrustBoundaries.find? (fun entry => contains entry.2.TrustBoundariesNested child.Id)).map
    Prod.snd

/-- Modelled from the spec: `isAcrossTrustBoundaryNetworkOnly` of `helpers.go`.
True iff source and target sit in different trust boundaries and both
boundaries are of a network kind; false if either side has no recorded direct
boundary, or either boundary is an execution environment, or both sides share
the same boundary. -/
def isAcrossTrustBoundaryNetworkOnly (parsedModel : Model)
    (communicationLink : CommunicationLink) : Bool :=
  match parsedModel.directBoundary communicationLink.SourceId,
      parsedModel.directBoundary communicationLink.TargetId with
  | some trustBoundaryOfSourceAsset, some trustBoundaryOfTargetAsset =>
    trustBoundaryOfSourceAsset.BoundaryType.IsNetworkBoundary &&
      trustBoundaryOfTargetAsset.BoundaryType.IsNetworkBoundary &&
      decide (trustBoundaryOfSourceAsset.Id ≠ trustBoundaryOfTargetAsset.Id)
  | _, _ => false

/-- Modelled from the spec: `isSameExecutionEnvironment` of `helpers.go`.
True iff neither asset has a recorded boundary; false if exactly one has;
otherwise true only if both boundaries are of kind `ExecutionEnvironment` and
identical by id. -/
def isSameExecutionEnvironment (parsedModel : Model) (ta : TechnicalAsset)
    (otherAssetId : String) : Bool :=
  match parsedModel.directBoundary ta.Id, parsedModel.directBoundary otherAssetId with
  | none, none => true
  | some trustBoundaryOfMyAsset, some trustBoundaryOfOtherAsset =>
    decide (trustBoundaryOfMyAsset.BoundaryType = TrustBoundaryType.ExecutionEnvironment) &&
      decide (trustBoundaryOfOtherAsset.BoundaryType = TrustBoundaryType.ExecutionEnvironment) &&
      decide (trustBoundaryOfMyAsset.Id = trustBoundaryOfOtherAsset.Id)
  | _, _ => false

/-- Modelled from the spec: the boundary that `isSameTrustBoundaryNetworkOnly`
compares for an asset.  A direct boundary of a network kind is taken as it
is; a direct boundary that is not of a network kind is resolved by walking up
to its parent, and an unresolved parent is treated as "no boundary". -/
def Model.networkBoundary (input : Model) (assetId : String) : Option TrustBoundary :=
  match input.directBoundary assetId with
  | none => none
  | some trustBoundary =>
    if trustBoundary.BoundaryType.IsNetworkBoundary then some trustBoundary
    else input.parentTrustBoundary trustBoundary

/-- Modelled from the spec: `isSameTrustBoundaryNetworkOnly` of `helpers.go`.
True iff neither side has a boundary or both share the identical boundary id,
where differing boundaries that are not of a network kind count as the same
when they are nested inside one common parent; false if exactly one side has
a boundary.  Where the spec's sentence and a test of `helpers_test.go`
disagree the test is followed: two differing boundaries of a network kind are
not the same even under a common parent, and an execution environment
without parent is not the same as a differing network boundary. -/
def isSameTrustBoundaryNetworkOnly (parsedModel : Model) (ta : TechnicalAsset)
    (otherAssetId : String) : Bool :=
  match parsedModel.networkBoundary ta.Id, parsedModel.networkBoundary otherAssetId with
  | none, none => true
  | some trustBoundaryOfMyAsset, some trustBoundaryOfOtherAsset =>
    decide (trustBoundaryOfMyAsset.Id = trustBoundaryOfOtherAsset.Id)
  | _, _ => false

/-! ## `true-expression.go` -/

/-- Modelled from the spec: a script is an untyped nested literal tree
(scalar, list or mapping), the Go type `any` of the parser's argument. -/
inductive Script where
  | null
  | bool (b : Bool)
  | int (n : Int)
  | str (s : String)
  | list (items : List Script)
  | map (entries : List (String × Script))

/-- Modelled from the spec: a value of kind Bool (`common.BoolValue`). -/
structure BoolValue where
  value : Bool
  deriving DecidableEq

/-- The interface `common.BoolExpression`, as the methods `TrueExpression`
calls on its operand. -/
structure BoolExpression (Scope : Type) where
  EvalBool : Scope → BoolValue × String × Option GoError
  Literal : String

/-- The interface `common.Expression`: the type switch of `ParseBool` only
asks whether the value is a `common.BoolExpression`. -/
inductive Expression (Scope : Type) where
  | boolExpression (e : BoolExpression Scope)
  | nonBool (literal : String)

/-- The functions of `common`, `fmt` and `ExpressionList` that
`TrueExpression` calls and whose bodies are outside the verified sources:
`common.ToLiteral`, `common.EmptyBoolValue`, the `%q` verb of `fmt`
(`strconv.Quote`) and `new(ExpressionList).ParseAny`, which returns an
expression (or nil), an error tree (or nil) and an error (or nil). -/
structure ScriptPkg (Scope : Type) where
  ToLiteral : Script → String
  EmptyBoolValue : BoolValue
  Quote : String → String
  ExpressionListParseAny : Script → Option (Expression Scope) × Option Script × Option GoError

/-- The record `TrueExpression`; a nil `expression` is `none`. -/
structure TrueExpression (Scope : Type) where
  literal : String
  expression : Option (BoolExpression Scope)

/-- What a call of `ParseBool` leaves and returns: the receiver after the
call, and the three results (the expression is the receiver itself on
success, nil otherwise). -/
structure ParseOutcome (Scope : Type) where
  receiver : TrueExpression Scope
  result : Option (TrueExpression Scope)
  errorScript : Option Script
  error : Option GoError

namespace TrueExpression

variable {Scope : Type}

/-- The method `ParseBool`.  With a nil error, `%w` prints `%!w(<nil>)` and
wraps nothing. -/
def ParseBool (E : ScriptPkg Scope) (what : TrueExpression Scope) (script : Script) :
    ParseOutcome Scope :=
  let what := { what with literal := E.ToLiteral script }
  match E.ExpressionListParseAny script with
  | (_, errorScript, some itemError) =>
    { receiver := what
      result := none
      errorScript := errorScript
      error := some (GoError.wrap ("failed to parse true-expression: " ++ itemError.Error) itemError) }
  | (item, _, none) =>
    match item with
    | some (Expression.boolExpression castItem) =>
      let what := { what with expression := some castItem }
      { receiver := what, result := some what, errorScript := none, error := none }
    | _ =>
      { receiver := what
        result := none
        errorScript := some script
        error := some (GoError.new "true-expression has non-bool expression: %!w(<nil>)") }

/-- The method `ParseAny`. -/
def ParseAny (E : ScriptPkg Scope) (what : TrueExpression Scope) (script : Script) :
    ParseOutcome Scope :=
  ParseBool E what script

/-- The method `EvalBool`: the value, the error literal and the error, or
`none` for the call on a nil operand. -/
def EvalBool (E : ScriptPkg Scope) (what : TrueExpression Scope) (scope : Scope) :
    Option (BoolValue × String × Option GoError) :=
  match what.expression with
  | none => none
  | some expression =>
    match expression.EvalBool scope with
    | (_, errorLiteral, some evalError) =>
      some (E.EmptyBoolValue, errorLiteral,
        some (GoError.wrap
          (E.Quote what.literal ++ ": error evaluating true-expression: " ++ evalError.Error)
          evalError))
    | (value, _, none) => some (value, "", none)

/-- The method `EvalAny`. -/
def EvalAny (E : ScriptPkg Scope) (what : TrueExpression Scope) (scope : Scope) :
    Option (BoolValue × String × Option GoError) :=
  EvalBool E what scope

/-- The method `Literal`. -/
def Literal (what : TrueExpression Scope) : String :=
  what.literal

/-- The receiver after a call of `EvalBool` or `EvalAny` with a scope: the
two methods read `what.expression` and `what.literal` and assign no field. -/
def afterEval (what : TrueExpression Scope) (_scope : Scope) : TrueExpression Scope :=
  what

end TrueExpression

/-! ## `context.go` -/

/-- The record `GenerateCommands`. -/
structure GenerateCommands where
  DataFlowDiagram : Bool
  DataAssetDiagram : Bool
  RisksJSON : Bool
  TechnicalAssetsJSON : Bool
  StatsJSON : Bool
  RisksExcel : Bool
  TagsExcel : Bool
  ReportPDF : Bool
  deriving DecidableEq, Repr

/-- The method `GenerateCommands.Defaults`. -/
def GenerateCommands.Defaults : GenerateCommands where
  DataFlowDiagram := true
  DataAssetDiagram := true
  RisksJSON := true
  TechnicalAssetsJSON := true
  StatsJSON := true
  RisksExcel := true
  TagsExcel := true
  ReportPDF := true

/-- The field of `common.Config` that decides how the diagrams are rendered. -/
structure Config where
  DiagramDPI : Int
  deriving DecidableEq, Repr

/-- The record `Context`, with the embedded `common.Config` and the
`GenerateCommands` it points to. -/
structure Context where
  Config : Config
  GenerateCommands : GenerateCommands
  ServerMode : Bool := false
  deriving DecidableEq, Repr

/-- The constants `common.MinGraphvizDPI` and `common.MaxGraphvizDPI`, whose
declarations are outside the verified sources. -/
structure GraphvizLimits where
  MinGraphvizDPI : Int
  MaxGraphvizDPI : Int
  deriving DecidableEq, Repr

/-- An artifact that `DoIt` generates; a diagram carries the DPI it is
rendered with. -/
inductive Artifact where
  | DataFlowDiagram (diagramDPI : Int)
  | DataAssetDiagram (diagramDPI : Int)
  | RisksJSON
  | TechnicalAssetsJSON
  | StatsJSON
  | RisksExcel
  | TagsExcel
  | ReportPDF
  deriving DecidableEq, Repr

namespace Context

/-- Lines 423 to 426 of `DoIt`: the PDF report includes both diagrams. -/
def forceDiagrams (generateCommands : Threagile.GenerateCommands) :
    Threagile.GenerateCommands :=
  if generateCommands.ReportPDF then
    { generateCommands with DataFlowDiagram := true, DataAssetDiagram := true }
  else generateCommands

/-- Lines 428 to 433 of `DoIt`: the local variable `diagramDPI`. -/
def diagramDPI (limits : GraphvizLimits) (context : Context) : Int :=
  let diagramDPI := context.Config.DiagramDPI
  if diagramDPI < limits.MinGraphvizDPI then limits.MinGraphvizDPI
  else if diagramDPI > limits.MaxGraphvizDPI then limits.MaxGraphvizDPI
  else diagramDPI

/-- Lines 434 to 535 of `DoIt`: the artifacts generated, in order, for the
generate commands and the DPI. -/
def artifacts (generateCommands : Threagile.GenerateCommands) (diagramDPI : Int) :
    List Artifact :=
  (if generateCommands.DataFlowDiagram then [Artifact.DataFlowDiagram diagramDPI] else []) ++
  (if generateCommands.DataAssetDiagram then [Artifact.DataAssetDiagram diagramDPI] else []) ++
  (if generateCommands.RisksJSON then [Artifact.RisksJSON] else []) ++
  (if generateCommands.TechnicalAssetsJSON then [Artifact.TechnicalAssetsJSON] else []) ++
  (if generateCommands.StatsJSON then [Artifact.StatsJSON] else []) ++
  (if generateCommands.RisksExcel then [Artifact.RisksExcel] else []) ++
  (if generateCommands.TagsExcel then [Artifact.TagsExcel] else []) ++
  (if generateCommands.ReportPDF then [Artifact.ReportPDF] else [])

/-- The method `DoIt` from line 423 to its end, the part that generates the
artifacts (the part before loads and analyses the model and writes neither
the generate commands nor the DPI): the context after the call and the
artifacts generated, in order. -/
def DoIt (limits : GraphvizLimits) (context : Context) : Context × List Artifact :=
  let context := { context with GenerateCommands := forceDiagrams context.GenerateCommands }
  let diagramDPI := diagramDPI limits context
  (context, artifacts context.GenerateCommands diagramDPI)

end Context

/-! ## Predicates used to state the properties -/

/-- An asset is a technical asset of the model when some key of the asset map
is bound to it. -/
def Model.IsTechnicalAsset (input : Model) (a : TechnicalAsset) : Prop :=
  ∃ id, input.technicalAsset id = some a

/-- Some technical asset of the model, in scope or not, carries the tag. -/
def Model.HasTag (input : Model) (tag : TechnologyAttribute) : Prop :=
  ∃ a, input.IsTechnicalAsset a ∧ a.Technologies.GetAttribute tag = true

/-- The asset is custom-developed and not out of scope. -/
def TechnicalAsset.CustomInScope (a : TechnicalAsset) : Prop :=
  a.CustomDevelopedParts = true ∧ a.OutOfScope = false

/-- The asset's own rating is at the escalation level: confidentiality at
least `Confidential`, or integrity or availability at least `Critical`. -/
def TechnicalAsset.ownCIAAtLevel (a : TechnicalAsset) : Bool :=
  decide (Confidentiality.Confidential.rank ≤ a.Confidentiality.rank) ||
    decide (Criticality.Critical.rank ≤ a.Integrity.rank) ||
    decide (Criticality.Critical.rank ≤ a.Availability.rank)

/-- The model's highest processed rating for the asset is at the escalation
level. -/
def Model.processedCIAAtLevel (T : TypesPkg) (input : Model) (a : TechnicalAsset) : Bool :=
  decide (Confidentiality.Confidential.rank ≤ (T.HighestProcessedConfidentiality input a).rank) ||
    decide (Criticality.Critical.rank ≤ (T.HighestProcessedIntegrity input a).rank) ||
    decide (Criticality.Critical.rank ≤ (T.HighestProcessedAvailability input a).rank)

namespace MissingBuildInfrastructureRule

/-- The invariant of the loop of `GenerateRisks`: the impact is `LowImpact` or
`MediumImpact`, and `mostRelevantAsset` is set as soon as the impact is
`MediumImpact` or a custom-developed in-scope asset has been seen. -/
structure Inv (st : Locals) : Prop where
  impact : st.impact = RiskExploitationImpact.LowImpact ∨
    st.impact = RiskExploitationImpact.MediumImpact
  ofMedium : st.impact = RiskExploitationImpact.MediumImpact → st.mostRelevantAsset ≠ none
  ofCustom : st.hasCustomDevelopedParts = true → st.mostRelevantAsset ≠ none

/-- What the loop of `GenerateRisks` has done to the locals `st` once it has
run over the ids `ids`, giving `st1`. -/
structure LoopFacts (T : TypesPkg) (input : Model) (st : Locals) (ids : List String)
    (st1 : Locals) : Prop where
  pipeline : st1.hasBuildPipeline = true ↔ st.hasBuildPipeline = true ∨
    ∃ id ∈ ids, ∃ a, input.technicalAsset id = some a ∧
      a.Technologies.GetAttribute TechnologyAttribute.BuildPipeline = true
  repo : st1.hasSourcecodeRepo = true ↔ st.hasSourcecodeRepo = true ∨
    ∃ id ∈ ids, ∃ a, input.technicalAsset id = some a ∧
      a.Technologies.GetAttribute TechnologyAttribute.SourcecodeRepository = true
  devops : st1.hasDevOpsClient = true ↔ st.hasDevOpsClient = true ∨
    ∃ id ∈ ids, ∃ a, input.technicalAsset id = some a ∧
      a.Technologies.GetAttribute TechnologyAttribute.DevOpsClient = true
  custom : st1.hasCustomDevelopedParts = true ↔ st.hasCustomDevelopedParts = true ∨
    ∃ id ∈ ids, ∃ a, input.technicalAsset id = some a ∧ skipAsset a = false
  medium : st1.impact = RiskExploitationImpact.MediumImpact ↔
    st.impact = RiskExploitationImpact.MediumImpact ∨
    ∃ id ∈ ids, ∃ a, input.technicalAsset id = some a ∧ skipAsset a = false ∧
      (input.processedCIAAtLevel T a = true ∨ a.ownCIAAtLevel = true)
  anchor : ∀ x, st1.mostRelevantAsset = some x → st.mostRelevantAsset = some x ∨
    ∃ id ∈ ids, input.technicalAsset id = some x ∧ skipAsset x = false
  inv : Inv st1

end MissingBuildInfrastructureRule

namespace MissingHardeningRule

/-- The rule emits a risk for the asset: it is not skipped and its RAA meets
the limit that applies to it. -/
def emitsFor (r : MissingHardeningRule) (a : TechnicalAsset) : Bool :=
  !skipAsset a && raaCondition r a

/-- The technical assets of the model in the order of the sorted ids. -/
def sortedAssets (input : Model) : List TechnicalAsset :=
  input.SortedTechnicalAssetIDs.filterMap input.technicalAsset

end MissingHardeningRule

namespace MissingBuildInfrastructureRule

/-- The custom-developed in-scope assets of the model, the assets that
`GenerateRisks` does not skip, in the order of the sorted ids. -/
def customInScopeAssets (input : Model) : List TechnicalAsset :=
  (input.SortedTechnicalAssetIDs.filterMap input.technicalAsset).filter
    (fun a => !skipAsset a)

/-- The last element of a list, or the given default for the empty list. -/
def lastOr (d : Option TechnicalAsset) (l : List TechnicalAsset) : Option TechnicalAsset :=
  match l.getLast? with
  | some x => some x
  | none => d

end MissingBuildInfrastructureRule

/-- The model in which the asset bound to the key `id` is replaced by `b`; a
model without that key is left as it is. -/
def Model.replaceAsset (input : Model) (id : String) (b : TechnicalAsset) : Model :=
  { input with
    TechnicalAssets := input.TechnicalAssets.map (fun p => if p.1 = id then (p.1, b) else p) }

/-! ## Concrete values, for evaluation -/

/-- A value of `TypesPkg` for evaluation: a model without data assets, where
the highest processed rating of an asset is its own rating; the sensitivity
score adds the asset's three rating ranks; the severity is read off the
product of the likelihood and impact weights. -/
def sampleTypes : TypesPkg where
  HighestProcessedConfidentiality := fun _ a => a.Confidentiality
  HighestProcessedIntegrity := fun _ a => a.Integrity
  HighestProcessedAvailability := fun _ a => a.Availability
  HighestSensitivityScore := fun a =>
    Float64.finite ((a.Confidentiality.rank + a.Integrity.rank + a.Availability.rank : Nat) : ℚ)
  CalculateSeverity := fun likelihood impact =>
    let l : Nat := match likelihood with
      | RiskExploitationLikelihood.Unlikely => 1
      | RiskExploitationLikelihood.Likely => 2
      | RiskExploitationLikelihood.VeryLikely => 3
      | RiskExploitationLikelihood.Frequent => 4
    let i : Nat := match impact with
      | RiskExploitationImpact.LowImpact => 1
      | RiskExploitationImpact.MediumImpact => 2
      | RiskExploitationImpact.HighImpact => 3
      | RiskExploitationImpact.VeryHighImpact => 4
    if l * i ≤ 1 then RiskSeverity.LowSeverity
    else if l * i ≤ 3 then RiskSeverity.MediumSeverity
    else if l * i ≤ 8 then RiskSeverity.ElevatedSeverity
    else if l * i ≤ 12 then RiskSeverity.HighSeverity
    else RiskSeverity.CriticalSeverity

/-- An asset for evaluation: in scope, not custom-developed, lowest ratings,
no tag, RAA 0. -/
def sampleAsset (id : String) : TechnicalAsset where
  Id := id
  Title := id
  AssetType := TechnicalAssetType.Process
  Technologies := { tags := [] }
  Confidentiality := Confidentiality.Public
  Integrity := Criticality.Archive
  Availability := Criticality.Archive
  RAA := Float64.finite 0
  OutOfScope := false
  CustomDevelopedParts := false

/-- The model whose asset map binds each asset under its own id. -/
def modelOf (assets : List TechnicalAsset) : Model where
  TechnicalAssets := assets.map (fun a => (a.Id, a))

/-- The constant boolean expression the sample operand parser builds. -/
def constBool (b : Bool) : BoolExpression Unit where
  EvalBool := fun _ => ({ value := b }, "", none)
  Literal := if b then "true" else "false"

/-- A value of `ScriptPkg` for evaluation, over the one-point scope: the
literal of a script is a short rendering of its root, quoting adds double
quotes, and the operand parser reads a boolean scalar as a constant boolean
expression, a string scalar as a non-boolean expression, and rejects any
other tree. -/
def sampleScriptPkg : ScriptPkg Unit where
  ToLiteral := fun script =>
    match script with
    | Script.null => "null"
    | Script.bool true => "true"
    | Script.bool false => "false"
    | Script.int n => toString n
    | Script.str s => s
    | Script.list _ => "[...]"
    | Script.map _ => "(...)"
  EmptyBoolValue := { value := false }
  Quote := fun s => "\"" ++ s ++ "\""
  ExpressionListParseAny := fun script =>
    match script with
    | Script.bool b =>
      (some (Expression.boolExpression (constBool b)), none, none)
    | Script.str s => (some (Expression.nonBool s), none, none)
    | other => (none, some other, some (GoError.new "unknown expression"))

/-- A fresh `TrueExpression` (the Go zero value). -/
def TrueExpression.zero : TrueExpression Unit where
  literal := ""
  expression := none

/-- A custom-developed in-scope asset below every escalation level, first in
id order, with the higher ratings of the two assets below. -/
def higherRatedAsset : TechnicalAsset :=
  { sampleAsset "a" with
    CustomDevelopedParts := true
    Confidentiality := Confidentiality.Restricted
    Integrity := Criticality.Important
    Availability := Criticality.Important }

/-- A custom-developed in-scope asset with the lowest ratings, second in id
order. -/
def lowerRatedAsset : TechnicalAsset :=
  { sampleAsset "b" with CustomDevelopedParts := true }

/-- The model of the two assets above; no asset carries a tag. -/
def twoCustomAssetsModel : Model := modelOf [higherRatedAsset, lowerRatedAsset]

/-- A custom-developed in-scope application rated `Confidential`. -/
def sampleApp : TechnicalAsset :=
  { sampleAsset "app" with
    CustomDevelopedParts := true
    Confidentiality := Confidentiality.Confidential }

/-- An out-of-scope build server carrying the tag `BuildPipeline`. -/
def sampleBuildServer : TechnicalAsset :=
  { sampleAsset "ci" with
    Technologies := { tags := [TechnologyAttribute.BuildPipeline] }
    OutOfScope := true }

/-- A model with one custom-developed in-scope asset and one of the three
build infrastructure tags. -/
def sampleBuildModel : Model := modelOf [sampleApp, sampleBuildServer]

/-- An in-scope process with RAA 60. -/
def sampleWeb : TechnicalAsset :=
  { sampleAsset "web" with RAA := Float64.finite 60 }

/-- An in-scope datastore with RAA 45, rated `StrictlyConfidential`. -/
def sampleDb : TechnicalAsset :=
  { sampleAsset "db" with
    RAA := Float64.finite 45
    AssetType := TechnicalAssetType.Datastore
    Confidentiality := Confidentiality.StrictlyConfidential }

/-- An in-scope datastore with RAA 30. -/
def sampleCache : TechnicalAsset :=
  { sampleAsset "cache" with
    RAA := Float64.finite 30
    AssetType := TechnicalAssetType.Datastore }

/-- An out-of-scope process with RAA 90. -/
def sampleLegacy : TechnicalAsset :=
  { sampleAsset "legacy" with
    RAA := Float64.finite 90
    OutOfScope := true }

/-- A model for the hardening rule: one asset over the limit, one datastore
over the reduced limit, one datastore under it, one out-of-scope asset. -/
def sampleHardeningModel : Model := modelOf [sampleWeb, sampleDb, sampleCache, sampleLegacy]

/-- The risk the build infrastructure rule gives on the sample build model. -/
def sampleBuildRisk : Risk :=
  MissingBuildInfrastructureRule.createRisk sampleTypes sampleApp
    RiskExploitationImpact.MediumImpact

/-- The risk the hardening rule gives for the sample datastore. -/
def sampleDbRisk : Risk :=
  MissingHardeningRule.createRisk sampleTypes NewMissingHardeningRule sampleHardeningModel sampleDb

/-- The risk the hardening rule gives for the sample web process. -/
def sampleWebRisk : Risk :=
  MissingHardeningRule.createRisk sampleTypes NewMissingHardeningRule sampleHardeningModel sampleWeb

/-- The node a fresh `TrueExpression` becomes on parsing the scalar `b` with
the sample package. -/
def constNode (b : Bool) : TrueExpression Unit where
  literal := if b then "true" else "false"
  expression := some (constBool b)

/-- An operand whose evaluation fails with the error literal "x" and a plain
error. -/
def failingBool : BoolExpression Unit where
  EvalBool := fun _ => ({ value := false }, "x", some (GoError.new "unknown variable"))
  Literal := "x"

/-- A `TrueExpression` node over the failing operand. -/
def failingNode : TrueExpression Unit where
  literal := "x"
  expression := some failingBool

/-- A network boundary "dmz". -/
def sampleDmz : TrustBoundary :=
  { Id := "dmz", BoundaryType := TrustBoundaryType.NetworkCloudProvider }

/-- A network boundary "lan". -/
def sampleLan : TrustBoundary :=
  { Id := "lan", BoundaryType := TrustBoundaryType.NetworkOnPrem }

/-- An execution environment "vm". -/
def sampleVm : TrustBoundary :=
  { Id := "vm", BoundaryType := TrustBoundaryType.ExecutionEnvironment }

/-- A model with boundary data: "web" sits in "dmz", "db" in "lan", "job" and
"cron" in the execution environment "vm", which "lan" nests; "mail" has no
boundary. -/
def sampleBoundaryModel : Model where
  TechnicalAssets := []
  TrustBoundaries :=
    [("dmz", sampleDmz), ("lan", { sampleLan with TrustBoundariesNested := ["vm"] }),
      ("vm", sampleVm)]
  DirectContainingTrustBoundaryMappedByTechnicalAssetId :=
    [("web", sampleDmz), ("db", sampleLan), ("job", sampleVm), ("cron", sampleVm)]

/-- A model whose two assets sit in an execution environment that no boundary
of the model nests: its parent lookup resolves to nothing. -/
def unnestedEnvironmentModel : Model where
  TechnicalAssets := []
  DirectContainingTrustBoundaryMappedByTechnicalAssetId :=
    [("asset", sampleVm), ("other-asset", sampleVm)]

/-- The model of the test
`Test_isSameTrustBoundaryNetworkOnly_IsNetworkBoundaryTrustBoundariesAreDifferentButParentIsSameReturnFalse`:
"asset" and "other-asset" sit in two different network boundaries that one
parent boundary nests. -/
def siblingNetworkModel : Model where
  TechnicalAssets := []
  DirectContainingTrustBoundaryMappedByTechnicalAssetId :=
    [("asset", { Id := "trust-boundary", BoundaryType := TrustBoundaryType.NetworkCloudProvider }),
      ("other-asset",
        { Id := "other-trust-boundary", BoundaryType := TrustBoundaryType.NetworkCloudProvider })]
  TrustBoundaries :=
    [("trust-boundary",
        { Id := "trust-boundary", BoundaryType := TrustBoundaryType.NetworkCloudProvider }),
      ("other-trust-boundary",
        { Id := "other-trust-boundary", BoundaryType := TrustBoundaryType.NetworkCloudProvider }),
      ("parent-trust-boundary",
        { Id := "parent-trust-boundary"
          TrustBoundariesNested := ["trust-boundary", "other-trust-boundary"] })]

/-- The model of the test
`Test_isSameTrustBoundaryNetworkOnly_DifferentNotNetworkBoundaryReturnFalse`:
"asset" sits in an execution environment, "other-asset" in a different
boundary of a network kind. -/
def environmentAgainstNetworkModel : Model where
  TechnicalAssets := []
  DirectContainingTrustBoundaryMappedByTechnicalAssetId :=
    [("asset",
        { Id := "trust-boundary", BoundaryType := TrustBoundaryType.ExecutionEnvironment
          TechnicalAssetsInside := ["asset"] }),
      ("other-asset", { Id := "trust-boundary-2", TechnicalAssetsInside := ["other-asset"] })]

/-- An out-of-scope build server that carries all three build infrastructure
tags. -/
def outOfScopeBuildServer : TechnicalAsset :=
  { sampleAsset "ci" with
    Technologies :=
      { tags := [TechnologyAttribute.BuildPipeline, TechnologyAttribute.SourcecodeRepository,
          TechnologyAttribute.DevOpsClient] }
    OutOfScope := true }

/-- A model with one custom-developed in-scope asset whose build
infrastructure is modelled only by an out-of-scope asset. -/
def outOfScopeInfrastructureModel : Model := modelOf [sampleApp, outOfScopeBuildServer]

/-- Sample limits for the diagram DPI. -/
def sampleLimits : GraphvizLimits where
  MinGraphvizDPI := 20
  MaxGraphvizDPI := 300

/-- A context that asks for the PDF report only, with a DPI above the sample
maximum. -/
def reportOnlyContext : Context where
  Config := { DiagramDPI := 1000 }
  GenerateCommands :=
    { DataFlowDiagram := false
      DataAssetDiagram := false
      RisksJSON := false
      TechnicalAssetsJSON := false
      StatsJSON := false
      RisksExcel := true
      TagsExcel := false
      ReportPDF := true }

/-! ## Lemmas -/

theorem Model.mem_sortedIDs_iff (input : Model) (id : String) :
    id ∈ input.SortedTechnicalAssetIDs ↔ id ∈ input.TechnicalAssets.map Prod.fst := by
  unfold Model.SortedTechnicalAssetIDs
  rw [List.mem_insertionSort, List.mem_dedup]

theorem lookup_isSome_of_mem_keys {β : Type} (l : List (String × β)) (id : String)
    (h : id ∈ l.map Prod.fst) : ∃ a, l.lookup id = some a := by
  induction l with
  | nil => simp at h
  | cons p l ih =>
    obtain ⟨k, v⟩ := p
    by_cases hk : id = k
    · subst hk
      exact ⟨v, by simp [List.lookup]⟩
    · have h1 : id ∈ l.map Prod.fst := by
        simp only [List.map_cons, List.mem_cons] at h
        rcases h with h | h
        · exact absurd h hk
        · exact h
      obtain ⟨a, ha⟩ := ih h1
      refine ⟨a, ?_⟩
      have : (id == k) = false := by simpa using hk
      simp [List.lookup, this, ha]

theorem mem_keys_of_lookup {β : Type} (l : List (String × β)) (id : String) (a : β)
    (h : l.lookup id = some a) : id ∈ l.map Prod.fst := by
  induction l with
  | nil => simp at h
  | cons p l ih =>
    obtain ⟨k, v⟩ := p
    by_cases hk : id = k
    · subst hk
      simp
    · have hb : (id == k) = false := by simpa using hk
      simp only [List.lookup, hb] at h
      simp only [List.map_cons, List.mem_cons]
      exact Or.inr (ih h)

theorem Model.technicalAsset_of_mem_sortedIDs (input : Model) (id : String)
    (h : id ∈ input.SortedTechnicalAssetIDs) : ∃ a, input.technicalAsset id = some a :=
  lookup_isSome_of_mem_keys _ _ ((input.mem_sortedIDs_iff id).1 h)

theorem Model.mem_sortedIDs_of_technicalAsset (input : Model) (id : String) (a : TechnicalAsset)
    (h : input.technicalAsset id = some a) : id ∈ input.SortedTechnicalAssetIDs :=
  (input.mem_sortedIDs_iff id).2 (mem_keys_of_lookup _ _ _ h)

theorem Model.sortedIDs_nodup (input : Model) : input.SortedTechnicalAssetIDs.Nodup := by
  unfold Model.SortedTechnicalAssetIDs
  exact (List.perm_insertionSort _ _).nodup_iff.2 (List.nodup_dedup _)

theorem modelOf_keys (assets : List TechnicalAsset) :
    ∀ id a, (modelOf assets).technicalAsset id = some a → a.Id = id := by
  intro id a h
  unfold Model.technicalAsset modelOf at h
  induction assets with
  | nil => simp at h
  | cons b bs ih =>
    by_cases hb : id = b.Id
    · subst hb
      simp [List.lookup] at h
      rw [← h]
    · have hbeq : (id == b.Id) = false := by simpa using hb
      simp only [List.map_cons, List.lookup, hbeq] at h
      exact ih h

theorem modelOf_isTechnicalAsset (assets : List TechnicalAsset) (a : TechnicalAsset)
    (h : (modelOf assets).IsTechnicalAsset a) : a ∈ assets := by
  obtain ⟨id, hid⟩ := h
  unfold Model.technicalAsset modelOf at hid
  induction assets with
  | nil => simp at hid
  | cons b bs ih =>
    by_cases hb : id = b.Id
    · subst hb
      simp [List.lookup] at hid
      rw [← hid]
      exact List.mem_cons_self _ _
    · have hbeq : (id == b.Id) = false := by simpa using hb
      simp only [List.map_cons, List.lookup, hbeq] at hid
      exact List.mem_cons_of_mem _ (ih hid)

namespace MissingBuildInfrastructureRule

theorem Inv_init : Inv Locals.init :=
  ⟨Or.inl rfl, fun h => by simp [Locals.init] at h, fun h => by simp [Locals.init] at h⟩

theorem evaluateImpactFromHighestCIAValues_eq (T : TypesPkg) (input : Model) (a : TechnicalAsset)
    (impact : RiskExploitationImpact) :
    evaluateImpactFromHighestCIAValues T input a impact =
      if input.processedCIAAtLevel T a then RiskExploitationImpact.MediumImpact else impact := rfl

theorem evaluateImpactFromTechnicalAssetCIAValues_eq (a : TechnicalAsset)
    (impact : RiskExploitationImpact) :
    evaluateImpactFromTechnicalAssetCIAValues a impact =
      if a.ownCIAAtLevel then RiskExploitationImpact.MediumImpact else impact := rfl

theorem getTechFlags_eq (a : TechnicalAsset) (st : Locals) :
    getTechFlags a st =
      { st with
        hasBuildPipeline := st.hasBuildPipeline ||
          a.Technologies.GetAttribute TechnologyAttribute.BuildPipeline
        hasSourcecodeRepo := st.hasSourcecodeRepo ||
          a.Technologies.GetAttribute TechnologyAttribute.SourcecodeRepository
        hasDevOpsClient := st.hasDevOpsClient ||
          a.Technologies.GetAttribute TechnologyAttribute.DevOpsClient } := by
  unfold getTechFlags
  cases a.Technologies.GetAttribute TechnologyAttribute.BuildPipeline <;>
    cases a.Technologies.GetAttribute TechnologyAttribute.SourcecodeRepository <;>
    cases a.Technologies.GetAttribute TechnologyAttribute.DevOpsClient <;> simp

/-- One pass of the loop body keeps the invariant and records the asset. -/
theorem loopBody_facts (T : TypesPkg) (input : Model) (st : Locals) (a : TechnicalAsset)
    (hinv : Inv st) :
    ∃ st1, loopBody T input st a = some st1 ∧
      st1.hasBuildPipeline = (st.hasBuildPipeline ||
        a.Technologies.GetAttribute TechnologyAttribute.BuildPipeline) ∧
      st1.hasSourcecodeRepo = (st.hasSourcecodeRepo ||
        a.Technologies.GetAttribute TechnologyAttribute.SourcecodeRepository) ∧
      st1.hasDevOpsClient = (st.hasDevOpsClient ||
        a.Technologies.GetAttribute TechnologyAttribute.DevOpsClient) ∧
      st1.hasCustomDevelopedParts = (st.hasCustomDevelopedParts || !skipAsset a) ∧
      (st1.impact = RiskExploitationImpact.MediumImpact ↔
        st.impact = RiskExploitationImpact.MediumImpact ∨
          (skipAsset a = false ∧
            (input.processedCIAAtLevel T a = true ∨ a.ownCIAAtLevel = true))) ∧
      (∀ x, st1.mostRelevantAsset = some x →
        st.mostRelevantAsset = some x ∨ (x = a ∧ skipAsset a = false)) ∧
      Inv st1 := by
  obtain ⟨himp, hmed, hcus⟩ := hinv
  simp only [loopBody, getTechFlags_eq, evaluateImpactFromHighestCIAValues_eq,
    evaluateImpactFromTechnicalAssetCIAValues_eq]
  cases hskip : skipAsset a
  · rcases himp with hlow | hmedium
    · cases hp : input.processedCIAAtLevel T a <;> cases ho : a.ownCIAAtLevel <;>
        cases hgt : (T.HighestSensitivityScore a).gt (T.HighestSensitivityScore a) <;>
        simp [hlow, hp, ho, hgt] <;> constructor <;> simp
    · obtain ⟨y, hy⟩ := Option.ne_none_iff_exists'.1 (hmed hmedium)
      cases ho : a.ownCIAAtLevel <;>
        cases hgt : (T.HighestSensitivityScore a).gt (T.HighestSensitivityScore y) <;>
        simp [hmedium, ho, hgt, hy] <;> constructor <;> simp [hmedium]
  · simp
    exact ⟨himp, hmed, hcus⟩

/-- The loop never panics on ids bound in the asset map, and `LoopFacts`
describes the locals it ends with. -/
theorem runLoop_facts (T : TypesPkg) (input : Model) (ids : List String) :
    ∀ st : Locals, Inv st → (∀ id ∈ ids, ∃ a, input.technicalAsset id = some a) →
      ∃ st1, runLoop T input st ids = some st1 ∧ LoopFacts T input st ids st1 := by
  induction ids with
  | nil =>
    intro st hinv _
    exact ⟨st, rfl, ⟨by simp, by simp, by simp, by simp, by simp, by simp, hinv⟩⟩
  | cons id ids ih =>
    intro st hinv hids
    obtain ⟨a, ha⟩ := hids id (List.mem_cons_self _ _)
    obtain ⟨st1, hbody, hbp, hsr, hdc, hcu, hme, han, hinv1⟩ := loopBody_facts T input st a hinv
    obtain ⟨st2, hrun, hfacts⟩ := ih st1 hinv1 (fun i hi => hids i (List.mem_cons_of_mem _ hi))
    refine ⟨st2, ?_, ?_⟩
    · simp [runLoop, loopStep, ha, hbody, hrun]
    · have hlk : ∀ b, input.technicalAsset id = some b ↔ b = a := by
        intro b
        rw [ha]
        constructor
        · intro h
          exact (Option.some.inj h).symm
        · intro h
          rw [h]
      constructor
      · rw [hfacts.pipeline, hbp]
        simp only [List.mem_cons, exists_eq_or_imp, hlk, exists_eq_left, Bool.or_eq_true, or_assoc]
      · rw [hfacts.repo, hsr]
        simp only [List.mem_cons, exists_eq_or_imp, hlk, exists_eq_left, Bool.or_eq_true, or_assoc]
      · rw [hfacts.devops, hdc]
        simp only [List.mem_cons, exists_eq_or_imp, hlk, exists_eq_left, Bool.or_eq_true, or_assoc]
      · rw [hfacts.custom, hcu]
        simp only [List.mem_cons, exists_eq_or_imp, hlk, exists_eq_left, Bool.or_eq_true, or_assoc,
          Bool.not_eq_true']
      · rw [hfacts.medium, hme]
        simp only [List.mem_cons, exists_eq_or_imp, hlk, exists_eq_left, or_assoc]
      · intro x hx
        rcases hfacts.anchor x hx with h | ⟨i, hi, hix, hsk⟩
        · rcases han x h with h0 | ⟨hxa, hsk⟩
          · exact Or.inl h0
          · exact Or.inr ⟨id, List.mem_cons_self _ _, by rw [ha, hxa], by rw [hxa]; exact hsk⟩
        · exact Or.inr ⟨i, List.mem_cons_of_mem _ hi, hix, hsk⟩
      · exact hfacts.inv

theorem skipAsset_eq_false_iff (a : TechnicalAsset) : skipAsset a = false ↔ a.CustomInScope := by
  unfold skipAsset TechnicalAsset.CustomInScope
  cases a.CustomDevelopedParts <;> cases a.OutOfScope <;> simp

/-- The locals at the end of the loop of `GenerateRisks`, in terms of the
model. -/
theorem loop_result (T : TypesPkg) (input : Model) :
    ∃ st, runLoop T input Locals.init input.SortedTechnicalAssetIDs = some st ∧
      (st.hasBuildPipeline = true ↔ input.HasTag TechnologyAttribute.BuildPipeline) ∧
      (st.hasSourcecodeRepo = true ↔ input.HasTag TechnologyAttribute.SourcecodeRepository) ∧
      (st.hasDevOpsClient = true ↔ input.HasTag TechnologyAttribute.DevOpsClient) ∧
      (st.hasCustomDevelopedParts = true ↔ ∃ a, input.IsTechnicalAsset a ∧ a.CustomInScope) ∧
      (st.impact = RiskExploitationImpact.MediumImpact ↔
        ∃ a, input.IsTechnicalAsset a ∧ a.CustomInScope ∧
          (input.processedCIAAtLevel T a = true ∨ a.ownCIAAtLevel = true)) ∧
      (∀ x, st.mostRelevantAsset = some x → input.IsTechnicalAsset x ∧ x.CustomInScope) ∧
      Inv st := by
  obtain ⟨st, hrun, hf⟩ := runLoop_facts T input input.SortedTechnicalAssetIDs Locals.init
    Inv_init (fun id hid => input.technicalAsset_of_mem_sortedIDs id hid)
  have htag : ∀ tag, (∃ id ∈ input.SortedTechnicalAssetIDs, ∃ a,
      input.technicalAsset id = some a ∧ a.Technologies.GetAttribute tag = true) ↔
      input.HasTag tag := by
    intro tag
    constructor
    · rintro ⟨id, _, a, ha, ht⟩
      exact ⟨a, ⟨id, ha⟩, ht⟩
    · rintro ⟨a, ⟨id, ha⟩, ht⟩
      exact ⟨id, input.mem_sortedIDs_of_technicalAsset id a ha, a, ha, ht⟩
  refine ⟨st, hrun, ?_, ?_, ?_, ?_, ?_, ?_, hf.inv⟩
  · rw [hf.pipeline, htag]; simp [Locals.init]
  · rw [hf.repo, htag]; simp [Locals.init]
  · rw [hf.devops, htag]; simp [Locals.init]
  · rw [hf.custom]
    simp only [Locals.init, Bool.false_eq_true, false_or]
    constructor
    · rintro ⟨id, _, a, ha, hs⟩
      exact ⟨a, ⟨id, ha⟩, (skipAsset_eq_false_iff a).1 hs⟩
    · rintro ⟨a, ⟨id, ha⟩, hs⟩
      exact ⟨id, input.mem_sortedIDs_of_technicalAsset id a ha, a, ha,
        (skipAsset_eq_false_iff a).2 hs⟩
  · rw [hf.medium]
    simp only [Locals.init, false_or, reduceCtorEq]
    constructor
    · rintro ⟨id, _, a, ha, hs, hl⟩
      exact ⟨a, ⟨id, ha⟩, (skipAsset_eq_false_iff a).1 hs, hl⟩
    · rintro ⟨a, ⟨id, ha⟩, hs, hl⟩
      exact ⟨id, input.mem_sortedIDs_of_technicalAsset id a ha, a, ha,
        (skipAsset_eq_false_iff a).2 hs, hl⟩
  · intro x hx
    rcases hf.anchor x hx with h | ⟨id, _, hix, hs⟩
    · simp [Locals.init] at h
    · exact ⟨⟨id, hix⟩, (skipAsset_eq_false_iff x).1 hs⟩

/-- The result of `GenerateRisks`: never a panic, never an error, and either
no risk or the one risk `createRisk` builds. -/
theorem GenerateRisks_result (T : TypesPkg) (input : Model) :
    ∃ st, runLoop T input Locals.init input.SortedTechnicalAssetIDs = some st ∧
      ((((∃ a, input.IsTechnicalAsset a ∧ a.CustomInScope) ∧
          ¬ (input.HasTag TechnologyAttribute.BuildPipeline ∧
            input.HasTag TechnologyAttribute.SourcecodeRepository ∧
            input.HasTag TechnologyAttribute.DevOpsClient)) ∧
        ∃ x, st.mostRelevantAsset = some x ∧
          GenerateRisks T input = some ([createRisk T x st.impact], none)) ∨
      (¬ ((∃ a, input.IsTechnicalAsset a ∧ a.CustomInScope) ∧
          ¬ (input.HasTag TechnologyAttribute.BuildPipeline ∧
            input.HasTag TechnologyAttribute.SourcecodeRepository ∧
            input.HasTag TechnologyAttribute.DevOpsClient)) ∧
        GenerateRisks T input = some ([], none))) := by
  obtain ⟨st, hrun, hbp, hsr, hdc, hcu, _, _, hinv⟩ := loop_result T input
  refine ⟨st, hrun, ?_⟩
  by_cases hc : (∃ a, input.IsTechnicalAsset a ∧ a.CustomInScope) ∧
      ¬ (input.HasTag TechnologyAttribute.BuildPipeline ∧
        input.HasTag TechnologyAttribute.SourcecodeRepository ∧
        input.HasTag TechnologyAttribute.DevOpsClient)
  · left
    refine ⟨hc, ?_⟩
    have h1 : st.hasCustomDevelopedParts = true := hcu.2 hc.1
    obtain ⟨x, hx⟩ := Option.ne_none_iff_exists'.1 (hinv.ofCustom h1)
    refine ⟨x, hx, ?_⟩
    have h2 : (st.hasBuildPipeline && st.hasSourcecodeRepo && st.hasDevOpsClient) = false := by
      rw [← hbp, ← hsr, ← hdc] at hc
      have := hc.2
      revert this
      cases st.hasBuildPipeline <;> cases st.hasSourcecodeRepo <;> cases st.hasDevOpsClient <;> simp
    simp only [GenerateRisks, hrun, finish, h1, h2, hx]
    simp
  · right
    refine ⟨hc, ?_⟩
    have h3 : (st.hasCustomDevelopedParts &&
        !(st.hasBuildPipeline && st.hasSourcecodeRepo && st.hasDevOpsClient)) = false := by
      rw [← hbp, ← hsr, ← hdc, ← hcu] at hc
      revert hc
      cases st.hasCustomDevelopedParts <;> cases st.hasBuildPipeline <;>
        cases st.hasSourcecodeRepo <;> cases st.hasDevOpsClient <;> simp
    simp only [GenerateRisks, hrun, finish, h3]
    simp

/-- Every risk `GenerateRisks` returns is the risk `createRisk` builds for a
custom-developed in-scope asset of the model, with the impact the loop ended
with. -/
theorem emitted_risk (T : TypesPkg) (input : Model) (risks : List Risk) (err : Option GoError)
    (r : Risk) (hgen : GenerateRisks T input = some (risks, err)) (hr : r ∈ risks) :
    ∃ x impact, r = createRisk T x impact ∧ risks = [r] ∧ err = none ∧
      input.IsTechnicalAsset x ∧ x.CustomInScope ∧
      (impact = RiskExploitationImpact.MediumImpact ↔
        ∃ a, input.IsTechnicalAsset a ∧ a.CustomInScope ∧
          (input.processedCIAAtLevel T a = true ∨ a.ownCIAAtLevel = true)) ∧
      (impact = RiskExploitationImpact.LowImpact ∨
        impact = RiskExploitationImpact.MediumImpact) := by
  obtain ⟨st, hrun, _, _, _, _, hmed, hanchor, hinv⟩ := loop_result T input
  obtain ⟨st1, hrun1, hcases⟩ := GenerateRisks_result T input
  have hst : st1 = st := by
    rw [hrun] at hrun1
    exact (Option.some.inj hrun1).symm
  subst hst
  rcases hcases with ⟨_, x, hx, hres⟩ | ⟨_, hres⟩
  · rw [hres] at hgen
    have hpair := Option.some.inj hgen
    have hrisks : risks = [createRisk T x st1.impact] := (congrArg Prod.fst hpair).symm
    have herr : err = none := (congrArg Prod.snd hpair).symm
    have hreq : r = createRisk T x st1.impact := by
      rw [hrisks] at hr
      simpa using hr
    refine ⟨x, st1.impact, hreq, ?_, herr, (hanchor x hx).1, (hanchor x hx).2, hmed, hinv.impact⟩
    rw [hrisks, hreq]
  · rw [hres] at hgen
    have hpair := Option.some.inj hgen
    have hrisks : risks = [] := (congrArg Prod.fst hpair).symm
    rw [hrisks] at hr
    simp at hr

end MissingBuildInfrastructureRule

namespace MissingHardeningRule

theorem runLoop_eq (T : TypesPkg) (r : MissingHardeningRule) (input : Model) (ids : List String) :
    ∀ risks : List Risk, (∀ id ∈ ids, ∃ a, input.technicalAsset id = some a) →
      runLoop T r input risks ids =
        some (risks ++ ((ids.filterMap input.technicalAsset).filter (emitsFor r)).map
          (createRisk T r input)) := by
  induction ids with
  | nil => intro risks _; simp [runLoop]
  | cons id ids ih =>
    intro risks hids
    obtain ⟨a, ha⟩ := hids id (List.mem_cons_self _ _)
    have hrest := fun acc => ih acc (fun i hi => hids i (List.mem_cons_of_mem _ hi))
    cases hs : skipAsset a
    · cases hc : raaCondition r a
      · simp [runLoop, loopStep, ha, hs, hc, hrest, emitsFor]
      · simp [runLoop, loopStep, ha, hs, hc, hrest, emitsFor]
    · simp [runLoop, loopStep, ha, hs, hrest, emitsFor]

theorem GenerateRisks_eq (T : TypesPkg) (r : MissingHardeningRule) (input : Model) :
    GenerateRisks T r input =
      some (((sortedAssets input).filter (emitsFor r)).map (createRisk T r input), none) := by
  unfold GenerateRisks
  rw [runLoop_eq T r input _ [] (fun id hid => input.technicalAsset_of_mem_sortedIDs id hid)]
  simp [sortedAssets]

theorem mem_sortedAssets_iff (input : Model) (a : TechnicalAsset) :
    a ∈ sortedAssets input ↔ input.IsTechnicalAsset a := by
  unfold sortedAssets Model.IsTechnicalAsset
  rw [List.mem_filterMap]
  constructor
  · rintro ⟨id, _, h⟩
    exact ⟨id, h⟩
  · rintro ⟨id, h⟩
    exact ⟨id, input.mem_sortedIDs_of_technicalAsset id a h, h⟩

theorem sortedAssets_ids (input : Model)
    (hkeys : ∀ id a, input.technicalAsset id = some a → a.Id = id) :
    (sortedAssets input).map (fun a => a.Id) = input.SortedTechnicalAssetIDs := by
  unfold sortedAssets
  have h : ∀ ids : List String, (∀ id ∈ ids, ∃ a, input.technicalAsset id = some a) →
      (ids.filterMap input.technicalAsset).map (fun a => a.Id) = ids := by
    intro ids
    induction ids with
    | nil => intro _; rfl
    | cons id ids ih =>
      intro hids
      obtain ⟨a, ha⟩ := hids id (List.mem_cons_self _ _)
      rw [List.filterMap_cons_some ha, List.map_cons, hkeys id a ha,
        ih (fun i hi => hids i (List.mem_cons_of_mem _ hi))]
  exact h _ (fun id hid => input.technicalAsset_of_mem_sortedIDs id hid)

/-- Every risk `GenerateRisks` returns is the risk `createRisk` builds for a
technical asset of the model that the rule flags; the error is nil. -/
theorem hardening_emitted_risk (T : TypesPkg) (rule : MissingHardeningRule) (input : Model)
    (risks : List Risk) (err : Option GoError) (r : Risk)
    (hgen : GenerateRisks T rule input = some (risks, err)) (hr : r ∈ risks) :
    ∃ a, input.IsTechnicalAsset a ∧ emitsFor rule a = true ∧ r = createRisk T rule input a := by
  rw [GenerateRisks_eq] at hgen
  have hrisks : ((sortedAssets input).filter (emitsFor rule)).map (createRisk T rule input)
      = risks := congrArg Prod.fst (Option.some.inj hgen)
  rw [← hrisks] at hr
  obtain ⟨a, ha, hra⟩ := List.mem_map.1 hr
  obtain ⟨hmem, hflag⟩ := List.mem_filter.1 ha
  exact ⟨a, (mem_sortedAssets_iff input a).1 hmem, hflag, hra.symm⟩

end MissingHardeningRule

namespace TrueExpression

variable {Scope : Type}

/-- When the operand evaluates without error, `EvalBool` returns the
operand's value, an empty error literal and a nil error. -/
theorem EvalBool_of_operand_ok (E : ScriptPkg Scope) (n : TrueExpression Scope)
    (e : BoolExpression Scope) (scope : Scope) (value : BoolValue) (errorLiteral : String)
    (he : n.expression = some e) (hev : e.EvalBool scope = (value, errorLiteral, none)) :
    EvalBool E n scope = some (value, "", none) := by
  unfold EvalBool
  rw [he]
  simp only [hev]

/-- A node that `ParseBool` returns has an operand, and the receiver after the
call is that node. -/
theorem ParseBool_result_operand (E : ScriptPkg Scope) (what : TrueExpression Scope)
    (script : Script) (n : TrueExpression Scope)
    (hparse : (ParseBool E what script).result = some n) :
    ∃ e, n.expression = some e := by
  unfold ParseBool at hparse
  rcases hp : E.ExpressionListParseAny script with ⟨item, errorScript, itemError⟩
  rw [hp] at hparse
  cases itemError with
  | some err => simp at hparse
  | none =>
    cases item with
    | none => simp at hparse
    | some x =>
      cases x with
      | nonBool l => simp at hparse
      | boolExpression castItem =>
        simp at hparse
        exact ⟨castItem, by rw [← hparse]⟩

end TrueExpression

/-! ### The tests of `helpers_test.go`, evaluated on the model of the predicates -/

theorem Test_IsAcrossTrustBoundaryNetworkOnly_EmptyDataReturnFalse :
    isAcrossTrustBoundaryNetworkOnly { TechnicalAssets := [] }
      { SourceId := "source", TargetId := "target" } = false := by decide

theorem Test_IsAcrossTrustBoundaryNetworkOnly_NoSourceIdReturnFalse :
    isAcrossTrustBoundaryNetworkOnly
      { TechnicalAssets := [], DirectContainingTrustBoundaryMappedByTechnicalAssetId := [] }
      { SourceId := "source", TargetId := "target" } = false := by decide

theorem Test_IsAcrossTrustBoundaryNetworkOnly_SourceIdIsNotNetworkBoundaryReturnFalse :
    isAcrossTrustBoundaryNetworkOnly
      { TechnicalAssets := []
        TrustBoundaries :=
          [("trust-boundary",
            { Id := "trust-boundary", TrustBoundariesNested := ["trust-boundary-2"] })]
        DirectContainingTrustBoundaryMappedByTechnicalAssetId :=
          [("source",
              { Id := "trust-boundary", BoundaryType := TrustBoundaryType.ExecutionEnvironment }),
            ("target",
              { Id := "trust-boundary-2",
                BoundaryType := TrustBoundaryType.ExecutionEnvironment })] }
      { SourceId := "source", TargetId := "target" } = false := by decide

theorem Test_IsAcrossTrustBoundaryNetworkOnly_NoTargetIdReturnFalse :
    isAcrossTrustBoundaryNetworkOnly
      { TechnicalAssets := []
        DirectContainingTrustBoundaryMappedByTechnicalAssetId :=
          [("source", { Id := "trust-boundary" })] }
      { SourceId := "source", TargetId := "target" } = false := by decide

theorem Test_IsAcrossTrustBoundaryNetworkOnly_TargetIdIsNotNetworkBoundaryReturnFalse :
    isAcrossTrustBoundaryNetworkOnly
      { TechnicalAssets := []
        DirectContainingTrustBoundaryMappedByTechnicalAssetId :=
          [("source", { Id := "trust-boundary" }),
            ("target",
              { Id := "trust-boundary", BoundaryType := TrustBoundaryType.ExecutionEnvironment })] }
      { SourceId := "source", TargetId := "target" } = false := by decide

theorem Test_IsAcrossTrustBoundaryNetworkOnly_Compare :
    isAcrossTrustBoundaryNetworkOnly
      { TechnicalAssets := []
        DirectContainingTrustBoundaryMappedByTechnicalAssetId :=
          [("source", { Id := "trust-boundary" }),
            ("target", { Id := "another-trust-boundary" })] }
      { SourceId := "source", TargetId := "target" } = true := by decide

theorem Test_isSameExecutionEnvironment_EmptyDataReturnTrue :
    isSameExecutionEnvironment { TechnicalAssets := [] } (sampleAsset "") "other-asset" = true := by
  decide

theorem Test_isSameExecutionEnvironemnt_NoTrustBoundaryOfMyAssetReturnFalse :
    isSameExecutionEnvironment
      { TechnicalAssets := []
        DirectContainingTrustBoundaryMappedByTechnicalAssetId := [("other-asset", {})] }
      (sampleAsset "asset") "other-asset" = false := by decide

theorem Test_isSameExecutionEnvironment_NoTrustBoundaryOfOtherAssetReturnFalse :
    isSameExecutionEnvironment
      { TechnicalAssets := []
        DirectContainingTrustBoundaryMappedByTechnicalAssetId := [("asset", {})] }
      (sampleAsset "asset") "other-asset" = false := by decide

theorem Test_isSameExecutionEnvironemnt_NoTrustBoundaryOfEitherAssetReturnTrue :
    isSameExecutionEnvironment
      { TechnicalAssets := [], DirectContainingTrustBoundaryMappedByTechnicalAssetId := [] }
      (sampleAsset "asset") "other-asset" = true := by decide

theorem Test_isSameExecutionEnvironment_TrustBoundariesAreDifferentReturnFalse :
    isSameExecutionEnvironment
      { TechnicalAssets := []
        DirectContainingTrustBoundaryMappedByTechnicalAssetId :=
          [("asset",
              { Id := "trust-boundary", BoundaryType := TrustBoundaryType.ExecutionEnvironment }),
            ("other-asset",
              { Id := "other-trust-boundary",
                BoundaryType := TrustBoundaryType.ExecutionEnvironment })] }
      (sampleAsset "asset") "other-asset" = false := by decide

theorem Test_isSameExecutionEnvironment_TrustBoundariesAreSameReturnTrue :
    isSameExecutionEnvironment
      { TechnicalAssets := []
        DirectContainingTrustBoundaryMappedByTechnicalAssetId :=
          [("asset",
              { Id := "trust-boundary", BoundaryType := TrustBoundaryType.ExecutionEnvironment }),
            ("other-asset",
              { Id := "trust-boundary",
                BoundaryType := TrustBoundaryType.ExecutionEnvironment })] }
      (sampleAsset "asset") "other-asset" = true := by decide

theorem Test_isSameExecutionEnvironment_TrustBoundariesAreNotBothExecutionEnvironmentReturnFalse :
    ∀ kinds ∈ [(TrustBoundaryType.ExecutionEnvironment, TrustBoundaryType.NetworkCloudProvider),
        (TrustBoundaryType.NetworkCloudProvider, TrustBoundaryType.ExecutionEnvironment),
        (TrustBoundaryType.NetworkCloudProvider, TrustBoundaryType.NetworkCloudProvider)],
      isSameExecutionEnvironment
        { TechnicalAssets := []
          DirectContainingTrustBoundaryMappedByTechnicalAssetId :=
            [("asset", { Id := "trust-boundary", BoundaryType := kinds.1 }),
              ("other-asset", { Id := "other-trust-boundary", BoundaryType := kinds.2 })] }
        (sampleAsset "asset") "other-asset" = false := by decide

theorem Test_isSameTrustBoundaryNetworkOnly_EmptyDataReturnTrue :
    isSameTrustBoundaryNetworkOnly { TechnicalAssets := [] } (sampleAsset "") "other-asset" =
      true := by decide

theorem Test_isSameTrustBoundaryNetworkOnly_NoTrustBoundaryOfMyAssetReturnFalse :
    isSameTrustBoundaryNetworkOnly
      { TechnicalAssets := []
        DirectContainingTrustBoundaryMappedByTechnicalAssetId := [("other-asset", {})] }
      (sampleAsset "asset") "other-asset" = false := by decide

theorem Test_isSameTrustBoundaryNetworkOnly_NoTrustBoundaryOfOtherAssetReturnFalse :
    isSameTrustBoundaryNetworkOnly
      { TechnicalAssets := []
        DirectContainingTrustBoundaryMappedByTechnicalAssetId := [("asset", {})] }
      (sampleAsset "asset") "other-asset" = false := by decide

theorem Test_isSameExecutionEnvironemntNetworkOnly_NoTrustBoundaryOfEitherAssetReturnTrue :
    isSameExecutionEnvironment
      { TechnicalAssets := [], DirectContainingTrustBoundaryMappedByTechnicalAssetId := [] }
      (sampleAsset "asset") "other-asset" = true := by decide

theorem Test_isSameTrustBoundaryNetworkOnly_TrustBoundariesAreDifferentReturnFalse :
    isSameTrustBoundaryNetworkOnly
      { TechnicalAssets := []
        DirectContainingTrustBoundaryMappedByTechnicalAssetId :=
          [("asset", { Id := "trust-boundary" }),
            ("other-asset", { Id := "other-trust-boundary" })] }
      (sampleAsset "asset") "other-asset" = false := by decide

theorem Test_isSameTrustBoundaryNetworkOnly_TrustBoundariesAreSameReturnTrue :
    isSameTrustBoundaryNetworkOnly
      { TechnicalAssets := []
        DirectContainingTrustBoundaryMappedByTechnicalAssetId :=
          [("asset", { Id := "trust-boundary" }), ("other-asset", { Id := "trust-boundary" })] }
      (sampleAsset "asset") "other-asset" = true := by decide

theorem Test_isSameTrustBoundaryNetworkOnly_IsNetworkBoundaryTrustBoundariesAreDifferentButParentIsSameReturnFalse :
    isSameTrustBoundaryNetworkOnly
      { TechnicalAssets := []
        DirectContainingTrustBoundaryMappedByTechnicalAssetId :=
          [("asset",
              { Id := "trust-boundary", BoundaryType := TrustBoundaryType.NetworkCloudProvider }),
            ("other-asset",
              { Id := "other-trust-boundary",
                BoundaryType := TrustBoundaryType.NetworkCloudProvider })]
        TrustBoundaries :=
          [("trust-boundary",
              { Id := "trust-boundary", BoundaryType := TrustBoundaryType.NetworkCloudProvider }),
            ("other-trust-boundary",
              { Id := "other-trust-boundary",
                BoundaryType := TrustBoundaryType.NetworkCloudProvider }),
            ("parent-trust-boundary",
              { Id := "parent-trust-boundary"
                TrustBoundariesNested := ["trust-boundary", "other-trust-boundary"] })] }
      (sampleAsset "asset") "other-asset" = false := by decide

theorem Test_isSameTrustBoundaryNetworkOnly_TrustBoundariesAreDifferentButParentIsDifferentReturnFalse :
    isSameTrustBoundaryNetworkOnly
      { TechnicalAssets := []
        DirectContainingTrustBoundaryMappedByTechnicalAssetId :=
          [("asset", { Id := "trust-boundary" }),
            ("other-asset", { Id := "other-trust-boundary" })]
        TrustBoundaries :=
          [("trust-boundary", { Id := "trust-boundary" }),
            ("other-trust-boundary", { Id := "other-trust-boundary" }),
            ("parent-trust-boundary",
              { Id := "parent-trust-boundary", TrustBoundariesNested := ["trust-boundary"] })] }
      (sampleAsset "asset") "other-asset" = false := by decide

theorem Test_isSameTrustBoundaryNetworkOnly_NotNetworkBoundaryReturnTrue :
    isSameTrustBoundaryNetworkOnly
      { TechnicalAssets := []
        DirectContainingTrustBoundaryMappedByTechnicalAssetId :=
          [("asset",
              { Id := "trust-boundary", BoundaryType := TrustBoundaryType.ExecutionEnvironment }),
            ("other-asset",
              { Id := "trust-boundary",
                BoundaryType := TrustBoundaryType.ExecutionEnvironment })] }
      (sampleAsset "asset") "other-asset" = true := by decide

theorem Test_isSameTrustBoundaryNetworkOnly_DifferentNotNetworkBoundaryReturnFalse :
    isSameTrustBoundaryNetworkOnly
      { TechnicalAssets := []
        DirectContainingTrustBoundaryMappedByTechnicalAssetId :=
          [("asset",
              { Id := "trust-boundary", BoundaryType := TrustBoundaryType.ExecutionEnvironment
                TechnicalAssetsInside := ["asset"] }),
            ("other-asset",
              { Id := "trust-boundary-2", TechnicalAssetsInside := ["other-asset"] })] }
      (sampleAsset "asset") "other-asset" = false := by decide

theorem Test_contains : contains ["a", "b"] "b" = true := by decide

theorem Test_contains_NotFoundReturnFalse : contains ["a", "b"] "c" = false := by decide

theorem Test_contains_EmptyDataReturnFalse : contains [] "c" = false := by decide

namespace TrueExpression

variable {Scope : Type}

/-- What `ParseBool` returns on success: the operand parser gave a boolean
expression without error, and the node holds the literal of the script and
that operand. -/
theorem ParseBool_success (E : ScriptPkg Scope) (what : TrueExpression Scope)
    (script : Script) (n : TrueExpression Scope)
    (hparse : (ParseBool E what script).result = some n) :
    ∃ castItem errorScript,
      E.ExpressionListParseAny script =
        (some (Expression.boolExpression castItem), errorScript, none) ∧
      n = { literal := E.ToLiteral script, expression := some castItem } := by
  unfold ParseBool at hparse
  rcases hp : E.ExpressionListParseAny script with ⟨item, errorScript, itemError⟩
  rw [hp] at hparse
  cases itemError with
  | some err => simp at hparse
  | none =>
    cases item with
    | none => simp at hparse
    | some x =>
      cases x with
      | nonBool lit => simp at hparse
      | boolExpression c =>
        simp at hparse
        exact ⟨c, errorScript, rfl, hparse.symm⟩

/-- The round trip through `Literal()` reduces to two facts about functions
outside the verified sources: the literal of the string scalar holding a
literal is that literal, and the operand parser reads that string scalar as
it reads the script. -/
theorem reparse_of_stable_literal (E : ScriptPkg Scope) (what fresh : TrueExpression Scope)
    (s : Script) (n : TrueExpression Scope)
    (hparse : (ParseBool E what s).result = some n)
    (hlit : E.ToLiteral (Script.str (E.ToLiteral s)) = E.ToLiteral s)
    (hop : E.ExpressionListParseAny (Script.str (E.ToLiteral s)) =
      E.ExpressionListParseAny s) :
    (ParseBool E fresh (Script.str n.Literal)).result = some n := by
  obtain ⟨c, errorScript, hp, hn⟩ := ParseBool_success E what s n hparse
  have hl : n.Literal = E.ToLiteral s := by rw [hn]; rfl
  rw [hl]
  unfold ParseBool
  rw [hop, hp, hlit, hn]

end TrueExpression

/-! ### The boundary that `isSameTrustBoundaryNetworkOnly` compares -/

/-- The boundary compared for an asset whose direct boundary is of a network
kind is that direct boundary. -/
theorem Model.networkBoundary_of_network (input : Model) (id : String) (x : TrustBoundary)
    (hx : input.directBoundary id = some x) (hn : x.BoundaryType.IsNetworkBoundary = true) :
    input.networkBoundary id = some x := by
  unfold Model.networkBoundary
  rw [hx]
  simp [hn]

/-- The boundary compared for an asset whose direct boundary is not of a
network kind is the parent of that direct boundary. -/
theorem Model.networkBoundary_of_not_network (input : Model) (id : String) (x : TrustBoundary)
    (hx : input.directBoundary id = some x) (hn : x.BoundaryType.IsNetworkBoundary = false) :
    input.networkBoundary id = input.parentTrustBoundary x := by
  unfold Model.networkBoundary
  rw [hx]
  simp [hn]

/-- The boundary compared for an asset without index entry is none. -/
theorem Model.networkBoundary_of_no_entry (input : Model) (id : String)
    (hx : input.directBoundary id = none) : input.networkBoundary id = none := by
  unfold Model.networkBoundary
  rw [hx]

/-- Two differing direct boundaries of a network kind are not the same trust
boundary, whatever the model nests. -/
theorem isSameTrustBoundaryNetworkOnly_network_differ (parsedModel : Model)
    (a : TechnicalAsset) (b : String) (x y : TrustBoundary)
    (hx : parsedModel.directBoundary a.Id = some x) (hy : parsedModel.directBoundary b = some y)
    (hxn : x.BoundaryType.IsNetworkBoundary = true)
    (hyn : y.BoundaryType.IsNetworkBoundary = true) (hne : x.Id ≠ y.Id) :
    isSameTrustBoundaryNetworkOnly parsedModel a b = false := by
  unfold isSameTrustBoundaryNetworkOnly
  rw [parsedModel.networkBoundary_of_network a.Id x hx hxn,
    parsedModel.networkBoundary_of_network b y hy hyn]
  simp [hne]

/-- With an index entry on one side only, in a boundary of a network kind, the
two sides are not in the same trust boundary (the case of the two tests
`...NoTrustBoundaryOfMyAssetReturnFalse` and
`...NoTrustBoundaryOfOtherAssetReturnFalse`). -/
theorem isSameTrustBoundaryNetworkOnly_one_sided_network (parsedModel : Model)
    (a : TechnicalAsset) (b : String) (x : TrustBoundary)
    (hn : x.BoundaryType.IsNetworkBoundary = true)
    (hone : (parsedModel.directBoundary a.Id = some x ∧ parsedModel.directBoundary b = none) ∨
      (parsedModel.directBoundary a.Id = none ∧ parsedModel.directBoundary b = some x)) :
    isSameTrustBoundaryNetworkOnly parsedModel a b = false := by
  unfold isSameTrustBoundaryNetworkOnly
  rcases hone with ⟨hx, hb⟩ | ⟨ha, hx⟩
  · rw [parsedModel.networkBoundary_of_no_entry b hb,
      parsedModel.networkBoundary_of_network a.Id x hx hn]
  · rw [parsedModel.networkBoundary_of_no_entry a.Id ha,
      parsedModel.networkBoundary_of_network b x hx hn]

namespace MissingBuildInfrastructureRule

theorem lastOr_cons (d : Option TechnicalAsset) (a : TechnicalAsset) (l : List TechnicalAsset) :
    lastOr d (a :: l) = lastOr (some a) l := by
  cases l with
  | nil => simp [lastOr]
  | cons b l =>
    unfold lastOr
    rw [List.getLast?_cons_cons]
    have hy : (b :: l).getLast? = some ((b :: l).getLast (by simp)) :=
      List.getLast?_eq_getLast _ _
    rw [hy]

/-- The loop body on an asset that is not skipped and does not escalate,
while the impact is still `LowImpact`: the impact stays `LowImpact` and the
candidate is reset to the asset, whatever the scores. -/
theorem loopBody_low (T : TypesPkg) (input : Model) (st : Locals) (a : TechnicalAsset)
    (hlow : st.impact = RiskExploitationImpact.LowImpact) (hskip : skipAsset a = false)
    (hp : input.processedCIAAtLevel T a = false) (ho : a.ownCIAAtLevel = false) :
    ∃ st1, loopBody T input st a = some st1 ∧
      st1.impact = RiskExploitationImpact.LowImpact ∧ st1.mostRelevantAsset = some a := by
  simp only [loopBody, getTechFlags_eq, evaluateImpactFromHighestCIAValues_eq,
    evaluateImpactFromTechnicalAssetCIAValues_eq]
  cases hgt : (T.HighestSensitivityScore a).gt (T.HighestSensitivityScore a) <;>
    simp [hlow, hskip, hp, ho, hgt]

/-- The loop body on a skipped asset leaves the impact and the candidate as
they are. -/
theorem loopBody_skipped (T : TypesPkg) (input : Model) (st : Locals) (a : TechnicalAsset)
    (hskip : skipAsset a = true) :
    ∃ st1, loopBody T input st a = some st1 ∧ st1.impact = st.impact ∧
      st1.mostRelevantAsset = st.mostRelevantAsset := by
  simp only [loopBody, getTechFlags_eq]
  simp [hskip]

/-- While no asset escalates the impact, the loop ends with `LowImpact` and
with the last asset it did not skip as the candidate. -/
theorem runLoop_low (T : TypesPkg) (input : Model) (ids : List String) :
    ∀ st : Locals, st.impact = RiskExploitationImpact.LowImpact →
      (∀ id ∈ ids, ∃ a, input.technicalAsset id = some a) →
      (∀ id ∈ ids, ∀ a, input.technicalAsset id = some a → skipAsset a = false →
        input.processedCIAAtLevel T a = false ∧ a.ownCIAAtLevel = false) →
      ∃ st1, runLoop T input st ids = some st1 ∧
        st1.impact = RiskExploitationImpact.LowImpact ∧
        st1.mostRelevantAsset =
          lastOr st.mostRelevantAsset
            ((ids.filterMap input.technicalAsset).filter (fun a => !skipAsset a)) := by
  induction ids with
  | nil =>
    intro st hlow _ _
    exact ⟨st, rfl, hlow, by simp [lastOr]⟩
  | cons id ids ih =>
    intro st hlow hids hno
    obtain ⟨a, ha⟩ := hids id (List.mem_cons_self _ _)
    have hids1 := fun i hi => hids i (List.mem_cons_of_mem id hi)
    have hno1 := fun i hi => hno i (List.mem_cons_of_mem id hi)
    cases hskip : skipAsset a
    · obtain ⟨hp, ho⟩ := hno id (List.mem_cons_self _ _) a ha hskip
      obtain ⟨st1, hbody, hlow1, hmra⟩ := loopBody_low T input st a hlow hskip hp ho
      obtain ⟨st2, hrun, hlow2, hres⟩ := ih st1 hlow1 hids1 hno1
      refine ⟨st2, ?_, hlow2, ?_⟩
      · simp [runLoop, loopStep, ha, hbody, hrun]
      · rw [hres, hmra, List.filterMap_cons_some ha, List.filter_cons_of_pos (by simp [hskip]),
          lastOr_cons]
    · obtain ⟨st1, hbody, himp, hmra⟩ := loopBody_skipped T input st a hskip
      obtain ⟨st2, hrun, hlow2, hres⟩ := ih st1 (by rw [himp]; exact hlow) hids1 hno1
      refine ⟨st2, ?_, hlow2, ?_⟩
      · simp [runLoop, loopStep, ha, hbody, hrun]
      · rw [hres, hmra, List.filterMap_cons_some ha, List.filter_cons_of_neg (by simp [hskip])]

end MissingBuildInfrastructureRule

/-- Go `>=` on `float64` is transitive. -/
theorem Float64.ge_trans (x y z : Float64) (hxy : x.ge y = true) (hyz : y.ge z = true) :
    x.ge z = true := by
  cases x <;> cases y <;> cases z <;> simp_all [Float64.ge]
  exact le_trans hyz hxy

theorem Model.replaceAsset_keys (input : Model) (id : String) (b : TechnicalAsset) :
    (input.replaceAsset id b).TechnicalAssets.map Prod.fst =
      input.TechnicalAssets.map Prod.fst := by
  unfold Model.replaceAsset
  simp only [List.map_map]
  apply List.map_congr_left
  intro p _
  by_cases h : p.1 = id <;> simp [h]

theorem Model.replaceAsset_sortedIDs (input : Model) (id : String) (b : TechnicalAsset) :
    (input.replaceAsset id b).SortedTechnicalAssetIDs = input.SortedTechnicalAssetIDs := by
  unfold Model.SortedTechnicalAssetIDs
  rw [Model.replaceAsset_keys]

theorem lookup_replace (l : List (String × TechnicalAsset)) (id : String) (b : TechnicalAsset)
    (k : String) :
    (l.map (fun p => if p.1 = id then (p.1, b) else p)).lookup k =
      if k = id then (l.lookup k).map (fun _ => b) else l.lookup k := by
  induction l with
  | nil => simp
  | cons p l ih =>
    obtain ⟨key, v⟩ := p
    have hhead : (if (key, v).1 = id then ((key, v).1, b) else (key, v)) =
        (key, if key = id then b else v) := by
      by_cases hid : key = id <;> simp [hid]
    rw [List.map_cons, hhead, List.lookup_cons, List.lookup_cons]
    by_cases hk : k = key
    · have hbeq : (k == key) = true := by simpa using hk
      rw [hbeq]
      subst hk
      by_cases hid : k = id <;> simp [hid]
    · have hbeq : (k == key) = false := by simpa using hk
      rw [hbeq]
      exact ih

theorem Model.replaceAsset_lookup_self (input : Model) (id : String) (a b : TechnicalAsset)
    (ha : input.technicalAsset id = some a) :
    (input.replaceAsset id b).technicalAsset id = some b := by
  unfold Model.technicalAsset at ha ⊢
  unfold Model.replaceAsset
  simp only []
  rw [lookup_replace, if_pos rfl, ha]
  rfl

theorem Model.replaceAsset_lookup_other (input : Model) (id : String) (b : TechnicalAsset)
    (k : String) (hk : k ≠ id) :
    (input.replaceAsset id b).technicalAsset k = input.technicalAsset k := by
  unfold Model.technicalAsset
  unfold Model.replaceAsset
  simp only []
  rw [lookup_replace, if_neg hk]

/-- Replacing an asset by one with the same id keeps every asset bound under
its own id. -/
theorem Model.replaceAsset_wellKeyed (input : Model) (id : String) (b : TechnicalAsset)
    (hb : b.Id = id)
    (hkeys : ∀ k a, input.technicalAsset k = some a → a.Id = k) :
    ∀ k a, (input.replaceAsset id b).technicalAsset k = some a → a.Id = k := by
  intro k a h
  by_cases hk : k = id
  · subst hk
    unfold Model.technicalAsset at h
    unfold Model.replaceAsset at h
    simp only [] at h
    rw [lookup_replace, if_pos rfl] at h
    cases hl : input.TechnicalAssets.lookup k with
    | none => rw [hl] at h; simp at h
    | some x =>
      rw [hl] at h
      simp at h
      rw [← h]
      exact hb
  · rw [Model.replaceAsset_lookup_other input id b k hk] at h
    exact hkeys k a h

namespace MissingHardeningRule

/-- In a model that binds every asset under its own id, the rule returns a
risk for the id of a technical asset exactly when it flags the asset. -/
theorem risk_for_asset_iff (T : TypesPkg) (rule : MissingHardeningRule) (input : Model)
    (hkeys : ∀ id a, input.technicalAsset id = some a → a.Id = id)
    (id : String) (a : TechnicalAsset) (ha : input.technicalAsset id = some a) :
    (∃ risks, GenerateRisks T rule input = some (risks, none) ∧
        ∃ r ∈ risks, r.MostRelevantTechnicalAssetId = a.Id) ↔ emitsFor rule a = true := by
  constructor
  · rintro ⟨risks, hgen, r, hr, hid⟩
    obtain ⟨b, ⟨k, hb⟩, hflag, hrb⟩ := hardening_emitted_risk T rule input risks none r hgen hr
    have hbid : b.Id = a.Id := by
      rw [hrb] at hid
      exact hid
    have hk : k = id := by
      rw [← hkeys k b hb, hbid, hkeys id a ha]
    rw [hk, ha] at hb
    rw [Option.some.inj hb]
    exact hflag
  · intro hflag
    refine ⟨_, GenerateRisks_eq T rule input, createRisk T rule input a, ?_, rfl⟩
    exact List.mem_map.2 ⟨a, List.mem_filter.2
      ⟨(mem_sortedAssets_iff input a).2 ⟨id, ha⟩, hflag⟩, rfl⟩

/-- The condition of the rule is monotone in the RAA of the asset. -/
theorem emitsFor_raa_mono (rule : MissingHardeningRule) (a : TechnicalAsset) (raa : Float64)
    (hge : raa.ge a.RAA = true) (hflag : emitsFor rule a = true) :
    emitsFor rule { a with RAA := raa } = true := by
  unfold emitsFor raaCondition skipAsset at hflag ⊢
  simp only [Bool.and_eq_true, Bool.or_eq_true, Bool.not_eq_true', decide_eq_true_eq] at hflag ⊢
  obtain ⟨hs, hc⟩ := hflag
  refine ⟨hs, ?_⟩
  rcases hc with h | ⟨h, hk⟩
  · exact Or.inl (Float64.ge_trans _ _ _ hge h)
  · exact Or.inr ⟨Float64.ge_trans _ _ _ hge h, hk⟩

/-- A flagged asset stays flagged when its type becomes `Datastore`. -/
theorem emitsFor_datastore (rule : MissingHardeningRule) (a : TechnicalAsset)
    (hflag : emitsFor rule a = true) :
    emitsFor rule { a with AssetType := TechnicalAssetType.Datastore } = true := by
  unfold emitsFor raaCondition skipAsset at hflag ⊢
  simp only [Bool.and_eq_true, Bool.or_eq_true, Bool.not_eq_true', decide_eq_true_eq] at hflag ⊢
  obtain ⟨hs, hc⟩ := hflag
  refine ⟨hs, ?_⟩
  rcases hc with h | ⟨h, _⟩
  · exact Or.inl h
  · exact Or.inr ⟨h, Or.inl trivial⟩

/-- A flagged asset stays flagged when it gets the tag `IsHighValueTarget`. -/
theorem emitsFor_highValueTarget (rule : MissingHardeningRule) (a : TechnicalAsset)
    (hflag : emitsFor rule a = true) :
    emitsFor rule { a with Technologies :=
      { tags := TechnologyAttribute.IsHighValueTarget :: a.Technologies.tags } } = true := by
  unfold emitsFor raaCondition skipAsset at hflag ⊢
  simp only [Bool.and_eq_true, Bool.or_eq_true, Bool.not_eq_true', decide_eq_true_eq] at hflag ⊢
  obtain ⟨hs, hc⟩ := hflag
  refine ⟨hs, ?_⟩
  rcases hc with h | ⟨h, _⟩
  · exact Or.inl h
  · exact Or.inr ⟨h, Or.inr (by simp [TechnologyList.GetAttribute])⟩

/-- The rule returns a risk for the asset that replaces a flagged asset under
the same id, when the replacement is flagged too. -/
theorem risk_after_replace (T : TypesPkg) (rule : MissingHardeningRule) (input : Model)
    (hkeys : ∀ id a, input.technicalAsset id = some a → a.Id = id)
    (id : String) (a b : TechnicalAsset) (ha : input.technicalAsset id = some a)
    (hb : b.Id = a.Id) (hflag : emitsFor rule b = true) :
    ∃ risks, GenerateRisks T rule (input.replaceAsset id b) = some (risks, none) ∧
      ∃ r ∈ risks, r.MostRelevantTechnicalAssetId = a.Id := by
  have hbid : b.Id = id := by rw [hb, hkeys id a ha]
  have h := (risk_for_asset_iff T rule (input.replaceAsset id b)
    (input.replaceAsset_wellKeyed id b hbid hkeys) id b
    (input.replaceAsset_lookup_self id a b ha)).2 hflag
  rw [hb] at h
  exact h

end MissingHardeningRule

/-- The sorted ids are strictly ascending (strings compared character by
character). -/
theorem Model.sortedIDs_strictlyAscending (input : Model) :
    input.SortedTechnicalAssetIDs.Pairwise (fun a b => a.data < b.data) := by
  have hs : (input.SortedTechnicalAssetIDs).Pairwise (fun a b : String => a.data ≤ b.data) := by
    unfold Model.SortedTechnicalAssetIDs
    haveI : IsTotal String (fun a b => a.data ≤ b.data) := ⟨fun a b => le_total a.data b.data⟩
    haveI : IsTrans String (fun a b => a.data ≤ b.data) :=
      ⟨fun a b c hab hbc => le_trans hab hbc⟩
    exact List.sorted_insertionSort (fun a b : String => a.data ≤ b.data) _
  have hn : input.SortedTechnicalAssetIDs.Pairwise (fun a b => a ≠ b) := input.sortedIDs_nodup
  refine (hs.and hn).imp ?_
  intro a b hab
  exact lt_of_le_of_ne hab.1 (fun h => hab.2 (String.ext h))

/-- A strictly ascending list of strings has no duplicate. -/
theorem nodup_of_strictlyAscending (ids : List String)
    (h : ids.Pairwise (fun a b => a.data < b.data)) : ids.Nodup :=
  h.imp (fun hab heq => absurd hab (by rw [heq]; exact lt_irrefl _))

namespace MissingHardeningRule

theorem syntheticId_injective (c : String) :
    Function.Injective (fun i : String => c ++ "@" ++ i) := by
  intro a b h
  have h2 := congrArg String.data h
  simp only [String.data_append, List.append_assoc] at h2
  exact String.ext (List.append_cancel_left (List.append_cancel_left h2))

/-- The asset ids of the risks the rule builds, in a model that binds every
asset under its own id: a sublist of the sorted ids. -/
theorem risk_ids_sublist (T : TypesPkg) (rule : MissingHardeningRule) (input : Model)
    (hkeys : ∀ id a, input.technicalAsset id = some a → a.Id = id) :
    ((((sortedAssets input).filter (emitsFor rule)).map (createRisk T rule input)).map
      (fun r => r.MostRelevantTechnicalAssetId)).Sublist input.SortedTechnicalAssetIDs := by
  have h1 : (((sortedAssets input).filter (emitsFor rule)).map (createRisk T rule input)).map
      (fun r => r.MostRelevantTechnicalAssetId) =
      ((sortedAssets input).filter (emitsFor rule)).map (fun a => a.Id) := by
    rw [List.map_map]
    rfl
  rw [h1, ← sortedAssets_ids input hkeys]
  exact List.Sublist.map _ (List.filter_sublist _)

/-- The `SyntheticId`s of the risks the rule builds are the category id, an
"@" and the asset id. -/
theorem risk_syntheticIds (T : TypesPkg) (rule : MissingHardeningRule) (input : Model)
    (l : List TechnicalAsset) :
    ((l.map (createRisk T rule input)).map (fun r => r.SyntheticId)) =
      ((l.map (createRisk T rule input)).map (fun r => r.MostRelevantTechnicalAssetId)).map
        (fun i => rule.Category.ID ++ "@" ++ i) := by
  simp only [List.map_map]
  rfl

end MissingHardeningRule

/-! ## The claims -/

open MissingBuildInfrastructureRule in
/-- C1: for every model, `MissingBuildInfrastructureRule.GenerateRisks`
returns a nil error and a list of exactly one risk when (a) some technical
asset is custom-developed and not out of scope and (b) at least one of the
tags BuildPipeline, SourcecodeRepository, DevOpsClient is carried by no
technical asset of the model (the tag search covers every asset, out of scope
or not); in every other case the returned list is empty. -/
theorem C1_build_infrastructure_one_risk_or_none (T : TypesPkg) (input : Model) :
    ∃ risks, GenerateRisks T input = some (risks, none) ∧
      (risks.length = 1 ↔
        ((∃ a, input.IsTechnicalAsset a ∧ a.CustomInScope) ∧
          (¬ input.HasTag TechnologyAttribute.BuildPipeline ∨
            ¬ input.HasTag TechnologyAttribute.SourcecodeRepository ∨
            ¬ input.HasTag TechnologyAttribute.DevOpsClient))) ∧
      (risks = [] ↔
        ¬ ((∃ a, input.IsTechnicalAsset a ∧ a.CustomInScope) ∧
          (¬ input.HasTag TechnologyAttribute.BuildPipeline ∨
            ¬ input.HasTag TechnologyAttribute.SourcecodeRepository ∨
            ¬ input.HasTag TechnologyAttribute.DevOpsClient))) := by
  have hor : (¬ input.HasTag TechnologyAttribute.BuildPipeline ∨
      ¬ input.HasTag TechnologyAttribute.SourcecodeRepository ∨
      ¬ input.HasTag TechnologyAttribute.DevOpsClient) ↔
      ¬ (input.HasTag TechnologyAttribute.BuildPipeline ∧
        input.HasTag TechnologyAttribute.SourcecodeRepository ∧
        input.HasTag TechnologyAttribute.DevOpsClient) := by
    rw [not_and_or, not_and_or]
  rw [hor]
  obtain ⟨st, _, hcases⟩ := GenerateRisks_result T input
  rcases hcases with ⟨hc, x, _, hres⟩ | ⟨hc, hres⟩
  · refine ⟨_, hres, ?_, ?_⟩
    · simp [hc]
    · simp [hc]
  · refine ⟨_, hres, ?_, ?_⟩
    · simp only [List.length_nil]
      constructor
      · intro h
        exact absurd h (by decide)
      · intro h
        exact absurd h hc
    · exact ⟨fun _ => hc, fun _ => rfl⟩

open MissingHardeningRule in
/-- C2: for every model whose asset map binds each asset under its own id,
`MissingHardeningRule.GenerateRisks` with the limits 55 and 40 returns a nil
error and a list that holds a risk whose `MostRelevantTechnicalAssetId` is
the id of asset `a` if and only if `a` is not out of scope and either
`a.RAA >= 55`, or `a.RAA >= 40` and `a` is a Datastore or carries
`IsHighValueTarget`; no asset gets more than one risk, so each such asset
gets exactly one and an out-of-scope asset gets none. -/
theorem C2_hardening_emits_iff_threshold (T : TypesPkg) (input : Model)
    (hkeys : ∀ id a, input.technicalAsset id = some a → a.Id = id) :
    ∃ risks, GenerateRisks T NewMissingHardeningRule input = some (risks, none) ∧
      ∀ a, input.IsTechnicalAsset a →
        ((∃ r ∈ risks, r.MostRelevantTechnicalAssetId = a.Id) ↔
          (a.OutOfScope = false ∧
            (a.RAA.ge (Float64.finite 55) = true ∨
              (a.RAA.ge (Float64.finite 40) = true ∧
                (a.AssetType = TechnicalAssetType.Datastore ∨
                  a.Technologies.GetAttribute TechnologyAttribute.IsHighValueTarget = true))))) ∧
        risks.countP (fun r => decide (r.MostRelevantTechnicalAssetId = a.Id)) ≤ 1 := by
  refine ⟨_, GenerateRisks_eq T NewMissingHardeningRule input, ?_⟩
  intro a ha
  have hemits : emitsFor NewMissingHardeningRule a = true ↔
      (a.OutOfScope = false ∧
        (a.RAA.ge (Float64.finite 55) = true ∨
          (a.RAA.ge (Float64.finite 40) = true ∧
            (a.AssetType = TechnicalAssetType.Datastore ∨
              a.Technologies.GetAttribute TechnologyAttribute.IsHighValueTarget = true)))) := by
    simp [emitsFor, skipAsset, raaCondition, NewMissingHardeningRule, Float64.ofInt]
  have hmrt : ∀ b, (createRisk T NewMissingHardeningRule input b).MostRelevantTechnicalAssetId
      = b.Id := fun _ => rfl
  constructor
  · rw [← hemits]
    constructor
    · rintro ⟨r, hr, hid⟩
      obtain ⟨b, hb, hrb⟩ := List.mem_map.1 hr
      obtain ⟨hbmem, hbe⟩ := List.mem_filter.1 hb
      obtain ⟨idb, hidb⟩ := (mem_sortedAssets_iff input b).1 hbmem
      obtain ⟨ida, hida⟩ := ha
      have h1 : b.Id = a.Id := by rw [← hid, ← hrb, hmrt]
      have h2 : idb = ida := by rw [← hkeys idb b hidb, ← hkeys ida a hida, h1]
      have h3 : b = a := by
        rw [h2, hida] at hidb
        exact (Option.some.inj hidb).symm
      rw [← h3]
      exact hbe
    · intro he
      exact ⟨createRisk T NewMissingHardeningRule input a,
        List.mem_map.2 ⟨a, List.mem_filter.2 ⟨(mem_sortedAssets_iff input a).2 ha, he⟩, rfl⟩,
        hmrt a⟩
  · have hnodup : ((sortedAssets input).map (fun b => b.Id)).Nodup := by
      rw [sortedAssets_ids input hkeys]
      exact input.sortedIDs_nodup
    have hcount := List.nodup_iff_count_le_one.1 hnodup a.Id
    rw [List.count, List.countP_map] at hcount
    rw [List.countP_map, List.countP_filter]
    refine le_trans (List.countP_mono_left ?_ ) hcount
    intro b _ hb
    simp only [Function.comp, hmrt, Bool.and_eq_true, decide_eq_true_eq] at hb
    simp [hb.1]

/-- C2 at the sample hardening model: the asset map binds each asset under
its own id, and the theorem applies. -/
theorem C2_hardening_emits_iff_threshold_witness :
    (∀ id a, sampleHardeningModel.technicalAsset id = some a → a.Id = id) ∧
    ∃ risks, MissingHardeningRule.GenerateRisks sampleTypes NewMissingHardeningRule
        sampleHardeningModel = some (risks, none) ∧
      ∀ a, sampleHardeningModel.IsTechnicalAsset a →
        ((∃ r ∈ risks, r.MostRelevantTechnicalAssetId = a.Id) ↔
          (a.OutOfScope = false ∧
            (a.RAA.ge (Float64.finite 55) = true ∨
              (a.RAA.ge (Float64.finite 40) = true ∧
                (a.AssetType = TechnicalAssetType.Datastore ∨
                  a.Technologies.GetAttribute TechnologyAttribute.IsHighValueTarget = true))))) ∧
        risks.countP (fun r => decide (r.MostRelevantTechnicalAssetId = a.Id)) ≤ 1 :=
  ⟨modelOf_keys _, C2_hardening_emits_iff_threshold sampleTypes sampleHardeningModel
    (modelOf_keys _)⟩

open MissingBuildInfrastructureRule in
/-- C3 (the code at the failing input): on the model of two custom-developed
in-scope assets "a" and "b" where neither reaches an escalation level,
`GenerateRisks` anchors its risk to "b", the asset scanned last, although
"a" is custom-developed, in scope and has the strictly higher
`HighestSensitivityScore`. -/
theorem C3_anchor_is_last_scanned_asset (T : TypesPkg)
    (ha : twoCustomAssetsModel.processedCIAAtLevel T higherRatedAsset = false)
    (hb : twoCustomAssetsModel.processedCIAAtLevel T lowerRatedAsset = false)
    (hscore : (T.HighestSensitivityScore higherRatedAsset).gt
      (T.HighestSensitivityScore lowerRatedAsset) = true) :
    GenerateRisks T twoCustomAssetsModel =
        some ([createRisk T lowerRatedAsset RiskExploitationImpact.LowImpact], none) ∧
      (createRisk T lowerRatedAsset
        RiskExploitationImpact.LowImpact).MostRelevantTechnicalAssetId = "b" ∧
      twoCustomAssetsModel.IsTechnicalAsset higherRatedAsset ∧
      higherRatedAsset.CustomInScope ∧
      (T.HighestSensitivityScore higherRatedAsset).gt
        (T.HighestSensitivityScore lowerRatedAsset) = true := by
  have hids : twoCustomAssetsModel.SortedTechnicalAssetIDs = ["a", "b"] := by decide
  have hla : twoCustomAssetsModel.technicalAsset "a" = some higherRatedAsset := by decide
  have hlb : twoCustomAssetsModel.technicalAsset "b" = some lowerRatedAsset := by decide
  have hsa : skipAsset higherRatedAsset = false := by decide
  have hsb : skipAsset lowerRatedAsset = false := by decide
  have hoa : higherRatedAsset.ownCIAAtLevel = false := by decide
  have hob : lowerRatedAsset.ownCIAAtLevel = false := by decide
  have hta : ∀ tag, higherRatedAsset.Technologies.GetAttribute tag = false := by
    intro tag; simp [higherRatedAsset, sampleAsset, TechnologyList.GetAttribute]
  have htb : ∀ tag, lowerRatedAsset.Technologies.GetAttribute tag = false := by
    intro tag; simp [lowerRatedAsset, sampleAsset, TechnologyList.GetAttribute]
  refine ⟨?_, rfl, ⟨"a", hla⟩, ⟨rfl, rfl⟩, hscore⟩
  unfold GenerateRisks
  rw [hids]
  simp only [runLoop, loopStep, hla, hlb, loopBody, getTechFlags_eq,
    evaluateImpactFromHighestCIAValues_eq, evaluateImpactFromTechnicalAssetCIAValues_eq,
    hsa, hsb, hoa, hob, ha, hb, hta, htb, Locals.init]
  cases (T.HighestSensitivityScore higherRatedAsset).gt
      (T.HighestSensitivityScore higherRatedAsset) <;>
    cases (T.HighestSensitivityScore lowerRatedAsset).gt
      (T.HighestSensitivityScore lowerRatedAsset) <;>
    simp [finish]

/-- C3 at the sample package: no escalation, score of "a" above score of "b",
and the risk is anchored to "b". -/
theorem C3_anchor_is_last_scanned_asset_witness :
    (twoCustomAssetsModel.processedCIAAtLevel sampleTypes higherRatedAsset = false ∧
      twoCustomAssetsModel.processedCIAAtLevel sampleTypes lowerRatedAsset = false ∧
      (sampleTypes.HighestSensitivityScore higherRatedAsset).gt
        (sampleTypes.HighestSensitivityScore lowerRatedAsset) = true) ∧
    (MissingBuildInfrastructureRule.GenerateRisks sampleTypes twoCustomAssetsModel =
        some ([MissingBuildInfrastructureRule.createRisk sampleTypes lowerRatedAsset
          RiskExploitationImpact.LowImpact], none) ∧
      (MissingBuildInfrastructureRule.createRisk sampleTypes lowerRatedAsset
        RiskExploitationImpact.LowImpact).MostRelevantTechnicalAssetId = "b" ∧
      twoCustomAssetsModel.IsTechnicalAsset higherRatedAsset ∧
      higherRatedAsset.CustomInScope ∧
      (sampleTypes.HighestSensitivityScore higherRatedAsset).gt
        (sampleTypes.HighestSensitivityScore lowerRatedAsset) = true) :=
  ⟨⟨by decide, by decide, by decide⟩,
    C3_anchor_is_last_scanned_asset sampleTypes (by decide) (by decide) (by decide)⟩

open MissingBuildInfrastructureRule in
/-- C4: the risk `MissingBuildInfrastructureRule.GenerateRisks` emits has
`ExploitationImpact` `MediumImpact` if and only if some custom-developed,
not-out-of-scope asset has its own rating, or the model's highest processed
rating for it, at the level confidentiality >= Confidential, integrity >=
Critical or availability >= Critical; otherwise the impact is `LowImpact`;
no other impact is produced. -/
theorem C4_build_infrastructure_impact (T : TypesPkg) (input : Model) (risks : List Risk)
    (err : Option GoError) (r : Risk)
    (hgen : GenerateRisks T input = some (risks, err)) (hr : r ∈ risks) :
    (r.ExploitationImpact = RiskExploitationImpact.MediumImpact ↔
      ∃ a, input.IsTechnicalAsset a ∧ a.CustomInScope ∧
        (a.ownCIAAtLevel = true ∨ input.processedCIAAtLevel T a = true)) ∧
    (r.ExploitationImpact = RiskExploitationImpact.LowImpact ↔
      ¬ ∃ a, input.IsTechnicalAsset a ∧ a.CustomInScope ∧
        (a.ownCIAAtLevel = true ∨ input.processedCIAAtLevel T a = true)) ∧
    (r.ExploitationImpact = RiskExploitationImpact.LowImpact ∨
      r.ExploitationImpact = RiskExploitationImpact.MediumImpact) := by
  obtain ⟨x, impact, hreq, _, _, _, _, hmed, hlm⟩ := emitted_risk T input risks err r hgen hr
  have himp : r.ExploitationImpact = impact := by rw [hreq]; rfl
  have hswap : (∃ a, input.IsTechnicalAsset a ∧ a.CustomInScope ∧
      (a.ownCIAAtLevel = true ∨ input.processedCIAAtLevel T a = true)) ↔
      impact = RiskExploitationImpact.MediumImpact := by
    rw [hmed]
    constructor
    · rintro ⟨a, h1, h2, h3⟩
      exact ⟨a, h1, h2, h3.symm⟩
    · rintro ⟨a, h1, h2, h3⟩
      exact ⟨a, h1, h2, h3.symm⟩
  rw [himp, hswap]
  refine ⟨Iff.rfl, ?_, hlm⟩
  rcases hlm with h | h <;> simp [h]

/-- C4 at the sample build model: the one risk has `MediumImpact`, because
the application is rated `Confidential`. -/
theorem C4_build_infrastructure_impact_witness :
    (MissingBuildInfrastructureRule.GenerateRisks sampleTypes sampleBuildModel =
        some ([sampleBuildRisk], none) ∧
      sampleBuildRisk ∈ [sampleBuildRisk]) ∧
    ((sampleBuildRisk.ExploitationImpact = RiskExploitationImpact.MediumImpact ↔
      ∃ a, sampleBuildModel.IsTechnicalAsset a ∧ a.CustomInScope ∧
        (a.ownCIAAtLevel = true ∨ sampleBuildModel.processedCIAAtLevel sampleTypes a = true)) ∧
    (sampleBuildRisk.ExploitationImpact = RiskExploitationImpact.LowImpact ↔
      ¬ ∃ a, sampleBuildModel.IsTechnicalAsset a ∧ a.CustomInScope ∧
        (a.ownCIAAtLevel = true ∨ sampleBuildModel.processedCIAAtLevel sampleTypes a = true)) ∧
    (sampleBuildRisk.ExploitationImpact = RiskExploitationImpact.LowImpact ∨
      sampleBuildRisk.ExploitationImpact = RiskExploitationImpact.MediumImpact)) :=
  ⟨⟨by decide, List.mem_singleton.2 rfl⟩,
    C4_build_infrastructure_impact sampleTypes sampleBuildModel [sampleBuildRisk] none
      sampleBuildRisk (by decide) (List.mem_singleton.2 rfl)⟩

open MissingHardeningRule in
/-- C5: every risk `MissingHardeningRule.GenerateRisks` emits is the risk of
a technical asset of the model; its `ExploitationLikelihood` is `Likely`, and
its `ExploitationImpact` is `MediumImpact` exactly when the model's highest
processed confidentiality for that asset is `StrictlyConfidential` or its
highest processed integrity is `MissionCritical`, and `LowImpact` in every
other case. -/
theorem C5_hardening_likelihood_and_impact (T : TypesPkg) (rule : MissingHardeningRule)
    (input : Model) (risks : List Risk) (err : Option GoError) (r : Risk)
    (hgen : GenerateRisks T rule input = some (risks, err)) (hr : r ∈ risks) :
    ∃ a, input.IsTechnicalAsset a ∧ r = createRisk T rule input a ∧
      r.MostRelevantTechnicalAssetId = a.Id ∧
      r.ExploitationLikelihood = RiskExploitationLikelihood.Likely ∧
      (r.ExploitationImpact = RiskExploitationImpact.MediumImpact ↔
        (T.HighestProcessedConfidentiality input a = Confidentiality.StrictlyConfidential ∨
          T.HighestProcessedIntegrity input a = Criticality.MissionCritical)) ∧
      (r.ExploitationImpact = RiskExploitationImpact.LowImpact ↔
        ¬ (T.HighestProcessedConfidentiality input a = Confidentiality.StrictlyConfidential ∨
          T.HighestProcessedIntegrity input a = Criticality.MissionCritical)) := by
  obtain ⟨a, ha, _, hra⟩ := hardening_emitted_risk T rule input risks err r hgen hr
  refine ⟨a, ha, hra, ?_, ?_, ?_, ?_⟩
  · rw [hra]; rfl
  · rw [hra]; rfl
  · rw [hra]
    by_cases hc : T.HighestProcessedConfidentiality input a = Confidentiality.StrictlyConfidential
    · simp [createRisk, hc]
    · by_cases hi : T.HighestProcessedIntegrity input a = Criticality.MissionCritical
      · simp [createRisk, hi]
      · simp [createRisk, hc, hi]
  · rw [hra]
    by_cases hc : T.HighestProcessedConfidentiality input a = Confidentiality.StrictlyConfidential
    · simp [createRisk, hc]
    · by_cases hi : T.HighestProcessedIntegrity input a = Criticality.MissionCritical
      · simp [createRisk, hi]
      · simp [createRisk, hc, hi]

/-- C5 at the sample hardening model: the risk of the datastore "db" is
emitted, and the theorem applies to it. -/
theorem C5_hardening_likelihood_and_impact_witness :
    (MissingHardeningRule.GenerateRisks sampleTypes NewMissingHardeningRule
        sampleHardeningModel = some ([sampleDbRisk, sampleWebRisk], none) ∧
      sampleDbRisk ∈ [sampleDbRisk, sampleWebRisk]) ∧
    ∃ a, sampleHardeningModel.IsTechnicalAsset a ∧
      sampleDbRisk = MissingHardeningRule.createRisk sampleTypes NewMissingHardeningRule
        sampleHardeningModel a ∧
      sampleDbRisk.MostRelevantTechnicalAssetId = a.Id ∧
      sampleDbRisk.ExploitationLikelihood = RiskExploitationLikelihood.Likely ∧
      (sampleDbRisk.ExploitationImpact = RiskExploitationImpact.MediumImpact ↔
        (sampleTypes.HighestProcessedConfidentiality sampleHardeningModel a =
            Confidentiality.StrictlyConfidential ∨
          sampleTypes.HighestProcessedIntegrity sampleHardeningModel a =
            Criticality.MissionCritical)) ∧
      (sampleDbRisk.ExploitationImpact = RiskExploitationImpact.LowImpact ↔
        ¬ (sampleTypes.HighestProcessedConfidentiality sampleHardeningModel a =
            Confidentiality.StrictlyConfidential ∨
          sampleTypes.HighestProcessedIntegrity sampleHardeningModel a =
            Criticality.MissionCritical)) :=
  ⟨⟨by decide, List.mem_cons_self _ _⟩,
    C5_hardening_likelihood_and_impact sampleTypes NewMissingHardeningRule sampleHardeningModel
      [sampleDbRisk, sampleWebRisk] none sampleDbRisk (by decide) (List.mem_cons_self _ _)⟩

open MissingBuildInfrastructureRule in
/-- C6: whenever `MissingBuildInfrastructureRule.GenerateRisks` emits its
risk, `MostRelevantTechnicalAssetId` is the id of a technical asset of the
model that is custom-developed and not out of scope; and for every model with
exactly one such asset and no asset tagged BuildPipeline,
SourcecodeRepository or DevOpsClient, the result is exactly one risk, with
`CategoryId` "missing-build-infrastructure", anchored to that asset. -/
theorem C6_build_infrastructure_anchor_in_scope (T : TypesPkg) (input : Model) :
    (∀ risks err r, GenerateRisks T input = some (risks, err) → r ∈ risks →
      ∃ a, input.IsTechnicalAsset a ∧ a.CustomInScope ∧
        r.MostRelevantTechnicalAssetId = a.Id) ∧
    (∀ a, input.IsTechnicalAsset a → a.CustomInScope →
      (∀ b, input.IsTechnicalAsset b → b.CustomInScope → b = a) →
      ¬ input.HasTag TechnologyAttribute.BuildPipeline →
      ¬ input.HasTag TechnologyAttribute.SourcecodeRepository →
      ¬ input.HasTag TechnologyAttribute.DevOpsClient →
      ∃ r, GenerateRisks T input = some ([r], none) ∧
        r.CategoryId = "missing-build-infrastructure" ∧
        r.MostRelevantTechnicalAssetId = a.Id) := by
  constructor
  · intro risks err r hgen hr
    obtain ⟨x, impact, hreq, _, _, hx, hcis, _, _⟩ := emitted_risk T input risks err r hgen hr
    exact ⟨x, hx, hcis, by rw [hreq]; rfl⟩
  · intro a ha hcis huniq hbp _ _
    obtain ⟨st, _, hcases⟩ := GenerateRisks_result T input
    rcases hcases with ⟨_, x, _, hres⟩ | ⟨hc, _⟩
    · obtain ⟨y, impact, hreq, _, _, hy, hycis, _, _⟩ :=
        emitted_risk T input _ none (createRisk T x st.impact) hres (List.mem_singleton.2 rfl)
      have hya : y = a := huniq y hy hycis
      refine ⟨createRisk T x st.impact, hres, rfl, ?_⟩
      rw [hreq, hya]
      rfl
    · exact absurd ⟨⟨a, ha, hcis⟩, fun h => hbp h.1⟩ hc

/-- C6 at the sample models: the anchor of the sample build risk is a
custom-developed in-scope asset, and the model with the one custom-developed
in-scope asset "b" and no tag gets one risk anchored to "b". -/
theorem C6_build_infrastructure_anchor_in_scope_witness :
    (∃ a, sampleBuildModel.IsTechnicalAsset a ∧ a.CustomInScope ∧
      sampleBuildRisk.MostRelevantTechnicalAssetId = a.Id) ∧
    (∃ r, MissingBuildInfrastructureRule.GenerateRisks sampleTypes (modelOf [lowerRatedAsset]) =
        some ([r], none) ∧
      r.CategoryId = "missing-build-infrastructure" ∧
      r.MostRelevantTechnicalAssetId = lowerRatedAsset.Id) :=
  ⟨(C6_build_infrastructure_anchor_in_scope sampleTypes sampleBuildModel).1
      [sampleBuildRisk] none sampleBuildRisk (by decide) (List.mem_singleton.2 rfl),
    (C6_build_infrastructure_anchor_in_scope sampleTypes (modelOf [lowerRatedAsset])).2
      lowerRatedAsset ⟨"b", by decide⟩ ⟨rfl, rfl⟩
      (fun b hb _ => List.mem_singleton.1 (modelOf_isTechnicalAsset _ b hb))
      (fun ⟨b, hb, ht⟩ => by
        rw [List.mem_singleton.1 (modelOf_isTechnicalAsset _ b hb)] at ht
        exact absurd ht (by decide))
      (fun ⟨b, hb, ht⟩ => by
        rw [List.mem_singleton.1 (modelOf_isTechnicalAsset _ b hb)] at ht
        exact absurd ht (by decide))
      (fun ⟨b, hb, ht⟩ => by
        rw [List.mem_singleton.1 (modelOf_isTechnicalAsset _ b hb)] at ht
        exact absurd ht (by decide))⟩

/-- C7: every risk emitted by `MissingBuildInfrastructureRule.GenerateRisks`
or by `MissingHardeningRule.GenerateRisks` has `CategoryId` equal to the ID
of the emitting rule's `Category()` and `SyntheticId` equal to
`CategoryId + "@" + MostRelevantTechnicalAssetId`, which is never empty. -/
theorem C7_category_and_synthetic_id (T : TypesPkg) (rule : MissingHardeningRule)
    (input : Model) :
    (∀ risks err r, MissingBuildInfrastructureRule.GenerateRisks T input = some (risks, err) →
      r ∈ risks →
      r.CategoryId = MissingBuildInfrastructureRule.Category.ID ∧
        r.SyntheticId = r.CategoryId ++ "@" ++ r.MostRelevantTechnicalAssetId ∧
        r.SyntheticId ≠ "") ∧
    (∀ risks err r, MissingHardeningRule.GenerateRisks T rule input = some (risks, err) →
      r ∈ risks →
      r.CategoryId = rule.Category.ID ∧
        r.SyntheticId = r.CategoryId ++ "@" ++ r.MostRelevantTechnicalAssetId ∧
        r.SyntheticId ≠ "") := by
  have hne : ∀ s t : String, s ++ "@" ++ t ≠ "" := by
    intro s t h
    have hlen := congrArg String.length h
    simp [String.length_append] at hlen
    exact absurd hlen.1.2 (by decide)
  constructor
  · intro risks err r hgen hr
    obtain ⟨x, impact, hreq, _⟩ :=
      MissingBuildInfrastructureRule.emitted_risk T input risks err r hgen hr
    rw [hreq]
    exact ⟨rfl, rfl, hne _ _⟩
  · intro risks err r hgen hr
    obtain ⟨a, _, _, hra⟩ :=
      MissingHardeningRule.hardening_emitted_risk T rule input risks err r hgen hr
    rw [hra]
    exact ⟨rfl, rfl, hne _ _⟩

/-- C7 at the sample models, for the sample build risk and the sample
datastore risk. -/
theorem C7_category_and_synthetic_id_witness :
    (sampleBuildRisk.CategoryId = MissingBuildInfrastructureRule.Category.ID ∧
      sampleBuildRisk.SyntheticId =
        sampleBuildRisk.CategoryId ++ "@" ++ sampleBuildRisk.MostRelevantTechnicalAssetId ∧
      sampleBuildRisk.SyntheticId ≠ "") ∧
    (sampleDbRisk.CategoryId = NewMissingHardeningRule.Category.ID ∧
      sampleDbRisk.SyntheticId =
        sampleDbRisk.CategoryId ++ "@" ++ sampleDbRisk.MostRelevantTechnicalAssetId ∧
      sampleDbRisk.SyntheticId ≠ "") :=
  ⟨(C7_category_and_synthetic_id sampleTypes NewMissingHardeningRule sampleBuildModel).1
      [sampleBuildRisk] none sampleBuildRisk (by decide) (List.mem_singleton.2 rfl),
    (C7_category_and_synthetic_id sampleTypes NewMissingHardeningRule sampleHardeningModel).2
      [sampleDbRisk, sampleWebRisk] none sampleDbRisk (by decide) (List.mem_cons_self _ _)⟩

/-- C8: every risk emitted by `MissingBuildInfrastructureRule.GenerateRisks`
or by `MissingHardeningRule.GenerateRisks` carries the `Severity` that
`CalculateSeverity` gives for that risk's own `ExploitationLikelihood` and
`ExploitationImpact`; the likelihood is `Unlikely` for the build
infrastructure rule and `Likely` for the hardening rule. -/
theorem C8_severity_from_likelihood_and_impact (T : TypesPkg) (rule : MissingHardeningRule)
    (input : Model) :
    (∀ risks err r, MissingBuildInfrastructureRule.GenerateRisks T input = some (risks, err) →
      r ∈ risks →
      r.Severity = T.CalculateSeverity r.ExploitationLikelihood r.ExploitationImpact ∧
        r.ExploitationLikelihood = RiskExploitationLikelihood.Unlikely) ∧
    (∀ risks err r, MissingHardeningRule.GenerateRisks T rule input = some (risks, err) →
      r ∈ risks →
      r.Severity = T.CalculateSeverity r.ExploitationLikelihood r.ExploitationImpact ∧
        r.ExploitationLikelihood = RiskExploitationLikelihood.Likely) := by
  constructor
  · intro risks err r hgen hr
    obtain ⟨x, impact, hreq, _⟩ :=
      MissingBuildInfrastructureRule.emitted_risk T input risks err r hgen hr
    rw [hreq]
    exact ⟨rfl, rfl⟩
  · intro risks err r hgen hr
    obtain ⟨a, _, _, hra⟩ :=
      MissingHardeningRule.hardening_emitted_risk T rule input risks err r hgen hr
    rw [hra]
    exact ⟨rfl, rfl⟩

/-- C8 at the sample models, for the sample build risk and the sample
datastore risk. -/
theorem C8_severity_from_likelihood_and_impact_witness :
    (sampleBuildRisk.Severity = sampleTypes.CalculateSeverity
        sampleBuildRisk.ExploitationLikelihood sampleBuildRisk.ExploitationImpact ∧
      sampleBuildRisk.ExploitationLikelihood = RiskExploitationLikelihood.Unlikely) ∧
    (sampleDbRisk.Severity = sampleTypes.CalculateSeverity
        sampleDbRisk.ExploitationLikelihood sampleDbRisk.ExploitationImpact ∧
      sampleDbRisk.ExploitationLikelihood = RiskExploitationLikelihood.Likely) :=
  ⟨(C8_severity_from_likelihood_and_impact sampleTypes NewMissingHardeningRule
      sampleBuildModel).1 [sampleBuildRisk] none sampleBuildRisk (by decide)
      (List.mem_singleton.2 rfl),
    (C8_severity_from_likelihood_and_impact sampleTypes NewMissingHardeningRule
      sampleHardeningModel).2 [sampleDbRisk, sampleWebRisk] none sampleDbRisk (by decide)
      (List.mem_cons_self _ _)⟩

open TrueExpression in
/-- C9 (counterexample): parsing the scalar `false` with a fresh
`TrueExpression` succeeds, the operand of the node evaluates without error to
the false value, and `EvalBool` on the node returns that false value with a
nil error: no evaluation error is raised. -/
theorem C9_true_expression_false_operand_counterexample :
    (ParseBool sampleScriptPkg TrueExpression.zero (Script.bool false)).result =
        some (constNode false) ∧
      (ParseBool sampleScriptPkg TrueExpression.zero (Script.bool false)).error = none ∧
      (constNode false).expression = some (constBool false) ∧
      (constBool false).EvalBool () = ({ value := false }, "", none) ∧
      EvalBool sampleScriptPkg (constNode false) () = some ({ value := false }, "", none) ∧
      ¬ ∃ value errorLiteral evalError,
        EvalBool sampleScriptPkg (constNode false) () =
          some (value, errorLiteral, some evalError) := by
  refine ⟨rfl, rfl, rfl, rfl, rfl, ?_⟩
  rintro ⟨value, errorLiteral, evalError, h⟩
  have h1 : EvalBool sampleScriptPkg (constNode false) () =
      some ({ value := false }, "", none) := rfl
  rw [h1] at h
  simp at h

open TrueExpression in
/-- C9 (amended): for every scope and every successfully parsed
`TrueExpression` whose operand evaluates without error to the false value,
`EvalBool` returns that false value together with an empty error literal and
a nil error; it raises no evaluation error. -/
theorem C9_true_expression_passes_false_through {Scope : Type} (E : ScriptPkg Scope)
    (what : TrueExpression Scope) (script : Script) (n : TrueExpression Scope)
    (scope : Scope) (value : BoolValue) (errorLiteral : String)
    (hparse : (ParseBool E what script).result = some n)
    (hev : ∀ e, n.expression = some e → e.EvalBool scope = (value, errorLiteral, none))
    (hfalse : value.value = false) :
    EvalBool E n scope = some (value, "", none) ∧ value = { value := false } := by
  obtain ⟨e, he⟩ := ParseBool_result_operand E what script n hparse
  refine ⟨EvalBool_of_operand_ok E n e scope value errorLiteral he (hev e he), ?_⟩
  cases value
  simpa using hfalse

open TrueExpression in
/-- C9 (amended) at the sample package, for the node parsed from the scalar
`false`. -/
theorem C9_true_expression_passes_false_through_witness :
    ((ParseBool sampleScriptPkg TrueExpression.zero (Script.bool false)).result =
        some (constNode false) ∧
      (∀ e, (constNode false).expression = some e →
        e.EvalBool () = ({ value := false }, "", none)) ∧
      ({ value := false } : BoolValue).value = false) ∧
    (EvalBool sampleScriptPkg (constNode false) () = some ({ value := false }, "", none) ∧
      ({ value := false } : BoolValue) = { value := false }) :=
  ⟨⟨rfl, fun e he => by rw [← Option.some.inj he]; rfl, rfl⟩,
    C9_true_expression_passes_false_through sampleScriptPkg TrueExpression.zero
      (Script.bool false) (constNode false) () { value := false } ""
      rfl (fun e he => by rw [← Option.some.inj he]; rfl) rfl⟩

open TrueExpression in
/-- C10: for every scope and every successfully parsed `TrueExpression` whose
operand evaluates without error to the true value, `EvalBool` returns that
true value together with an empty error literal and a nil error. -/
theorem C10_true_expression_transparent_on_true {Scope : Type} (E : ScriptPkg Scope)
    (what : TrueExpression Scope) (script : Script) (n : TrueExpression Scope)
    (scope : Scope) (value : BoolValue) (errorLiteral : String)
    (hparse : (ParseBool E what script).result = some n)
    (hev : ∀ e, n.expression = some e → e.EvalBool scope = (value, errorLiteral, none))
    (htrue : value.value = true) :
    EvalBool E n scope = some (value, "", none) ∧ value = { value := true } := by
  obtain ⟨e, he⟩ := ParseBool_result_operand E what script n hparse
  refine ⟨EvalBool_of_operand_ok E n e scope value errorLiteral he (hev e he), ?_⟩
  cases value
  simpa using htrue

open TrueExpression in
/-- C10 at the sample package, for the node parsed from the scalar `true`. -/
theorem C10_true_expression_transparent_on_true_witness :
    ((ParseBool sampleScriptPkg TrueExpression.zero (Script.bool true)).result =
        some (constNode true) ∧
      (∀ e, (constNode true).expression = some e →
        e.EvalBool () = ({ value := true }, "", none)) ∧
      ({ value := true } : BoolValue).value = true) ∧
    (EvalBool sampleScriptPkg (constNode true) () = some ({ value := true }, "", none) ∧
      ({ value := true } : BoolValue) = { value := true }) :=
  ⟨⟨rfl, fun e he => by rw [← Option.some.inj he]; rfl, rfl⟩,
    C10_true_expression_transparent_on_true sampleScriptPkg TrueExpression.zero
      (Script.bool true) (constNode true) () { value := true } ""
      rfl (fun e he => by rw [← Option.some.inj he]; rfl) rfl⟩

open TrueExpression in
/-- C11: for every scope, if the operand of a `TrueExpression` fails to
evaluate with error `e` and error literal `l`, then `EvalBool` returns the
empty Bool value, returns `l` unchanged as the error literal, and returns an
error that wraps `e` (unwrapping yields `e`) and whose message is the quoted
literal of the node, followed by ": error evaluating true-expression: ",
followed by the message of `e`. -/
theorem C11_true_expression_wraps_operand_error {Scope : Type} (E : ScriptPkg Scope)
    (n : TrueExpression Scope) (operand : BoolExpression Scope) (scope : Scope)
    (value : BoolValue) (l : String) (e : GoError)
    (hop : n.expression = some operand)
    (hev : operand.EvalBool scope = (value, l, some e)) :
    ∃ err, EvalBool E n scope = some (E.EmptyBoolValue, l, some err) ∧
      err.Unwrap = some e ∧
      err.Error = E.Quote n.Literal ++ ": error evaluating true-expression: " ++ e.Error := by
  refine ⟨GoError.wrap
    (E.Quote n.literal ++ ": error evaluating true-expression: " ++ e.Error) e, ?_, rfl, rfl⟩
  unfold EvalBool
  rw [hop]
  simp only [hev]

open TrueExpression in
/-- C11 at the sample package, for the node over the failing operand. -/
theorem C11_true_expression_wraps_operand_error_witness :
    (failingNode.expression = some failingBool ∧
      failingBool.EvalBool () = ({ value := false }, "x", some (GoError.new "unknown variable"))) ∧
    ∃ err, EvalBool sampleScriptPkg failingNode () =
        some (sampleScriptPkg.EmptyBoolValue, "x", some err) ∧
      err.Unwrap = some (GoError.new "unknown variable") ∧
      err.Error = sampleScriptPkg.Quote failingNode.Literal ++
        ": error evaluating true-expression: " ++ (GoError.new "unknown variable").Error :=
  ⟨⟨rfl, rfl⟩,
    C11_true_expression_wraps_operand_error sampleScriptPkg failingNode failingBool ()
      { value := false } "x" (GoError.new "unknown variable") rfl rfl⟩

open TrueExpression in
/-- C12: for every script that `ExpressionList.ParseAny` parses without error
into something that is not a `BoolExpression`, `ParseBool` fails: it returns a
nil expression, the whole input script as the error tree, and a non-nil
error; when the operand parser returns no error, `ParseBool` succeeds exactly
when the parsed operand is a `BoolExpression`, and it then returns the
receiver (now holding that operand), a nil error tree and a nil error. -/
theorem C12_parse_bool_requires_bool_operand {Scope : Type} (E : ScriptPkg Scope)
    (what : TrueExpression Scope) (script : Script) :
    (∀ item errorScript, E.ExpressionListParseAny script = (item, errorScript, none) →
      (∀ castItem, item ≠ some (Expression.boolExpression castItem)) →
      (ParseBool E what script).result = none ∧
        (ParseBool E what script).errorScript = some script ∧
        (ParseBool E what script).error ≠ none) ∧
    (∀ item errorScript, E.ExpressionListParseAny script = (item, errorScript, none) →
      ((ParseBool E what script).error = none ↔
        ∃ castItem, item = some (Expression.boolExpression castItem))) ∧
    (∀ castItem errorScript,
      E.ExpressionListParseAny script =
        (some (Expression.boolExpression castItem), errorScript, none) →
      (ParseBool E what script).result = some (ParseBool E what script).receiver ∧
        (ParseBool E what script).receiver.expression = some castItem ∧
        (ParseBool E what script).errorScript = none ∧
        (ParseBool E what script).error = none) := by
  refine ⟨?_, ?_, ?_⟩
  · intro item errorScript hp hnb
    unfold ParseBool
    rw [hp]
    cases item with
    | none => simp
    | some x =>
      cases x with
      | nonBool lit => simp
      | boolExpression c => exact absurd rfl (hnb c)
  · intro item errorScript hp
    unfold ParseBool
    rw [hp]
    cases item with
    | none => simp
    | some x =>
      cases x with
      | nonBool lit => simp
      | boolExpression c => simp
  · intro castItem errorScript hp
    unfold ParseBool
    rw [hp]
    simp

open TrueExpression in
/-- C12 at the sample package: the string scalar "x" parses to a non-boolean
expression and is rejected; the boolean scalar `true` is accepted. -/
theorem C12_parse_bool_requires_bool_operand_witness :
    ((ParseBool sampleScriptPkg TrueExpression.zero (Script.str "x")).result = none ∧
      (ParseBool sampleScriptPkg TrueExpression.zero (Script.str "x")).errorScript =
        some (Script.str "x") ∧
      (ParseBool sampleScriptPkg TrueExpression.zero (Script.str "x")).error ≠ none) ∧
    ((ParseBool sampleScriptPkg TrueExpression.zero (Script.bool true)).result =
        some (ParseBool sampleScriptPkg TrueExpression.zero (Script.bool true)).receiver ∧
      (ParseBool sampleScriptPkg TrueExpression.zero (Script.bool true)).receiver.expression =
        some (constBool true) ∧
      (ParseBool sampleScriptPkg TrueExpression.zero (Script.bool true)).errorScript = none ∧
      (ParseBool sampleScriptPkg TrueExpression.zero (Script.bool true)).error = none) :=
  ⟨(C12_parse_bool_requires_bool_operand sampleScriptPkg TrueExpression.zero
      (Script.str "x")).1 (some (Expression.nonBool "x")) none rfl
      (fun castItem h => by cases h),
    (C12_parse_bool_requires_bool_operand sampleScriptPkg TrueExpression.zero
      (Script.bool true)).2.2 (constBool true) none rfl⟩

open TrueExpression in
/-- C13: for every script `s` on which `ParseBool` succeeds, the `Literal()`
of the resulting node equals `common.ToLiteral(s)`, the literal of exactly
the tree handed to the parser, and it is still that after any evaluation of
the node. -/
theorem C13_literal_is_literal_of_parsed_script {Scope : Type} (E : ScriptPkg Scope)
    (what : TrueExpression Scope) (s : Script) (n : TrueExpression Scope)
    (hparse : (ParseBool E what s).result = some n) :
    n.Literal = E.ToLiteral s ∧ ∀ scope, (n.afterEval scope).Literal = E.ToLiteral s := by
  have hlit : n.Literal = E.ToLiteral s := by
    unfold ParseBool at hparse
    rcases hp : E.ExpressionListParseAny s with ⟨item, errorScript, itemError⟩
    rw [hp] at hparse
    cases itemError with
    | some err => simp at hparse
    | none =>
      cases item with
      | none => simp at hparse
      | some x =>
        cases x with
        | nonBool lit => simp at hparse
        | boolExpression c =>
          simp at hparse
          rw [← hparse]
          rfl
  exact ⟨hlit, fun _ => hlit⟩

open TrueExpression in
/-- C13 at the sample package, for the node parsed from the scalar `true`. -/
theorem C13_literal_is_literal_of_parsed_script_witness :
    (ParseBool sampleScriptPkg TrueExpression.zero (Script.bool true)).result =
        some (constNode true) ∧
      ((constNode true).Literal = sampleScriptPkg.ToLiteral (Script.bool true) ∧
        ∀ scope, ((constNode true).afterEval scope).Literal =
          sampleScriptPkg.ToLiteral (Script.bool true)) :=
  ⟨rfl, C13_literal_is_literal_of_parsed_script sampleScriptPkg TrueExpression.zero
    (Script.bool true) (constNode true) rfl⟩

/-- C15: for every model that holds no trust-boundary data (its
direct-containing-trust-boundary index is nil or empty),
`isAcrossTrustBoundaryNetworkOnly` is false for every communication link, and
`isSameExecutionEnvironment` and `isSameTrustBoundaryNetworkOnly` are true
for every technical asset and every other-asset id. -/
theorem C15_no_boundary_data_defaults (parsedModel : Model)
    (hempty : parsedModel.DirectContainingTrustBoundaryMappedByTechnicalAssetId = []) :
    (∀ link, isAcrossTrustBoundaryNetworkOnly parsedModel link = false) ∧
    (∀ ta otherAssetId, isSameExecutionEnvironment parsedModel ta otherAssetId = true) ∧
    (∀ ta otherAssetId, isSameTrustBoundaryNetworkOnly parsedModel ta otherAssetId = true) := by
  have hnone : ∀ id, parsedModel.directBoundary id = none := by
    intro id
    unfold Model.directBoundary
    rw [hempty]
    rfl
  refine ⟨?_, ?_, ?_⟩
  · intro link
    simp [isAcrossTrustBoundaryNetworkOnly, hnone]
  · intro ta otherAssetId
    simp [isSameExecutionEnvironment, hnone]
  · intro ta otherAssetId
    simp [isSameTrustBoundaryNetworkOnly, Model.networkBoundary, hnone]

/-- C15 at the model without any data. -/
theorem C15_no_boundary_data_defaults_witness :
    ({ TechnicalAssets := [] } : Model).DirectContainingTrustBoundaryMappedByTechnicalAssetId
        = [] ∧
    ((∀ link, isAcrossTrustBoundaryNetworkOnly { TechnicalAssets := [] } link = false) ∧
      (∀ ta otherAssetId,
        isSameExecutionEnvironment { TechnicalAssets := [] } ta otherAssetId = true) ∧
      (∀ ta otherAssetId,
        isSameTrustBoundaryNetworkOnly { TechnicalAssets := [] } ta otherAssetId = true)) :=
  ⟨rfl, C15_no_boundary_data_defaults { TechnicalAssets := [] } rfl⟩

/-- C17: for every model and communication link, if the source id or the
target id of the link has no entry in the direct-containing-trust-boundary
index, `isAcrossTrustBoundaryNetworkOnly` is false. -/
theorem C17_across_false_without_entry (parsedModel : Model) (link : CommunicationLink)
    (hmissing : parsedModel.directBoundary link.SourceId = none ∨
      parsedModel.directBoundary link.TargetId = none) :
    isAcrossTrustBoundaryNetworkOnly parsedModel link = false := by
  unfold isAcrossTrustBoundaryNetworkOnly
  rcases hmissing with h | h
  · rw [h]
  · rw [h]
    cases parsedModel.directBoundary link.SourceId <;> rfl

/-- C17 at the sample boundary model, for a link to "mail", which has no
boundary. -/
theorem C17_across_false_without_entry_witness :
    (sampleBoundaryModel.directBoundary "web" = none ∨
      sampleBoundaryModel.directBoundary "mail" = none) ∧
    isAcrossTrustBoundaryNetworkOnly sampleBoundaryModel
      { SourceId := "web", TargetId := "mail" } = false :=
  ⟨Or.inr (by decide),
    C17_across_false_without_entry sampleBoundaryModel { SourceId := "web", TargetId := "mail" }
      (Or.inr (by decide))⟩

/-- C18: for every model and communication link, if the direct trust boundary
of the source asset or of the target asset is of the kind
`ExecutionEnvironment`, `isAcrossTrustBoundaryNetworkOnly` is false, whatever
boundaries the model nests that execution environment in. -/
theorem C18_across_false_for_execution_environment (parsedModel : Model)
    (link : CommunicationLink)
    (hexec : (∃ b, parsedModel.directBoundary link.SourceId = some b ∧
        b.BoundaryType = TrustBoundaryType.ExecutionEnvironment) ∨
      (∃ b, parsedModel.directBoundary link.TargetId = some b ∧
        b.BoundaryType = TrustBoundaryType.ExecutionEnvironment)) :
    isAcrossTrustBoundaryNetworkOnly parsedModel link = false := by
  unfold isAcrossTrustBoundaryNetworkOnly
  rcases hexec with ⟨b, hb, hk⟩ | ⟨b, hb, hk⟩
  · rw [hb]
    cases parsedModel.directBoundary link.TargetId with
    | none => rfl
    | some t => simp [TrustBoundaryType.IsNetworkBoundary, hk]
  · rw [hb]
    cases parsedModel.directBoundary link.SourceId with
    | none => rfl
    | some s => simp [TrustBoundaryType.IsNetworkBoundary, hk]

/-- C18 at the sample boundary model: "job" sits in the execution environment
"vm", which the network boundary "lan" nests, and the link from "job" to
"web" is not across. -/
theorem C18_across_false_for_execution_environment_witness :
    ((∃ b, sampleBoundaryModel.directBoundary "job" = some b ∧
        b.BoundaryType = TrustBoundaryType.ExecutionEnvironment) ∨
      (∃ b, sampleBoundaryModel.directBoundary "web" = some b ∧
        b.BoundaryType = TrustBoundaryType.ExecutionEnvironment)) ∧
    isAcrossTrustBoundaryNetworkOnly sampleBoundaryModel
      { SourceId := "job", TargetId := "web" } = false :=
  ⟨Or.inl ⟨sampleVm, by decide, rfl⟩,
    C18_across_false_for_execution_environment sampleBoundaryModel
      { SourceId := "job", TargetId := "web" } (Or.inl ⟨sampleVm, by decide, rfl⟩)⟩

/-- C19: for every model and communication link whose source and target both
have a recorded direct trust boundary of a network kind,
`isAcrossTrustBoundaryNetworkOnly` is true if and only if the two boundaries
have different ids. -/
theorem C19_across_iff_different_network_boundaries (parsedModel : Model)
    (link : CommunicationLink) (s t : TrustBoundary)
    (hs : parsedModel.directBoundary link.SourceId = some s)
    (ht : parsedModel.directBoundary link.TargetId = some t)
    (hsn : s.BoundaryType.IsNetworkBoundary = true)
    (htn : t.BoundaryType.IsNetworkBoundary = true) :
    isAcrossTrustBoundaryNetworkOnly parsedModel link = true ↔ s.Id ≠ t.Id := by
  unfold isAcrossTrustBoundaryNetworkOnly
  rw [hs, ht]
  simp [hsn, htn]

/-- C19 at the sample boundary model, for the link from "web" (in "dmz") to
"db" (in "lan"). -/
theorem C19_across_iff_different_network_boundaries_witness :
    (sampleBoundaryModel.directBoundary "web" = some sampleDmz ∧
      sampleBoundaryModel.directBoundary "db" = some sampleLan ∧
      sampleDmz.BoundaryType.IsNetworkBoundary = true ∧
      sampleLan.BoundaryType.IsNetworkBoundary = true) ∧
    (isAcrossTrustBoundaryNetworkOnly sampleBoundaryModel
      { SourceId := "web", TargetId := "db" } = true ↔ sampleDmz.Id ≠ sampleLan.Id) :=
  ⟨⟨by decide, by decide, by decide, by decide⟩,
    C19_across_iff_different_network_boundaries sampleBoundaryModel
      { SourceId := "web", TargetId := "db" } sampleDmz sampleLan
      (by decide) (by decide) (by decide) (by decide)⟩

/-- C20: for every model, asset `a` and other-asset id `b`,
`isSameExecutionEnvironment` is true if and only if either neither `a.Id` nor
`b` has an entry in the direct-containing-trust-boundary index, or both have
an entry, both boundaries are of kind `ExecutionEnvironment` and the two
boundaries have the same id; so it is false when exactly one has an entry and
false when either boundary is of a network kind. -/
theorem C20_same_execution_environment_iff (parsedModel : Model) (a : TechnicalAsset)
    (b : String) :
    (isSameExecutionEnvironment parsedModel a b = true ↔
      (parsedModel.directBoundary a.Id = none ∧ parsedModel.directBoundary b = none) ∨
      (∃ x y, parsedModel.directBoundary a.Id = some x ∧ parsedModel.directBoundary b = some y ∧
        x.BoundaryType = TrustBoundaryType.ExecutionEnvironment ∧
        y.BoundaryType = TrustBoundaryType.ExecutionEnvironment ∧ x.Id = y.Id)) ∧
    ((parsedModel.directBoundary a.Id = none ↔ parsedModel.directBoundary b ≠ none) →
      isSameExecutionEnvironment parsedModel a b = false) ∧
    (∀ x y, parsedModel.directBoundary a.Id = some x → parsedModel.directBoundary b = some y →
      (x.BoundaryType.IsNetworkBoundary = true ∨ y.BoundaryType.IsNetworkBoundary = true) →
      isSameExecutionEnvironment parsedModel a b = false) := by
  unfold isSameExecutionEnvironment
  refine ⟨?_, ?_, ?_⟩
  · cases h1 : parsedModel.directBoundary a.Id <;> cases h2 : parsedModel.directBoundary b <;>
      simp [and_assoc]
  · cases h1 : parsedModel.directBoundary a.Id <;> cases h2 : parsedModel.directBoundary b <;>
      simp
  · intro x y hx hy hk
    rw [hx, hy]
    rcases hk with hk | hk
    · have : x.BoundaryType ≠ TrustBoundaryType.ExecutionEnvironment := by
        simpa [TrustBoundaryType.IsNetworkBoundary] using hk
      simp [this]
    · have : y.BoundaryType ≠ TrustBoundaryType.ExecutionEnvironment := by
        simpa [TrustBoundaryType.IsNetworkBoundary] using hk
      simp [this]

/-- C20 at the sample boundary model: "job" and "cron" share the execution
environment "vm"; "job" and "mail" do not (one entry only); "job" and "db" do
not (a network boundary). -/
theorem C20_same_execution_environment_iff_witness :
    isSameExecutionEnvironment sampleBoundaryModel (sampleAsset "job") "cron" = true ∧
    isSameExecutionEnvironment sampleBoundaryModel (sampleAsset "job") "mail" = false ∧
    isSameExecutionEnvironment sampleBoundaryModel (sampleAsset "job") "db" = false :=
  ⟨(C20_same_execution_environment_iff sampleBoundaryModel (sampleAsset "job") "cron").1.2
      (Or.inr ⟨sampleVm, sampleVm, by decide, by decide, rfl, rfl, rfl⟩),
    (C20_same_execution_environment_iff sampleBoundaryModel (sampleAsset "job") "mail").2.1
      (by decide),
    (C20_same_execution_environment_iff sampleBoundaryModel (sampleAsset "job") "db").2.2
      sampleVm sampleLan (by decide) (by decide) (Or.inr (by decide))⟩

/-- C21: `isSameTrustBoundaryNetworkOnly` is reflexive: for every model and
every technical asset `a`, the predicate is true for `a` and `a.Id`, whether
`a` has no boundary, a network boundary, or an execution environment with or
without an enclosing boundary. -/
theorem C21_same_trust_boundary_reflexive (parsedModel : Model) (a : TechnicalAsset) :
    isSameTrustBoundaryNetworkOnly parsedModel a a.Id = true := by
  unfold isSameTrustBoundaryNetworkOnly
  cases parsedModel.networkBoundary a.Id <;> simp

/-- C22 (counterexample): in the model of the test
`...TrustBoundariesAreDifferentButParentIsSameReturnFalse` the two assets sit
in two different boundaries of a network kind, one parent boundary nests
both, and `isSameTrustBoundaryNetworkOnly` is false, as the test asserts. -/
theorem C22_sibling_network_boundaries_counterexample :
    siblingNetworkModel.directBoundary "asset" =
        some { Id := "trust-boundary", BoundaryType := TrustBoundaryType.NetworkCloudProvider } ∧
      siblingNetworkModel.directBoundary "other-asset" =
        some { Id := "other-trust-boundary",
               BoundaryType := TrustBoundaryType.NetworkCloudProvider } ∧
      TrustBoundaryType.NetworkCloudProvider.IsNetworkBoundary = true ∧
      (∃ parent ∈ siblingNetworkModel.TrustBoundaries,
        contains parent.2.TrustBoundariesNested "trust-boundary" = true ∧
        contains parent.2.TrustBoundariesNested "other-trust-boundary" = true) ∧
      isSameTrustBoundaryNetworkOnly siblingNetworkModel (sampleAsset "asset") "other-asset" =
        false := by
  refine ⟨by decide, by decide, by decide, ?_, by decide⟩
  exact ⟨("parent-trust-boundary",
    { Id := "parent-trust-boundary"
      TrustBoundariesNested := ["trust-boundary", "other-trust-boundary"] }),
    by decide, by decide, by decide⟩

/-- C22 (amended): for every model in which two assets sit in two different
boundaries of a network kind that are both listed in the
`TrustBoundariesNested` of one common parent boundary,
`isSameTrustBoundaryNetworkOnly` reports false for the two assets: the common
parent does not make two differing network boundaries the same. -/
theorem C22_sibling_network_boundaries_differ (parsedModel : Model) (a : TechnicalAsset)
    (b : String) (x y : TrustBoundary) (parent : String × TrustBoundary)
    (hx : parsedModel.directBoundary a.Id = some x) (hy : parsedModel.directBoundary b = some y)
    (hxn : x.BoundaryType.IsNetworkBoundary = true)
    (hyn : y.BoundaryType.IsNetworkBoundary = true) (hne : x.Id ≠ y.Id)
    (_hparent : parent ∈ parsedModel.TrustBoundaries)
    (_hnx : contains parent.2.TrustBoundariesNested x.Id = true)
    (_hny : contains parent.2.TrustBoundariesNested y.Id = true) :
    isSameTrustBoundaryNetworkOnly parsedModel a b = false :=
  isSameTrustBoundaryNetworkOnly_network_differ parsedModel a b x y hx hy hxn hyn hne

/-- C22 (amended) at the model of the test. -/
theorem C22_sibling_network_boundaries_differ_witness :
    (siblingNetworkModel.directBoundary (sampleAsset "asset").Id =
        some { Id := "trust-boundary", BoundaryType := TrustBoundaryType.NetworkCloudProvider } ∧
      siblingNetworkModel.directBoundary "other-asset" =
        some { Id := "other-trust-boundary",
               BoundaryType := TrustBoundaryType.NetworkCloudProvider } ∧
      (("parent-trust-boundary",
        ({ Id := "parent-trust-boundary"
           TrustBoundariesNested := ["trust-boundary", "other-trust-boundary"] } :
          TrustBoundary)) ∈ siblingNetworkModel.TrustBoundaries)) ∧
    isSameTrustBoundaryNetworkOnly siblingNetworkModel (sampleAsset "asset") "other-asset" =
      false :=
  ⟨⟨by decide, by decide, by decide⟩,
    C22_sibling_network_boundaries_differ siblingNetworkModel (sampleAsset "asset")
      "other-asset"
      { Id := "trust-boundary", BoundaryType := TrustBoundaryType.NetworkCloudProvider }
      { Id := "other-trust-boundary", BoundaryType := TrustBoundaryType.NetworkCloudProvider }
      ("parent-trust-boundary",
        { Id := "parent-trust-boundary"
          TrustBoundariesNested := ["trust-boundary", "other-trust-boundary"] })
      (by decide) (by decide) (by decide) (by decide) (by decide) (by decide) (by decide)
      (by decide)⟩

/-- C23: for every model, asset `a` and other-asset id `b` such that both
`a.Id` and `b` have a recorded direct trust boundary of a network kind and
the two boundaries have different ids, `isSameTrustBoundaryNetworkOnly` is
false, whatever the boundaries of the model nest (under one parent or not). -/
theorem C23_different_network_boundaries_not_same (parsedModel : Model) (a : TechnicalAsset)
    (b : String) (x y : TrustBoundary)
    (hx : parsedModel.directBoundary a.Id = some x) (hy : parsedModel.directBoundary b = some y)
    (hxn : x.BoundaryType.IsNetworkBoundary = true)
    (hyn : y.BoundaryType.IsNetworkBoundary = true) (hne : x.Id ≠ y.Id) :
    isSameTrustBoundaryNetworkOnly parsedModel a b = false :=
  isSameTrustBoundaryNetworkOnly_network_differ parsedModel a b x y hx hy hxn hyn hne

/-- C23 at the sample boundary model, for "web" (in "dmz") and "db" (in
"lan"). -/
theorem C23_different_network_boundaries_not_same_witness :
    (sampleBoundaryModel.directBoundary (sampleAsset "web").Id = some sampleDmz ∧
      sampleBoundaryModel.directBoundary "db" = some sampleLan ∧
      sampleDmz.BoundaryType.IsNetworkBoundary = true ∧
      sampleLan.BoundaryType.IsNetworkBoundary = true ∧ sampleDmz.Id ≠ sampleLan.Id) ∧
    isSameTrustBoundaryNetworkOnly sampleBoundaryModel (sampleAsset "web") "db" = false :=
  ⟨⟨by decide, by decide, by decide, by decide, by decide⟩,
    C23_different_network_boundaries_not_same sampleBoundaryModel (sampleAsset "web") "db"
      sampleDmz sampleLan (by decide) (by decide) (by decide) (by decide) (by decide)⟩

/-- C25 (counterexample): in the model of the test
`...DifferentNotNetworkBoundaryReturnFalse` the direct boundary of "asset" is
an execution environment, the one of "other-asset" a different boundary of a
network kind, and `isSameTrustBoundaryNetworkOnly` is false, as the test
asserts. -/
theorem C25_environment_against_network_counterexample :
    (∃ x, environmentAgainstNetworkModel.directBoundary (sampleAsset "asset").Id = some x ∧
        x.BoundaryType = TrustBoundaryType.ExecutionEnvironment ∧
        x.BoundaryType.IsNetworkBoundary = false) ∧
      isSameTrustBoundaryNetworkOnly environmentAgainstNetworkModel (sampleAsset "asset")
        "other-asset" = false := by
  refine ⟨⟨{ Id := "trust-boundary", BoundaryType := TrustBoundaryType.ExecutionEnvironment
             TechnicalAssetsInside := ["asset"] }, by decide, rfl, by decide⟩, by decide⟩

/-- C25 (amended): for every model, asset `a` and other-asset id `b`, if the
direct trust boundary `x` of one side is not of a network kind,
`isSameTrustBoundaryNetworkOnly` compares the parent of `x` with the boundary
of the other side: it is true if and only if both resolve to no boundary or
both resolve to boundaries with the same id.  So it is true when both sides
sit in the same boundary, and false when `x` has no parent and the other side
sits in a boundary of a network kind. -/
theorem C25_environment_compared_through_parent (parsedModel : Model) (a : TechnicalAsset)
    (b : String) (x : TrustBoundary) (hn : x.BoundaryType.IsNetworkBoundary = false) :
    (parsedModel.directBoundary a.Id = some x →
      (isSameTrustBoundaryNetworkOnly parsedModel a b = true ↔
        (parsedModel.parentTrustBoundary x = none ∧ parsedModel.networkBoundary b = none) ∨
        (∃ p q, parsedModel.parentTrustBoundary x = some p ∧
          parsedModel.networkBoundary b = some q ∧ p.Id = q.Id))) ∧
    (parsedModel.directBoundary b = some x →
      (isSameTrustBoundaryNetworkOnly parsedModel a b = true ↔
        (parsedModel.networkBoundary a.Id = none ∧ parsedModel.parentTrustBoundary x = none) ∨
        (∃ p q, parsedModel.networkBoundary a.Id = some p ∧
          parsedModel.parentTrustBoundary x = some q ∧ p.Id = q.Id))) ∧
    (parsedModel.directBoundary a.Id = some x → parsedModel.directBoundary b = some x →
      isSameTrustBoundaryNetworkOnly parsedModel a b = true) ∧
    (parsedModel.directBoundary a.Id = some x → parsedModel.parentTrustBoundary x = none →
      ∀ y, parsedModel.directBoundary b = some y → y.BoundaryType.IsNetworkBoundary = true →
        isSameTrustBoundaryNetworkOnly parsedModel a b = false) := by
  refine ⟨?_, ?_, ?_, ?_⟩
  · intro hx
    unfold isSameTrustBoundaryNetworkOnly
    rw [parsedModel.networkBoundary_of_not_network a.Id x hx hn]
    cases parsedModel.parentTrustBoundary x <;> cases parsedModel.networkBoundary b <;> simp
  · intro hx
    unfold isSameTrustBoundaryNetworkOnly
    rw [parsedModel.networkBoundary_of_not_network b x hx hn]
    cases parsedModel.networkBoundary a.Id <;> cases parsedModel.parentTrustBoundary x <;> simp
  · intro hx hy
    unfold isSameTrustBoundaryNetworkOnly
    rw [parsedModel.networkBoundary_of_not_network a.Id x hx hn,
      parsedModel.networkBoundary_of_not_network b x hy hn]
    cases parsedModel.parentTrustBoundary x <;> simp
  · intro hx hp y hy hyn
    unfold isSameTrustBoundaryNetworkOnly
    rw [parsedModel.networkBoundary_of_not_network a.Id x hx hn, hp,
      parsedModel.networkBoundary_of_network b y hy hyn]

/-- C25 (amended) at the model whose two assets share one execution
environment that no boundary nests: the predicate is true. -/
theorem C25_environment_compared_through_parent_witness :
    (sampleVm.BoundaryType.IsNetworkBoundary = false ∧
      unnestedEnvironmentModel.directBoundary (sampleAsset "asset").Id = some sampleVm ∧
      unnestedEnvironmentModel.directBoundary "other-asset" = some sampleVm) ∧
    isSameTrustBoundaryNetworkOnly unnestedEnvironmentModel (sampleAsset "asset")
      "other-asset" = true :=
  ⟨⟨by decide, by decide, by decide⟩,
    (C25_environment_compared_through_parent unnestedEnvironmentModel (sampleAsset "asset")
      "other-asset" sampleVm (by decide)).2.2.1 (by decide) (by decide)⟩

/-- C26: for every list of strings `xs` and every string `x`, `contains xs x`
is true if and only if `x` is an element of `xs`; so `contains` of the empty
list is false for every `x`. -/
theorem C26_contains_iff_mem (xs : List String) (x : String) :
    (contains xs x = true ↔ x ∈ xs) ∧ contains [] x = false := by
  refine ⟨?_, rfl⟩
  induction xs with
  | nil => simp [contains]
  | cons y ys ih =>
    unfold contains
    by_cases h : y = x
    · simp [h]
    · have h2 : ¬ x = y := fun hxy => h hxy.symm
      simp [h, h2, ih]

open MissingBuildInfrastructureRule in
/-- C27 (the code at the failing input): the model has the custom-developed
in-scope asset "app", no in-scope asset carries any of the three tags, and
the out-of-scope asset "ci" carries all three; `GenerateRisks` returns no
risk, for every package of `pkg/types` functions. -/
theorem C27_out_of_scope_infrastructure_suppresses_risk (T : TypesPkg) :
    GenerateRisks T outOfScopeInfrastructureModel = some ([], none) ∧
      (outOfScopeInfrastructureModel.IsTechnicalAsset sampleApp ∧ sampleApp.CustomInScope) ∧
      (∀ a, outOfScopeInfrastructureModel.IsTechnicalAsset a → a.OutOfScope = false →
        a.Technologies.GetAttribute TechnologyAttribute.BuildPipeline = false ∧
        a.Technologies.GetAttribute TechnologyAttribute.SourcecodeRepository = false ∧
        a.Technologies.GetAttribute TechnologyAttribute.DevOpsClient = false) ∧
      (outOfScopeInfrastructureModel.IsTechnicalAsset outOfScopeBuildServer ∧
        outOfScopeBuildServer.OutOfScope = true) := by
  have hci : outOfScopeInfrastructureModel.IsTechnicalAsset outOfScopeBuildServer :=
    ⟨"ci", by decide⟩
  have happ : outOfScopeInfrastructureModel.IsTechnicalAsset sampleApp := ⟨"app", by decide⟩
  refine ⟨?_, ⟨happ, ⟨rfl, rfl⟩⟩, ?_, ⟨hci, rfl⟩⟩
  · obtain ⟨st, _, hcases⟩ := GenerateRisks_result T outOfScopeInfrastructureModel
    rcases hcases with ⟨hc, _⟩ | ⟨_, hres⟩
    · exact absurd ⟨⟨outOfScopeBuildServer, hci, by decide⟩,
        ⟨outOfScopeBuildServer, hci, by decide⟩, ⟨outOfScopeBuildServer, hci, by decide⟩⟩ hc.2
    · exact hres
  · intro a ha hscope
    have hmem := modelOf_isTechnicalAsset _ a ha
    simp only [List.mem_cons, List.mem_singleton, List.not_mem_nil, or_false] at hmem
    rcases hmem with h | h
    · rw [h]
      exact ⟨by decide, by decide, by decide⟩
    · rw [h] at hscope
      exact absurd hscope (by decide)

open TrueExpression in
/-- C28: for every script on which the operand parser
`ExpressionList.ParseAny` fails with error `e` and error tree `t`,
`ParseBool`, and `ParseAny` which delegates to it, return a nil expression,
return `t` unchanged as the offending tree, and return an error that wraps
`e` and whose message is "failed to parse true-expression: " followed by the
message of `e`. -/
theorem C28_parse_bool_wraps_operand_error {Scope : Type} (E : ScriptPkg Scope)
    (what : TrueExpression Scope) (script : Script) (item : Option (Expression Scope))
    (t : Option Script) (e : GoError)
    (hfail : E.ExpressionListParseAny script = (item, t, some e)) :
    ((ParseBool E what script).result = none ∧
      (ParseBool E what script).errorScript = t ∧
      ∃ err, (ParseBool E what script).error = some err ∧ err.Unwrap = some e ∧
        err.Error = "failed to parse true-expression: " ++ e.Error) ∧
    ((ParseAny E what script).result = none ∧
      (ParseAny E what script).errorScript = t ∧
      ∃ err, (ParseAny E what script).error = some err ∧ err.Unwrap = some e ∧
        err.Error = "failed to parse true-expression: " ++ e.Error) := by
  have h : (ParseBool E what script).result = none ∧
      (ParseBool E what script).errorScript = t ∧
      ∃ err, (ParseBool E what script).error = some err ∧ err.Unwrap = some e ∧
        err.Error = "failed to parse true-expression: " ++ e.Error := by
    unfold ParseBool
    rw [hfail]
    exact ⟨rfl, rfl, _, rfl, rfl, rfl⟩
  exact ⟨h, h⟩

open TrueExpression in
/-- C28 at the sample package: the null scalar is rejected by the operand
parser, which returns it as the error tree. -/
theorem C28_parse_bool_wraps_operand_error_witness :
    sampleScriptPkg.ExpressionListParseAny Script.null =
        (none, some Script.null, some (GoError.new "unknown expression")) ∧
    (((ParseBool sampleScriptPkg TrueExpression.zero Script.null).result = none ∧
      (ParseBool sampleScriptPkg TrueExpression.zero Script.null).errorScript =
        some Script.null ∧
      ∃ err, (ParseBool sampleScriptPkg TrueExpression.zero Script.null).error = some err ∧
        err.Unwrap = some (GoError.new "unknown expression") ∧
        err.Error = "failed to parse true-expression: " ++
          (GoError.new "unknown expression").Error) ∧
    ((ParseAny sampleScriptPkg TrueExpression.zero Script.null).result = none ∧
      (ParseAny sampleScriptPkg TrueExpression.zero Script.null).errorScript =
        some Script.null ∧
      ∃ err, (ParseAny sampleScriptPkg TrueExpression.zero Script.null).error = some err ∧
        err.Unwrap = some (GoError.new "unknown expression") ∧
        err.Error = "failed to parse true-expression: " ++
          (GoError.new "unknown expression").Error)) :=
  ⟨rfl, C28_parse_bool_wraps_operand_error sampleScriptPkg TrueExpression.zero Script.null
    none (some Script.null) (GoError.new "unknown expression") rfl⟩

/-- C29: in `DoIt` the DPI that both diagrams are rendered with is the
configured `DiagramDPI` clamped into the range from `MinGraphvizDPI` to
`MaxGraphvizDPI`: the configured value when it lies in the range,
`MinGraphvizDPI` when it is below, and, given `MinGraphvizDPI <=
MaxGraphvizDPI`, `MaxGraphvizDPI` when it is above; so it then lies in the
range and never exceeds the maximum. -/
theorem C29_diagram_dpi_clamped (limits : GraphvizLimits) (context : Context) :
    (∀ dpi, (Artifact.DataFlowDiagram dpi ∈ (Context.DoIt limits context).2 ∨
        Artifact.DataAssetDiagram dpi ∈ (Context.DoIt limits context).2) →
      dpi = Context.diagramDPI limits context) ∧
    (limits.MinGraphvizDPI ≤ context.Config.DiagramDPI →
      context.Config.DiagramDPI ≤ limits.MaxGraphvizDPI →
      Context.diagramDPI limits context = context.Config.DiagramDPI) ∧
    (context.Config.DiagramDPI < limits.MinGraphvizDPI →
      Context.diagramDPI limits context = limits.MinGraphvizDPI) ∧
    (limits.MinGraphvizDPI ≤ limits.MaxGraphvizDPI →
      (limits.MaxGraphvizDPI < context.Config.DiagramDPI →
        Context.diagramDPI limits context = limits.MaxGraphvizDPI) ∧
      limits.MinGraphvizDPI ≤ Context.diagramDPI limits context ∧
      Context.diagramDPI limits context ≤ limits.MaxGraphvizDPI) := by
  refine ⟨?_, ?_, ?_, ?_⟩
  · intro dpi h
    have hd : Context.diagramDPI limits
        { context with GenerateCommands := Context.forceDiagrams context.GenerateCommands } =
        Context.diagramDPI limits context := rfl
    simp only [Context.DoIt, hd, Context.artifacts, List.mem_append] at h
    rcases h with h | h
    · rcases h with ((((((h | h) | h) | h) | h) | h) | h) | h <;>
        split at h <;> simp at h
      exact h
    · rcases h with ((((((h | h) | h) | h) | h) | h) | h) | h <;>
        split at h <;> simp at h
      exact h
  · intro h1 h2
    unfold Context.diagramDPI
    simp only
    rw [if_neg (not_lt.2 h1), if_neg (not_lt.2 h2)]
  · intro h
    unfold Context.diagramDPI
    simp only
    rw [if_pos h]
  · intro hle
    unfold Context.diagramDPI
    simp only
    refine ⟨?_, ?_, ?_⟩
    · intro h
      rw [if_neg (not_lt.2 (le_trans hle (le_of_lt h))), if_pos h]
    · split
      · exact le_refl _
      · split
        · exact hle
        · omega
    · split
      · exact hle
      · split
        · exact le_refl _
        · omega

/-- C29 at the sample limits, for a configured DPI of 1000: both diagrams are
rendered with 300. -/
theorem C29_diagram_dpi_clamped_witness :
    (sampleLimits.MinGraphvizDPI ≤ sampleLimits.MaxGraphvizDPI ∧
      sampleLimits.MaxGraphvizDPI < reportOnlyContext.Config.DiagramDPI ∧
      Artifact.DataFlowDiagram 300 ∈ (Context.DoIt sampleLimits reportOnlyContext).2) ∧
    (Context.diagramDPI sampleLimits reportOnlyContext = sampleLimits.MaxGraphvizDPI ∧
      (300 : Int) = Context.diagramDPI sampleLimits reportOnlyContext) :=
  ⟨⟨by decide, by decide, by decide⟩,
    ((C29_diagram_dpi_clamped sampleLimits reportOnlyContext).2.2.2 (by decide)).1 (by decide),
    (C29_diagram_dpi_clamped sampleLimits reportOnlyContext).1 300 (Or.inl (by decide))⟩

/-- C30: in `DoIt`, whenever the `ReportPDF` command is enabled the
`DataFlowDiagram` and `DataAssetDiagram` commands are both on when the
artifacts are generated, whatever their configured values, so both diagrams
are generated, first; the other generate flags are left unchanged; when
`ReportPDF` is disabled no flag is changed. -/
theorem C30_report_forces_diagrams (limits : GraphvizLimits) (context : Context) :
    (context.GenerateCommands.ReportPDF = true →
      (Context.DoIt limits context).1.GenerateCommands.DataFlowDiagram = true ∧
      (Context.DoIt limits context).1.GenerateCommands.DataAssetDiagram = true ∧
      (∃ rest, (Context.DoIt limits context).2 =
        Artifact.DataFlowDiagram (Context.diagramDPI limits context) ::
          Artifact.DataAssetDiagram (Context.diagramDPI limits context) :: rest)) ∧
    ((Context.DoIt limits context).1.GenerateCommands.RisksJSON =
        context.GenerateCommands.RisksJSON ∧
      (Context.DoIt limits context).1.GenerateCommands.TechnicalAssetsJSON =
        context.GenerateCommands.TechnicalAssetsJSON ∧
      (Context.DoIt limits context).1.GenerateCommands.StatsJSON =
        context.GenerateCommands.StatsJSON ∧
      (Context.DoIt limits context).1.GenerateCommands.RisksExcel =
        context.GenerateCommands.RisksExcel ∧
      (Context.DoIt limits context).1.GenerateCommands.TagsExcel =
        context.GenerateCommands.TagsExcel ∧
      (Context.DoIt limits context).1.GenerateCommands.ReportPDF =
        context.GenerateCommands.ReportPDF) ∧
    (context.GenerateCommands.ReportPDF = false →
      (Context.DoIt limits context).1 = context ∧
      (Context.DoIt limits context).2 =
        Context.artifacts context.GenerateCommands (Context.diagramDPI limits context)) := by
  have hd : Context.diagramDPI limits
      { context with GenerateCommands := Context.forceDiagrams context.GenerateCommands } =
      Context.diagramDPI limits context := rfl
  refine ⟨?_, ?_, ?_⟩
  · intro h
    have hf : Context.forceDiagrams context.GenerateCommands =
        { context.GenerateCommands with DataFlowDiagram := true, DataAssetDiagram := true } := by
      simp [Context.forceDiagrams, h]
    refine ⟨?_, ?_, ?_⟩
    · show (Context.forceDiagrams context.GenerateCommands).DataFlowDiagram = true
      rw [hf]
    · show (Context.forceDiagrams context.GenerateCommands).DataAssetDiagram = true
      rw [hf]
    · show ∃ rest, Context.artifacts (Context.forceDiagrams context.GenerateCommands)
          (Context.diagramDPI limits context) = _ :: _ :: rest
      rw [hf]
      exact ⟨_, rfl⟩
  · cases h : context.GenerateCommands.ReportPDF <;>
      simp [Context.DoIt, Context.forceDiagrams, h]
  · intro h
    simp [Context.DoIt, hd, Context.forceDiagrams, h]

/-- C30 at the context that asks for the PDF report only: both diagram flags
are switched on and both diagrams are generated first. -/
theorem C30_report_forces_diagrams_witness :
    reportOnlyContext.GenerateCommands.ReportPDF = true ∧
    ((Context.DoIt sampleLimits reportOnlyContext).1.GenerateCommands.DataFlowDiagram = true ∧
      (Context.DoIt sampleLimits reportOnlyContext).1.GenerateCommands.DataAssetDiagram = true ∧
      (∃ rest, (Context.DoIt sampleLimits reportOnlyContext).2 =
        Artifact.DataFlowDiagram (Context.diagramDPI sampleLimits reportOnlyContext) ::
          Artifact.DataAssetDiagram (Context.diagramDPI sampleLimits reportOnlyContext) ::
            rest)) :=
  ⟨rfl, (C30_report_forces_diagrams sampleLimits reportOnlyContext).1 rfl⟩

open MissingBuildInfrastructureRule in
/-- C31: in `GenerateRisks` the nil pointer `mostRelevantAsset` is never
dereferenced.  For every model and every prefix of the sorted id list the
loop runs through the prefix without a nil dereference, and as soon as the
prefix holds an asset that is not skipped `mostRelevantAsset` is a non-nil
asset (it is assigned before the comparison on the first such asset and stays
non-nil); the whole call ends without a nil dereference, and
`mostRelevantAsset` is non-nil whenever `createRisk` is called. -/
theorem C31_most_relevant_asset_never_nil (T : TypesPkg) (input : Model) :
    (∀ pre suf, input.SortedTechnicalAssetIDs = pre ++ suf →
      ∃ st, runLoop T input Locals.init pre = some st ∧
        ((∃ id ∈ pre, ∃ a, input.technicalAsset id = some a ∧ skipAsset a = false) →
          ∃ x, st.mostRelevantAsset = some x)) ∧
    (∃ st result, runLoop T input Locals.init input.SortedTechnicalAssetIDs = some st ∧
      GenerateRisks T input = some result ∧
      ((st.hasCustomDevelopedParts &&
          !(st.hasBuildPipeline && st.hasSourcecodeRepo && st.hasDevOpsClient)) = true →
        ∃ x, st.mostRelevantAsset = some x ∧
          result = ([createRisk T x st.impact], none))) := by
  constructor
  · intro pre suf hsplit
    have hres : ∀ id ∈ pre, ∃ a, input.technicalAsset id = some a := by
      intro id hid
      apply input.technicalAsset_of_mem_sortedIDs
      rw [hsplit]
      exact List.mem_append_left _ hid
    obtain ⟨st, hrun, hf⟩ := runLoop_facts T input pre Locals.init Inv_init hres
    refine ⟨st, hrun, ?_⟩
    intro hseen
    have hc : st.hasCustomDevelopedParts = true := hf.custom.2 (Or.inr hseen)
    exact Option.ne_none_iff_exists'.1 (hf.inv.ofCustom hc)
  · obtain ⟨st, hrun, hf⟩ := runLoop_facts T input input.SortedTechnicalAssetIDs Locals.init
      Inv_init (fun id hid => input.technicalAsset_of_mem_sortedIDs id hid)
    cases hcond : (st.hasCustomDevelopedParts &&
        !(st.hasBuildPipeline && st.hasSourcecodeRepo && st.hasDevOpsClient))
    · refine ⟨st, ([], none), hrun, ?_, ?_⟩
      · simp only [GenerateRisks, hrun, finish, hcond]
        simp
      · intro h
        rw [hcond] at h
        exact absurd h (by decide)
    · have hc : st.hasCustomDevelopedParts = true := by
        revert hcond
        cases st.hasCustomDevelopedParts <;> simp
      obtain ⟨x, hx⟩ := Option.ne_none_iff_exists'.1 (hf.inv.ofCustom hc)
      refine ⟨st, ([createRisk T x st.impact], none), hrun, ?_, ?_⟩
      · simp only [GenerateRisks, hrun, finish, hcond, hx]
        simp
      · intro _
        exact ⟨x, hx, rfl⟩

open MissingBuildInfrastructureRule in
/-- C31 at the sample build model: after the prefix holding "app" the
candidate is set. -/
theorem C31_most_relevant_asset_never_nil_witness :
    (sampleBuildModel.SortedTechnicalAssetIDs = ["app"] ++ ["ci"] ∧
      (∃ id ∈ ["app"], ∃ a, sampleBuildModel.technicalAsset id = some a ∧
        skipAsset a = false)) ∧
    ∃ st, runLoop sampleTypes sampleBuildModel Locals.init ["app"] = some st ∧
      ((∃ id ∈ ["app"], ∃ a, sampleBuildModel.technicalAsset id = some a ∧
          skipAsset a = false) →
        ∃ x, st.mostRelevantAsset = some x) :=
  ⟨⟨by decide, ⟨"app", List.mem_singleton.2 rfl, sampleApp, by decide, by decide⟩⟩,
    (C31_most_relevant_asset_never_nil sampleTypes sampleBuildModel).1 ["app"] ["ci"]
      (by decide)⟩

open MissingBuildInfrastructureRule in
/-- C32: in `GenerateRisks`, if no custom-developed, not-out-of-scope asset
triggers the escalation to `MediumImpact`, the emitted risk is anchored to
the last such asset in the order of the sorted ids, whatever the
`HighestSensitivityScore` values, and its impact is `LowImpact`. -/
theorem C32_anchor_is_last_asset_while_low (T : TypesPkg) (input : Model) (risks : List Risk)
    (err : Option GoError) (r : Risk)
    (hno : ∀ a, input.IsTechnicalAsset a → a.CustomInScope →
      input.processedCIAAtLevel T a = false ∧ a.ownCIAAtLevel = false)
    (hgen : GenerateRisks T input = some (risks, err)) (hr : r ∈ risks) :
    ∃ x, (customInScopeAssets input).getLast? = some x ∧
      r = createRisk T x RiskExploitationImpact.LowImpact ∧
      r.MostRelevantTechnicalAssetId = x.Id := by
  obtain ⟨st, hrun, hlow, hmra⟩ := runLoop_low T input input.SortedTechnicalAssetIDs
    Locals.init rfl (fun id hid => input.technicalAsset_of_mem_sortedIDs id hid)
    (fun id _ a ha hskip => hno a ⟨id, ha⟩ ((skipAsset_eq_false_iff a).1 hskip))
  obtain ⟨st1, hrun1, hcases⟩ := GenerateRisks_result T input
  have hst : st1 = st := by
    rw [hrun] at hrun1
    exact (Option.some.inj hrun1).symm
  subst hst
  rcases hcases with ⟨_, x, hx, hres⟩ | ⟨_, hres⟩
  · rw [hres] at hgen
    have hrisks : [createRisk T x st1.impact] = risks :=
      congrArg Prod.fst (Option.some.inj hgen)
    rw [← hrisks, List.mem_singleton] at hr
    refine ⟨x, ?_, ?_, ?_⟩
    · rw [hmra] at hx
      unfold lastOr at hx
      unfold customInScopeAssets
      cases hl : ((input.SortedTechnicalAssetIDs.filterMap input.technicalAsset).filter
          (fun a => !skipAsset a)).getLast? with
      | none =>
        rw [hl] at hx
        simp [Locals.init] at hx
      | some y =>
        rw [hl] at hx
        exact hx
    · rw [hr, hlow]
    · rw [hr]
      rfl
  · rw [hres] at hgen
    have hrisks : ([] : List Risk) = risks := congrArg Prod.fst (Option.some.inj hgen)
    rw [← hrisks] at hr
    simp at hr

open MissingBuildInfrastructureRule in
/-- C32 at the model of the two custom-developed assets "a" and "b" that do
not escalate: the risk is anchored to "b", the last one. -/
theorem C32_anchor_is_last_asset_while_low_witness :
    ((∀ a, twoCustomAssetsModel.IsTechnicalAsset a → a.CustomInScope →
        twoCustomAssetsModel.processedCIAAtLevel sampleTypes a = false ∧
          a.ownCIAAtLevel = false) ∧
      GenerateRisks sampleTypes twoCustomAssetsModel =
        some ([createRisk sampleTypes lowerRatedAsset RiskExploitationImpact.LowImpact], none)) ∧
    ∃ x, (customInScopeAssets twoCustomAssetsModel).getLast? = some x ∧
      createRisk sampleTypes lowerRatedAsset RiskExploitationImpact.LowImpact =
        createRisk sampleTypes x RiskExploitationImpact.LowImpact ∧
      (createRisk sampleTypes lowerRatedAsset
        RiskExploitationImpact.LowImpact).MostRelevantTechnicalAssetId = x.Id :=
  have hno : ∀ a, twoCustomAssetsModel.IsTechnicalAsset a → a.CustomInScope →
      twoCustomAssetsModel.processedCIAAtLevel sampleTypes a = false ∧
        a.ownCIAAtLevel = false := by
    intro a ha _
    have hmem := modelOf_isTechnicalAsset _ a ha
    simp only [List.mem_cons, List.mem_singleton, List.not_mem_nil, or_false] at hmem
    rcases hmem with h | h <;> rw [h] <;> exact ⟨by decide, by decide⟩
  ⟨⟨hno, by decide⟩,
    C32_anchor_is_last_asset_while_low sampleTypes twoCustomAssetsModel
      [createRisk sampleTypes lowerRatedAsset RiskExploitationImpact.LowImpact] none
      (createRisk sampleTypes lowerRatedAsset RiskExploitationImpact.LowImpact)
      hno (by decide) (List.mem_singleton.2 rfl)⟩

open MissingHardeningRule in
/-- C33: `MissingHardeningRule.GenerateRisks` is monotone in the RAA score.
In a model that binds every asset under its own id, if the rule returns a
risk for the asset `a`, then it returns one for it in every model that
differs only in the RAA of `a`, raised to a value `raa >= a.RAA`; and it
returns one for it in the model that differs only in that `a` is a
`Datastore`, and in the model that differs only in that `a` has the tag
`IsHighValueTarget`. -/
theorem C33_hardening_monotone_in_raa (T : TypesPkg) (rule : MissingHardeningRule)
    (input : Model) (id : String) (a : TechnicalAsset)
    (hkeys : ∀ id a, input.technicalAsset id = some a → a.Id = id)
    (ha : input.technicalAsset id = some a)
    (hflag : ∃ risks, GenerateRisks T rule input = some (risks, none) ∧
      ∃ r ∈ risks, r.MostRelevantTechnicalAssetId = a.Id) :
    (∀ raa : Float64, raa.ge a.RAA = true →
      ∃ risks, GenerateRisks T rule (input.replaceAsset id { a with RAA := raa }) =
          some (risks, none) ∧
        ∃ r ∈ risks, r.MostRelevantTechnicalAssetId = a.Id) ∧
    (∃ risks, GenerateRisks T rule
          (input.replaceAsset id { a with AssetType := TechnicalAssetType.Datastore }) =
          some (risks, none) ∧
        ∃ r ∈ risks, r.MostRelevantTechnicalAssetId = a.Id) ∧
    (∃ risks, GenerateRisks T rule
          (input.replaceAsset id { a with Technologies :=
            { tags := TechnologyAttribute.IsHighValueTarget :: a.Technologies.tags } }) =
          some (risks, none) ∧
        ∃ r ∈ risks, r.MostRelevantTechnicalAssetId = a.Id) := by
  have hem : emitsFor rule a = true := (risk_for_asset_iff T rule input hkeys id a ha).1 hflag
  refine ⟨?_, ?_, ?_⟩
  · intro raa hge
    exact risk_after_replace T rule input hkeys id a _ ha rfl (emitsFor_raa_mono rule a raa hge hem)
  · exact risk_after_replace T rule input hkeys id a _ ha rfl (emitsFor_datastore rule a hem)
  · exact risk_after_replace T rule input hkeys id a _ ha rfl (emitsFor_highValueTarget rule a hem)

open MissingHardeningRule in
/-- C33 at the sample hardening model and the asset "web" with RAA 60, which
the rule flags: it is flagged at RAA 75 too. -/
theorem C33_hardening_monotone_in_raa_witness :
    ((∀ id a, sampleHardeningModel.technicalAsset id = some a → a.Id = id) ∧
      sampleHardeningModel.technicalAsset "web" = some sampleWeb ∧
      (∃ risks, GenerateRisks sampleTypes NewMissingHardeningRule sampleHardeningModel =
          some (risks, none) ∧
        ∃ r ∈ risks, r.MostRelevantTechnicalAssetId = sampleWeb.Id) ∧
      (Float64.finite 75).ge sampleWeb.RAA = true) ∧
    ∃ risks, GenerateRisks sampleTypes NewMissingHardeningRule
          (sampleHardeningModel.replaceAsset "web"
            { sampleWeb with RAA := Float64.finite 75 }) = some (risks, none) ∧
        ∃ r ∈ risks, r.MostRelevantTechnicalAssetId = sampleWeb.Id :=
  have hflag : ∃ risks, GenerateRisks sampleTypes NewMissingHardeningRule sampleHardeningModel =
        some (risks, none) ∧
      ∃ r ∈ risks, r.MostRelevantTechnicalAssetId = sampleWeb.Id :=
    ⟨[sampleDbRisk, sampleWebRisk], by decide, sampleWebRisk,
      List.mem_cons_of_mem _ (List.mem_cons_self _ _), rfl⟩
  ⟨⟨modelOf_keys _, by decide, hflag, by decide⟩,
    (C33_hardening_monotone_in_raa sampleTypes NewMissingHardeningRule sampleHardeningModel
      "web" sampleWeb (modelOf_keys _) (by decide) hflag).1 (Float64.finite 75) (by decide)⟩

open MissingHardeningRule in
/-- C34: in a model that binds every asset under its own id,
`MissingHardeningRule.GenerateRisks` returns its risks in the order in which
`SortedTechnicalAssetIDs` lists their assets (the ids of the risks are a
sublist of the sorted ids), with at most one risk per asset id; the sorted id
list is strictly ascending, and for every strictly ascending list of ids the
risks of the loop over it have pairwise distinct `SyntheticId`s and are not
more than the ids. -/
theorem C34_hardening_risks_follow_sorted_ids (T : TypesPkg) (rule : MissingHardeningRule)
    (input : Model) (hkeys : ∀ id a, input.technicalAsset id = some a → a.Id = id) :
    ∃ risks, GenerateRisks T rule input = some (risks, none) ∧
      (risks.map (fun r => r.MostRelevantTechnicalAssetId)).Sublist
        input.SortedTechnicalAssetIDs ∧
      (∀ id, risks.countP (fun r => decide (r.MostRelevantTechnicalAssetId = id)) ≤ 1) ∧
      input.SortedTechnicalAssetIDs.Pairwise (fun a b => a.data < b.data) ∧
      (input.SortedTechnicalAssetIDs.Pairwise (fun a b => a.data < b.data) →
        (risks.map (fun r => r.SyntheticId)).Nodup ∧
          risks.length ≤ input.SortedTechnicalAssetIDs.length) := by
  refine ⟨_, GenerateRisks_eq T rule input, ?_, ?_, input.sortedIDs_strictlyAscending, ?_⟩
  · exact risk_ids_sublist T rule input hkeys
  · intro id
    have hnodup := (risk_ids_sublist T rule input hkeys).nodup input.sortedIDs_nodup
    have hcount := List.nodup_iff_count_le_one.1 hnodup id
    rw [List.count_eq_countP, List.countP_map] at hcount
    refine le_trans (le_of_eq ?_) hcount
    apply List.countP_congr
    intro r _
    show decide (r.MostRelevantTechnicalAssetId = id) = true ↔
      (r.MostRelevantTechnicalAssetId == id) = true
    rw [decide_eq_true_iff, beq_iff_eq]
  · intro hasc
    have hsub := risk_ids_sublist T rule input hkeys
    constructor
    · rw [risk_syntheticIds]
      exact (hsub.nodup (nodup_of_strictlyAscending _ hasc)).map
        (syntheticId_injective rule.Category.ID)
    · have hlen := hsub.length_le
      rw [List.length_map] at hlen
      exact hlen

open MissingHardeningRule in
/-- C34 at the sample hardening model: the two risks come in the order of
the sorted ids "cache", "db", "legacy", "web". -/
theorem C34_hardening_risks_follow_sorted_ids_witness :
    ((∀ id a, sampleHardeningModel.technicalAsset id = some a → a.Id = id) ∧
      sampleHardeningModel.SortedTechnicalAssetIDs = ["cache", "db", "legacy", "web"] ∧
      GenerateRisks sampleTypes NewMissingHardeningRule sampleHardeningModel =
        some ([sampleDbRisk, sampleWebRisk], none)) ∧
    ∃ risks, GenerateRisks sampleTypes NewMissingHardeningRule sampleHardeningModel =
        some (risks, none) ∧
      (risks.map (fun r => r.MostRelevantTechnicalAssetId)).Sublist
        sampleHardeningModel.SortedTechnicalAssetIDs ∧
      (∀ id, risks.countP (fun r => decide (r.MostRelevantTechnicalAssetId = id)) ≤ 1) ∧
      sampleHardeningModel.SortedTechnicalAssetIDs.Pairwise (fun a b => a.data < b.data) ∧
      (sampleHardeningModel.SortedTechnicalAssetIDs.Pairwise (fun a b => a.data < b.data) →
        (risks.map (fun r => r.SyntheticId)).Nodup ∧
          risks.length ≤ sampleHardeningModel.SortedTechnicalAssetIDs.length) :=
  ⟨⟨modelOf_keys _, by decide, by decide⟩,
    C34_hardening_risks_follow_sorted_ids sampleTypes NewMissingHardeningRule
      sampleHardeningModel (modelOf_keys _)⟩

open TrueExpression in
/-- C35: `ParseBool` is not atomic on failure: for every script on which it
returns an error, the operand expression of the receiver is left exactly as
it was before the call, but the literal of the receiver has been overwritten
with `common.ToLiteral` of the rejected script, so `Literal()` afterwards
reports the rejected script. -/
theorem C35_parse_bool_overwrites_literal_on_failure {Scope : Type} (E : ScriptPkg Scope)
    (what : TrueExpression Scope) (script : Script)
    (hfail : (ParseBool E what script).error ≠ none) :
    (ParseBool E what script).receiver.expression = what.expression ∧
      (ParseBool E what script).receiver.literal = E.ToLiteral script ∧
      (ParseBool E what script).receiver.Literal = E.ToLiteral script ∧
      (ParseBool E what script).result = none := by
  unfold ParseBool at hfail ⊢
  rcases hp : E.ExpressionListParseAny script with ⟨item, errorScript, itemError⟩
  rw [hp] at hfail
  cases itemError with
  | some err => exact ⟨rfl, rfl, rfl, rfl⟩
  | none =>
    cases item with
    | none => exact ⟨rfl, rfl, rfl, rfl⟩
    | some x =>
      cases x with
      | nonBool lit => exact ⟨rfl, rfl, rfl, rfl⟩
      | boolExpression c => simp at hfail

open TrueExpression in
/-- C35 at the sample package: the node parsed from `true` is handed the null
scalar, which is rejected; it keeps its operand and reports "null". -/
theorem C35_parse_bool_overwrites_literal_on_failure_witness :
    (ParseBool sampleScriptPkg (constNode true) Script.null).error ≠ none ∧
    ((ParseBool sampleScriptPkg (constNode true) Script.null).receiver.expression =
        (constNode true).expression ∧
      (ParseBool sampleScriptPkg (constNode true) Script.null).receiver.literal =
        sampleScriptPkg.ToLiteral Script.null ∧
      (ParseBool sampleScriptPkg (constNode true) Script.null).receiver.Literal =
        sampleScriptPkg.ToLiteral Script.null ∧
      (ParseBool sampleScriptPkg (constNode true) Script.null).result = none) :=
  ⟨by simp [ParseBool, sampleScriptPkg],
    C35_parse_bool_overwrites_literal_on_failure sampleScriptPkg (constNode true) Script.null
      (by simp [ParseBool, sampleScriptPkg])⟩

end Threagile
